import Mathlib

/-!
hyprortholayout: the stack store and the geometry calculator

A shallow embedding of `src/OrthoLayout.cpp` / `src/OrthoLayout.hpp`.

Conventions of the embedding
* `double` and `float` values are exact rationals (`ℚ`).
* A window handle is a natural number.  A node's weak reference `pWindow` is the
  handle it was created from; every entry point below is called with a live
  window, for which `nd.pWindow.lock() == pWindow` is equality of handles.
* `std::unordered_map<WORKSPACEID, V>` is an association list read through
  `UMap.find` / `UMap.get` (first binding of a key) and written through
  `UMap.set`; iteration visits the keys in list order.
* A pointer into a stack (`SOrthoNodeData*`) is the index of the node together
  with the node it points at.
* A C++ exception leaving a function is the result `none`.
* The compositor, the configuration values and the library routines
  `std::stof` and `CVarList` are not part of the repository; they are the
  fields of `Host`.
* `applyNodeDataToWindow` is embedded on its own, over an `ApplyEnv` in which a
  window reference may be dead; it writes to the window only, so the geometry
  computation, embedded for live references, leaves the call out.
* The focused monitor of `Desktop::focusState()` is an argument of the two
  functions that read it.
-/

namespace OrthoLayout

abbrev WORKSPACEID := Int
abbrev MONITORID := Int
abbrev PHLWINDOWREF := Nat

def WORKSPACE_INVALID : WORKSPACEID := -1

/-! ## Data model (OrthoLayout.hpp) -/

structure Vector2D where
  x : ℚ
  y : ℚ
deriving DecidableEq

instance : Add Vector2D := ⟨fun a b => ⟨a.x + b.x, a.y + b.y⟩⟩
instance : Sub Vector2D := ⟨fun a b => ⟨a.x - b.x, a.y - b.y⟩⟩

inductive eMainSide where
  | MAIN_SIDE_LEFT
  | MAIN_SIDE_RIGHT
deriving DecidableEq

inductive eOrthoStatus where
  | ORTHOSTATUS_MAIN
  | ORTHOSTATUS_SECONDARY
deriving DecidableEq

inductive eFullscreenMode where
  | FSMODE_NONE
  | FSMODE_MAXIMIZED
  | FSMODE_FULLSCREEN
deriving DecidableEq

structure SOrthoNodeData where
  pWindow : PHLWINDOWREF
  position : Vector2D := ⟨0, 0⟩
  size : Vector2D := ⟨0, 0⟩
  ignoreFullscreenChecks : Bool := false
  weight : ℚ := 1
deriving DecidableEq

/-- The node comparison `SOrthoNodeData::operator==`: same window. -/
def SOrthoNodeData.eqNode (a b : SOrthoNodeData) : Bool :=
  decide (a.pWindow = b.pWindow)

/-- Modelled from the spec: the fields `overrideMainWeights` and
`mainWeightOverrides` are used by `OrthoLayout.cpp` but their declaration is not
in `OrthoLayout.hpp`; overrides are absent unless parsed or set by a command. -/
structure SOrthoWorkspaceData where
  percMainStack : ℚ := 1 / 2
  mainStackMin : Int := 1
  workspaceID : WORKSPACEID := WORKSPACE_INVALID
  mainSide : eMainSide := eMainSide.MAIN_SIDE_LEFT
  overrideMainWeights : Bool := false
  mainWeightOverrides : List ℚ := []
deriving DecidableEq

/-! ## `std::unordered_map` keyed by workspace id -/

structure UMap (V : Type) where
  entries : List (WORKSPACEID × V)
deriving DecidableEq

namespace UMap

variable {V : Type}

def empty : UMap V := ⟨[]⟩

def findEntries : List (WORKSPACEID × V) → WORKSPACEID → Option V
  | [], _ => none
  | (k, v) :: rest, ws => if k = ws then some v else findEntries rest ws

def setEntries : List (WORKSPACEID × V) → WORKSPACEID → V → List (WORKSPACEID × V)
  | [], ws, v => [(ws, v)]
  | (k, v0) :: rest, ws, v => if k = ws then (k, v) :: rest else (k, v0) :: setEntries rest ws v

/-- The lookup `m.find(ws)`: `none` stands for `m.end()`. -/
def find (m : UMap V) (ws : WORKSPACEID) : Option V := findEntries m.entries ws

/-- Assignment through `m[ws]`: overwrites the binding or creates it. -/
def set (m : UMap V) (ws : WORKSPACEID) (v : V) : UMap V := ⟨setEntries m.entries ws v⟩

/-- The keys in iteration order. -/
def keys (m : UMap V) : List WORKSPACEID := m.entries.map Prod.fst

end UMap

/-- Reading a stack through `m[ws]`: a missing key is a fresh empty vector. -/
def UMap.get (m : UMap (List SOrthoNodeData)) (ws : WORKSPACEID) : List SOrthoNodeData :=
  (m.find ws).getD []

/-- The three stores of `COrthoLayout`. -/
structure COrthoLayout where
  m_orthoWorkspaceDataByWorkspace : UMap SOrthoWorkspaceData
  m_mainStackByWorkspace : UMap (List SOrthoNodeData)
  m_secondaryStackByWorkspace : UMap (List SOrthoNodeData)
deriving DecidableEq

/-- The engine right after construction (and after `onDisable`). -/
def COrthoLayout.init : COrthoLayout := ⟨UMap.empty, UMap.empty, UMap.empty⟩

/-! ## The host: compositor objects, configuration values, library routines -/

/-- The monitor fields read through `pWorkspace->m_monitor`. -/
structure MonitorGeometry where
  m_position : Vector2D
  m_size : Vector2D
  m_reservedTopLeft : Vector2D
  m_reservedBottomRight : Vector2D
deriving DecidableEq

/-- A workspace as `calculateWorkspace` sees it.  The function dereferences
`m_monitor.lock()` unconditionally (line 256), so the monitor is always there. -/
structure CWorkspace where
  m_id : WORKSPACEID
  m_monitor : MonitorGeometry
  m_hasFullscreenWindow : Bool
  m_fullscreenMode : eFullscreenMode
deriving DecidableEq

structure CMonitor where
  m_id : MONITORID
  m_activeWorkspace : Option CWorkspace
  m_activeSpecialWorkspace : Option CWorkspace
deriving DecidableEq

/-- A live window handed to an entry point. -/
structure CWindow where
  handle : PHLWINDOWREF
  m_isFloating : Bool
  m_isMapped : Bool
  isHidden : Bool
  workspaceID : WORKSPACEID
  monitorID : MONITORID
deriving DecidableEq

structure Host where
  /-- Value of `plugin:ortho:main_stack_side`. -/
  PMAINSIDE : String
  /-- Value of `plugin:ortho:main_stack_percent`. -/
  PMAINPERCENT : ℚ
  /-- Value of `plugin:ortho:main_stack_min` (a 64-bit `Hyprlang::INT`). -/
  PMAINSTACKMIN : Int
  /-- Value of `plugin:ortho:main_weight_overrides`. -/
  PMAINSTACKOVERRIDES : String
  /-- The conversion `std::stof`; `none` when it throws. -/
  stof : String → Option ℚ
  /-- The tokens of `CVarList(s, 0, ',')`. -/
  varListComma : String → List String
  /-- The monitors of `g_pCompositor`. -/
  m_monitors : List CMonitor
  /-- The windows of `g_pCompositor`. -/
  m_windows : List CWindow
  /-- The helper `isDirection`. -/
  isDirection : String → Bool
  /-- The call `g_pCompositor->getWindowInDirection(pWindow, dir[0])`. -/
  getWindowInDirection : CWindow → String → Option CWindow

/-- The call `g_pCompositor->getMonitorFromID`. -/
def Host.getMonitorFromID (host : Host) (monid : MONITORID) : Option CMonitor :=
  host.m_monitors.find? (fun m => decide (m.m_id = monid))

/-! ## Machine integers -/

/-- Conversion of a 64-bit value to `int`. -/
def toInt32 (v : Int) : Int := (v + 2 ^ 31) % 2 ^ 32 - 2 ^ 31

/-- Conversion of a signed 64-bit value to `size_t`. -/
def toSizeT (v : Int) : Nat := (v % 2 ^ 64).toNat

/-! ## Lookup (lines 22-58) -/

structure SNodeLookupResult where
  idx : Nat
  nd : SOrthoNodeData
  ws : WORKSPACEID
  status : eOrthoStatus
deriving DecidableEq

/-- The inner loop `for (auto &nd : nodes)`. -/
def findInStack (pWindow : PHLWINDOWREF) : List SOrthoNodeData → Nat → Option (Nat × SOrthoNodeData)
  | [], _ => none
  | nd :: rest, i => if nd.pWindow = pWindow then some (i, nd) else findInStack pWindow rest (i + 1)

/-- The outer loop `for (auto &[ws, nodes] : map)`. -/
def findInMap (pWindow : PHLWINDOWREF) (m : UMap (List SOrthoNodeData)) (status : eOrthoStatus) :
    List WORKSPACEID → Option SNodeLookupResult
  | [] => none
  | ws :: more =>
    match findInStack pWindow (m.get ws) 0 with
    | some (i, nd) => some ⟨i, nd, ws, status⟩
    | none => findInMap pWindow m status more

def getNodeFromWindow (s : COrthoLayout) (pWindow : PHLWINDOWREF) : Option SNodeLookupResult :=
  match findInMap pWindow s.m_mainStackByWorkspace eOrthoStatus.ORTHOSTATUS_MAIN
      s.m_mainStackByWorkspace.keys with
  | some r => some r
  | none => findInMap pWindow s.m_secondaryStackByWorkspace eOrthoStatus.ORTHOSTATUS_SECONDARY
      s.m_secondaryStackByWorkspace.keys

def isWindowTiled (s : COrthoLayout) (pWindow : PHLWINDOWREF) : Bool :=
  (getNodeFromWindow s pWindow).isSome

def getSecondaryStackSize (s : COrthoLayout) (ws : WORKSPACEID) : Int :=
  ((s.m_secondaryStackByWorkspace.get ws).length : Int)

def getMainStackSize (s : COrthoLayout) (ws : WORKSPACEID) : Int :=
  ((s.m_mainStackByWorkspace.get ws).length : Int)

def getNodeCountOnWorkspace (s : COrthoLayout) (ws : WORKSPACEID) : Int :=
  getSecondaryStackSize s ws + getMainStackSize s ws

/-! ## Weight parsing and the workspace configuration store (lines 60-131) -/

/-- The loop of `parseOverrideWeights` over the tokens `[start, min(end, size))`. -/
def parseOverrideWeightsLoop (stof : String → Option ℚ) : List String → Option (List ℚ)
  | [] => some []
  | t :: rest =>
    match stof t with
    | none => none
    | some overrideWeight =>
      match parseOverrideWeightsLoop stof rest with
      | none => none
      | some ws => some (overrideWeight :: ws)

/-- The parser.  The loop variable is `int i = std::max(start, size_t(0))`, so
`start` is narrowed to `int`; the comparison with `std::min(end, tokens.size())`
and the index `tokens[i]` read `i` as a `size_t` again. -/
def parseOverrideWeights (stof : String → Option ℚ) (tokens : List String) (start stop : Nat) :
    Option (List ℚ) :=
  parseOverrideWeightsLoop stof
    ((tokens.take (min stop tokens.length)).drop (toSizeT (toInt32 (start : Int))))

/-- The call `std::string::substr(pos, count)`: throws `std::out_of_range` when
`pos > size()`. -/
def substr (str : String) (pos count : Nat) : Option String :=
  if pos > str.length then none else some (String.mk ((str.data.drop pos).take count))

def getOrthoWorkspaceData (host : Host) (ws : WORKSPACEID) (s : COrthoLayout) :
    Option (SOrthoWorkspaceData × COrthoLayout) :=
  match s.m_orthoWorkspaceDataByWorkspace.find ws with
  | some data => some (data, s)
  | none =>
    let weights := host.PMAINSTACKOVERRIDES
    match substr weights 1 ((weights.length + 2 ^ 64 - 2) % 2 ^ 64) with
    | none => none
    | some inner =>
      let tokens := host.varListComma inner
      let RESULT := parseOverrideWeights host.stof tokens 0 tokens.length
      let workspaceData : SOrthoWorkspaceData :=
        { percMainStack := max (1 / 10) (min host.PMAINPERCENT (9 / 10))
          mainStackMin := toInt32 (if host.PMAINSTACKMIN ≤ 0 then 1 else host.PMAINSTACKMIN)
          workspaceID := ws
          mainSide := if host.PMAINSIDE = "right" then eMainSide.MAIN_SIDE_RIGHT
                      else eMainSide.MAIN_SIDE_LEFT
          overrideMainWeights := RESULT.isSome
          mainWeightOverrides := RESULT.getD [] }
      some (workspaceData,
        { s with m_orthoWorkspaceDataByWorkspace :=
                   s.m_orthoWorkspaceDataByWorkspace.set ws workspaceData })

/-! ## Geometry (lines 231-373) -/

/-- The total weight of the main stack (lines 303-318). -/
def mainTotalWeight (BOVERRIDEMAIN : Bool) (OVERRIDEWEIGHTS : List ℚ)
    (MAINSTACK : List SOrthoNodeData) : ℚ :=
  if !BOVERRIDEMAIN then
    MAINSTACK.foldl (fun totalWeight nd => totalWeight + nd.weight) 0
  else
    let total := (OVERRIDEWEIGHTS.take (min OVERRIDEWEIGHTS.length MAINSTACK.length)).foldl
      (fun totalWeight o => totalWeight + o) 0
    if OVERRIDEWEIGHTS.length < MAINSTACK.length then
      total + ((MAINSTACK.length - OVERRIDEWEIGHTS.length : Nat) : ℚ)
    else total

/-- The loop over the main stack (lines 326-345).  `weights_it` is the part of
`OVERRIDEWEIGHTS` from the iterator on. -/
def mainStackLoop (BISRIGHT BOVERRIDEMAIN : Bool) (WSPOS WSSIZE : Vector2D)
    (widthToSplit totalWeight : ℚ) :
    List SOrthoNodeData → ℚ → ℚ → List ℚ → List SOrthoNodeData
  | [], _, _, _ => []
  | nd :: rest, nextX, remainingWidth, weights_it =>
    let WEIGHT : ℚ :=
      if !BOVERRIDEMAIN then nd.weight
      else match weights_it with
        | [] => 1
        | o :: _ => o
    let WIDTH := min (widthToSplit * WEIGHT / totalWeight) remainingWidth
    let nextX1 := if !BISRIGHT then nextX - WIDTH else nextX
    let nd1 : SOrthoNodeData :=
      { nd with size := ⟨WIDTH, WSSIZE.y⟩, position := WSPOS + ⟨nextX1, 0⟩ }
    let nextX2 := if BISRIGHT then nextX1 + WIDTH else nextX1
    nd1 :: mainStackLoop BISRIGHT BOVERRIDEMAIN WSPOS WSSIZE widthToSplit totalWeight rest
      nextX2 (remainingWidth - WIDTH) weights_it.tail

/-- The loop over the secondary stack (lines 363-372). -/
def secondaryStackLoop (WSPOS WSSIZE : Vector2D) (WIDTH nextX totalWeight remainingHeight : ℚ) :
    List SOrthoNodeData → ℚ → List SOrthoNodeData
  | [], _ => []
  | nd :: rest, nextY =>
    let HEIGHT := min (WSSIZE.y * nd.weight / totalWeight) remainingHeight
    let nextY1 := nextY - HEIGHT
    let nd1 : SOrthoNodeData :=
      { nd with size := ⟨WIDTH, HEIGHT⟩, position := WSPOS + ⟨nextX, nextY1⟩ }
    nd1 :: secondaryStackLoop WSPOS WSSIZE WIDTH nextX totalWeight remainingHeight rest nextY1

/-- The geometry computation.  `applyNodeDataToWindow` writes to the window
object only, never to a node or a store, and is left out. -/
def calculateWorkspace (host : Host) (pWorkspace : CWorkspace) (s : COrthoLayout) :
    Option COrthoLayout :=
  let PMONITOR := pWorkspace.m_monitor
  let WSSIZE := PMONITOR.m_size - PMONITOR.m_reservedTopLeft - PMONITOR.m_reservedBottomRight
  let WSPOS := PMONITOR.m_position + PMONITOR.m_reservedTopLeft
  let WS := pWorkspace.m_id
  match getOrthoWorkspaceData host WS s with
  | none => none
  | some (WORKSPACEDATA, s1) =>
    let BISRIGHT := decide (WORKSPACEDATA.mainSide = eMainSide.MAIN_SIDE_RIGHT)
    let BOVERRIDEMAIN := WORKSPACEDATA.overrideMainWeights
    let OVERRIDEWEIGHTS := WORKSPACEDATA.mainWeightOverrides
    if pWorkspace.m_hasFullscreenWindow then some s1
    else
      let MAINSTACK := s1.m_mainStackByWorkspace.get WS
      let SECONDARYSTACK := s1.m_secondaryStackByWorkspace.get WS
      let s2 : COrthoLayout :=
        { s1 with
          m_mainStackByWorkspace := s1.m_mainStackByWorkspace.set WS MAINSTACK
          m_secondaryStackByWorkspace := s1.m_secondaryStackByWorkspace.set WS SECONDARYSTACK }
      if MAINSTACK.isEmpty then some s2
      else
        let widthToSplit : ℚ :=
          if SECONDARYSTACK.isEmpty then WSSIZE.x else WSSIZE.x * WORKSPACEDATA.percMainStack
        let totalWeight := mainTotalWeight BOVERRIDEMAIN OVERRIDEWEIGHTS MAINSTACK
        let nextX : ℚ := if BISRIGHT then WSSIZE.x - widthToSplit else widthToSplit
        let MAINSTACK1 := mainStackLoop BISRIGHT BOVERRIDEMAIN WSPOS WSSIZE widthToSplit
          totalWeight MAINSTACK nextX widthToSplit OVERRIDEWEIGHTS
        let s3 : COrthoLayout :=
          { s2 with m_mainStackByWorkspace := s2.m_mainStackByWorkspace.set WS MAINSTACK1 }
        if SECONDARYSTACK.isEmpty then some s3
        else
          let totalWeight2 : ℚ :=
            SECONDARYSTACK.foldl (fun totalWeight nd => totalWeight + nd.weight) 0
          let nextX2 : ℚ := if BISRIGHT then 0 else widthToSplit
          let nextY : ℚ := WSSIZE.y
          let WIDTH : ℚ := WSSIZE.x - widthToSplit
          let remainingHeight : ℚ := WSSIZE.y
          let SECONDARYSTACK1 := secondaryStackLoop WSPOS WSSIZE WIDTH nextX2 totalWeight2
            remainingHeight SECONDARYSTACK nextY
          some { s3 with
            m_secondaryStackByWorkspace := s3.m_secondaryStackByWorkspace.set WS SECONDARYSTACK1 }

def recalculateMonitor (host : Host) (monid : MONITORID) (s : COrthoLayout) :
    Option COrthoLayout :=
  match host.getMonitorFromID monid with
  | none => some s
  | some PMONITOR =>
    match PMONITOR.m_activeWorkspace with
    | none => some s
    | some activeWorkspace =>
      match PMONITOR.m_activeSpecialWorkspace with
      | some special =>
        match calculateWorkspace host special s with
        | none => none
        | some s1 => calculateWorkspace host activeWorkspace s1
      | none => calculateWorkspace host activeWorkspace s

/-! ## Lifecycle handlers (lines 164-229, 586-672, 718-726, 775-792) -/

/-- The stack a lookup result lives in. -/
def stackOf (s : COrthoLayout) (status : eOrthoStatus) (ws : WORKSPACEID) : List SOrthoNodeData :=
  match status with
  | eOrthoStatus.ORTHOSTATUS_MAIN => s.m_mainStackByWorkspace.get ws
  | eOrthoStatus.ORTHOSTATUS_SECONDARY => s.m_secondaryStackByWorkspace.get ws

def setStackOf (s : COrthoLayout) (status : eOrthoStatus) (ws : WORKSPACEID)
    (stack : List SOrthoNodeData) : COrthoLayout :=
  match status with
  | eOrthoStatus.ORTHOSTATUS_MAIN =>
    { s with m_mainStackByWorkspace := s.m_mainStackByWorkspace.set ws stack }
  | eOrthoStatus.ORTHOSTATUS_SECONDARY =>
    { s with m_secondaryStackByWorkspace := s.m_secondaryStackByWorkspace.set ws stack }

def onWindowCreatedTiling (host : Host) (pWindow : CWindow) (s : COrthoLayout) :
    Option COrthoLayout :=
  if pWindow.m_isFloating then some s
  else
    let PWORKSPACEID := pWindow.workspaceID
    let mainStackMinimum : Int :=
      toInt32 (if host.PMAINSTACKMIN ≥ 1 then host.PMAINSTACKMIN else 1)
    match getOrthoWorkspaceData host PWORKSPACEID s with
    | none => none
    | some (_, s1) =>
      let node : SOrthoNodeData := { pWindow := pWindow.handle }
      let s2 : COrthoLayout :=
        if getMainStackSize s1 PWORKSPACEID < mainStackMinimum then
          setStackOf s1 eOrthoStatus.ORTHOSTATUS_MAIN PWORKSPACEID
            (stackOf s1 eOrthoStatus.ORTHOSTATUS_MAIN PWORKSPACEID ++ [node])
        else
          setStackOf s1 eOrthoStatus.ORTHOSTATUS_SECONDARY PWORKSPACEID
            (stackOf s1 eOrthoStatus.ORTHOSTATUS_SECONDARY PWORKSPACEID ++ [node])
      recalculateMonitor host pWindow.monitorID s2

/-- The call `std::erase(stack, nd)`: drops every element equal to `nd`. -/
def eraseNode (stack : List SOrthoNodeData) (nd : SOrthoNodeData) : List SOrthoNodeData :=
  stack.filter (fun n => !(n.eqNode nd))

/-- The promotion of lines 222-226 on the two stacks of a workspace. -/
def promoteLast (host : Host) (status : eOrthoStatus) (MAINSTACK SECONDARYSTACK : List SOrthoNodeData) :
    List SOrthoNodeData × List SOrthoNodeData :=
  if status = eOrthoStatus.ORTHOSTATUS_MAIN ∧ MAINSTACK.length < toSizeT host.PMAINSTACKMIN then
    match SECONDARYSTACK.getLast? with
    | some last => (MAINSTACK ++ [last], SECONDARYSTACK.dropLast)
    | none => (MAINSTACK, SECONDARYSTACK)
  else (MAINSTACK, SECONDARYSTACK)

/-- Removal of a window.  `setWindowFullscreenInternal` is a compositor call; the
compositor it leaves behind is the one `host` describes. -/
def onWindowRemovedTiling (host : Host) (pWindow : CWindow) (s : COrthoLayout) :
    Option COrthoLayout :=
  match getNodeFromWindow s pWindow.handle with
  | none => some s
  | some result =>
    let ws := result.ws
    let MAINSTACK := s.m_mainStackByWorkspace.get ws
    let SECONDARYSTACK := s.m_secondaryStackByWorkspace.get ws
    let MAINSTACK1 :=
      if result.status = eOrthoStatus.ORTHOSTATUS_MAIN then eraseNode MAINSTACK result.nd
      else MAINSTACK
    let SECONDARYSTACK1 :=
      if result.status = eOrthoStatus.ORTHOSTATUS_MAIN then SECONDARYSTACK
      else eraseNode SECONDARYSTACK result.nd
    let promoted := promoteLast host result.status MAINSTACK1 SECONDARYSTACK1
    let s1 : COrthoLayout :=
      { s with
        m_mainStackByWorkspace := s.m_mainStackByWorkspace.set ws promoted.1
        m_secondaryStackByWorkspace := s.m_secondaryStackByWorkspace.set ws promoted.2 }
    recalculateMonitor host pWindow.monitorID s1

def switchWindows (host : Host) (pWindowA pWindowB : CWindow) (s : COrthoLayout) :
    Option COrthoLayout :=
  match getNodeFromWindow s pWindowA.handle, getNodeFromWindow s pWindowB.handle with
  | some resultA, some resultB =>
    let s0 := setStackOf (setStackOf s resultA.status resultA.ws (stackOf s resultA.status resultA.ws))
      resultB.status resultB.ws (stackOf s resultB.status resultB.ws)
    match findInStack resultA.nd.pWindow (stackOf s0 resultA.status resultA.ws) 0,
          findInStack resultB.nd.pWindow (stackOf s0 resultB.status resultB.ws) 0 with
    | some (idxA, ndA), some (idxB, ndB) =>
      let s1 := setStackOf s0 resultA.status resultA.ws
        ((stackOf s0 resultA.status resultA.ws).set idxA ndB)
      let s2 := setStackOf s1 resultB.status resultB.ws
        ((stackOf s1 resultB.status resultB.ws).set idxB ndA)
      match recalculateMonitor host pWindowA.monitorID s2 with
      | none => none
      | some s3 =>
        if resultA.ws ≠ resultB.ws then recalculateMonitor host pWindowB.monitorID s3
        else some s3
    | _, _ => some s0
  | _, _ => some s

/-- Replacement of a node's window.  The following `applyNodeDataToWindow`
writes to the window only. -/
def replaceWindowDataWith (pFrom pTo : CWindow) (s : COrthoLayout) : COrthoLayout :=
  match getNodeFromWindow s pFrom.handle with
  | none => s
  | some result =>
    setStackOf s result.status result.ws
      ((stackOf s result.status result.ws).set result.idx { result.nd with pWindow := pTo.handle })

def moveWindowTo (host : Host) (pWindow : CWindow) (dir : String) (s : COrthoLayout) :
    Option COrthoLayout :=
  if !host.isDirection dir then some s
  else
    match host.getWindowInDirection pWindow dir with
    | none => some s
    | some PWINDOW2 =>
      if pWindow.workspaceID ≠ PWINDOW2.workspaceID then
        match onWindowRemovedTiling host pWindow s with
        | none => none
        | some s1 =>
          onWindowCreatedTiling host
            { pWindow with workspaceID := PWINDOW2.workspaceID, monitorID := PWINDOW2.monitorID } s1
      else switchWindows host pWindow PWINDOW2 s

/-- The loop of `onEnable` over `g_pCompositor->m_windows`. -/
def onEnableLoop (host : Host) : List CWindow → COrthoLayout → Option COrthoLayout
  | [], s => some s
  | w :: rest, s =>
    if w.m_isFloating || !w.m_isMapped || w.isHidden then onEnableLoop host rest s
    else
      match onWindowCreatedTiling host w s with
      | none => none
      | some s1 => onEnableLoop host rest s1

def onEnable (host : Host) (s : COrthoLayout) : Option COrthoLayout :=
  onEnableLoop host host.m_windows s

def onDisable (_s : COrthoLayout) : COrthoLayout := COrthoLayout.init

/-! ## Runtime messages (lines 837-922) -/

/-- The header of a layout message: the target window, which may be null. -/
structure SLayoutMessageHeader where
  pWindow : Option CWindow
deriving DecidableEq

/-- The call `recalculateMonitor` inside a `try` block of `messageAdjustWeight`.
The only exception the recompute raises is the `std::out_of_range` of `substr`,
raised by `getOrthoWorkspaceData` before it writes anything; the handler
`catch (const std::out_of_range &)` swallows it, and the engine stays as the
recompute left it at that point. -/
def recalculateMonitorInTry (host : Host) (monid : MONITORID) (s : COrthoLayout) : COrthoLayout :=
  match host.getMonitorFromID monid with
  | none => s
  | some PMONITOR =>
    match PMONITOR.m_activeWorkspace with
    | none => s
    | some activeWorkspace =>
      match PMONITOR.m_activeSpecialWorkspace with
      | some special =>
        match calculateWorkspace host special s with
        | none => s
        | some s1 => (calculateWorkspace host activeWorkspace s1).getD s1
      | none => (calculateWorkspace host activeWorkspace s).getD s

/-- The assignment through the node pointer `nd->weight = w`. -/
def setNodeWeight (s : COrthoLayout) (result : SNodeLookupResult) (w : ℚ) : COrthoLayout :=
  setStackOf s result.status result.ws
    ((stackOf s result.status result.ws).set result.idx { result.nd with weight := w })

def messageAdjustWeight (host : Host) (header : SLayoutMessageHeader) (vars : List String)
    (s : COrthoLayout) : COrthoLayout :=
  match header.pWindow with
  | none => s
  | some PWINDOW =>
    match getNodeFromWindow s PWINDOW.handle with
    | none => s
    | some RESULT =>
      if vars.length = 2 then
        match host.stof (vars.getD 1 "") with
        | none => s
        | some adjustment =>
          recalculateMonitorInTry host PWINDOW.monitorID
            (setNodeWeight s RESULT (RESULT.nd.weight + adjustment))
      else if vars.length = 3 then
        if vars.getD 1 "" ≠ "exact" then s
        else
          match host.stof (vars.getD 2 "") with
          | none => s
          | some newWeight =>
            recalculateMonitorInTry host PWINDOW.monitorID (setNodeWeight s RESULT newWeight)
      else s

/-- The handler of `overridemainweights`.  It dereferences `header.pWindow`
without a null check; `none` is the result for a null window as well as for an
exception. -/
def messageOverrideMainWeights (host : Host) (header : SLayoutMessageHeader) (vars : List String)
    (s : COrthoLayout) : Option COrthoLayout :=
  match header.pWindow with
  | none => none
  | some PWINDOW =>
    let WS := PWINDOW.workspaceID
    let s0 : COrthoLayout :=
      { s with m_mainStackByWorkspace :=
                 s.m_mainStackByWorkspace.set WS (s.m_mainStackByWorkspace.get WS) }
    match getOrthoWorkspaceData host WS s0 with
    | none => none
    | some (WSDATA, s1) =>
      let RESULT := parseOverrideWeights host.stof vars 1 vars.length
      let s2 : COrthoLayout :=
        match RESULT with
        | some overrides =>
          { s1 with m_orthoWorkspaceDataByWorkspace :=
                      s1.m_orthoWorkspaceDataByWorkspace.set WS
                        { WSDATA with overrideMainWeights := true, mainWeightOverrides := overrides } }
        | none => s1
      recalculateMonitor host PWINDOW.monitorID s2

/-! ## Example data -/

/-- A workspace shown on a 1920x1080 monitor without reserved area. -/
def exampleWorkspace : CWorkspace :=
  { m_id := 1
    m_monitor := ⟨⟨0, 0⟩, ⟨1920, 1080⟩, ⟨0, 0⟩, ⟨0, 0⟩⟩
    m_hasFullscreenWindow := false
    m_fullscreenMode := eFullscreenMode.FSMODE_NONE }

def exampleMonitor : CMonitor :=
  { m_id := 0, m_activeWorkspace := some exampleWorkspace, m_activeSpecialWorkspace := none }

/-- A host with one monitor, main side left, split 0.5, the given minimum and the
given `main_weight_overrides` value; its `stof` knows the numerals 1, 2 and 3. -/
def exampleHost (minimum : Int) (overrides : String) : Host :=
  { PMAINSIDE := "left"
    PMAINPERCENT := 1 / 2
    PMAINSTACKMIN := minimum
    PMAINSTACKOVERRIDES := overrides
    stof := fun t => if t = "1" then some 1 else if t = "2" then some 2
      else if t = "3" then some 3 else none
    varListComma := fun str => str.splitOn ","
    m_monitors := [exampleMonitor]
    m_windows := []
    isDirection := fun dir => dir = "l" || dir = "r" || dir = "u" || dir = "d"
    getWindowInDirection := fun _ _ => none }

/-- A mapped, visible, tiled window on workspace 1 of monitor 0. -/
def exampleWindow (handle : PHLWINDOWREF) : CWindow :=
  { handle := handle, m_isFloating := false, m_isMapped := true, isHidden := false,
    workspaceID := 1, monitorID := 0 }

/-- An engine whose only workspace is 1, holding the given windows with weight 1. -/
def exampleState (main secondary : List PHLWINDOWREF) : COrthoLayout :=
  { m_orthoWorkspaceDataByWorkspace := UMap.empty
    m_mainStackByWorkspace := ⟨[(1, main.map (fun w => { pWindow := w }))]⟩
    m_secondaryStackByWorkspace := ⟨[(1, secondary.map (fun w => { pWindow := w }))]⟩ }

/-- A workspace with id 1 on a monitor at the origin with the given size and no
reserved area. -/
def exampleWorkspaceOf (width height : ℚ) : CWorkspace :=
  { m_id := 1
    m_monitor := ⟨⟨0, 0⟩, ⟨width, height⟩, ⟨0, 0⟩, ⟨0, 0⟩⟩
    m_hasFullscreenWindow := false
    m_fullscreenMode := eFullscreenMode.FSMODE_NONE }

/-- The configuration of workspace 1 with split 0.5 and minimum 1. -/
def exampleData (side : eMainSide) (overrideMainWeights : Bool) (overrides : List ℚ) :
    SOrthoWorkspaceData :=
  { percMainStack := 1 / 2, mainStackMin := 1, workspaceID := 1, mainSide := side,
    overrideMainWeights := overrideMainWeights, mainWeightOverrides := overrides }

/-- An engine whose only workspace is 1, with the given cached configuration and
the given (window, weight) nodes. -/
def exampleLayout (data : SOrthoWorkspaceData) (main secondary : List (PHLWINDOWREF × ℚ)) :
    COrthoLayout :=
  { m_orthoWorkspaceDataByWorkspace := ⟨[(1, data)]⟩
    m_mainStackByWorkspace := ⟨[(1, main.map (fun p => { pWindow := p.1, weight := p.2 }))]⟩
    m_secondaryStackByWorkspace :=
      ⟨[(1, secondary.map (fun p => { pWindow := p.1, weight := p.2 }))]⟩ }

/-- A fragment of `std::stof`: the values of a few numerals; every other token is
taken to throw. -/
def exampleStof (t : String) : Option ℚ :=
  if t = "0" then some 0 else if t = "-1" then some (-1) else if t = "1" then some 1
  else if t = "2" then some 2 else if t = "0.5" then some (1 / 2) else none

/-! ## Specification vocabulary -/

/-- The usable size of the workspace's monitor (`WSSIZE`). -/
def usableSize (pWorkspace : CWorkspace) : Vector2D :=
  pWorkspace.m_monitor.m_size - pWorkspace.m_monitor.m_reservedTopLeft
    - pWorkspace.m_monitor.m_reservedBottomRight

/-- The top-left corner of the usable area (`WSPOS`). -/
def usablePos (pWorkspace : CWorkspace) : Vector2D :=
  pWorkspace.m_monitor.m_position + pWorkspace.m_monitor.m_reservedTopLeft

/-- The width given to the main stack: the full usable width when the secondary
stack is empty, the usable width times the main-side percentage otherwise. -/
def splitWidth (pWorkspace : CWorkspace) (data : SOrthoWorkspaceData)
    (secondary : List SOrthoNodeData) : ℚ :=
  if secondary = [] then (usableSize pWorkspace).x
  else (usableSize pWorkspace).x * data.percMainStack

/-- The effective weight of each main node: with overrides active, the override
at the node's index while there is one and 1 beyond the list; the node's own
weight otherwise. -/
def effectiveWeights (data : SOrthoWorkspaceData) (main : List SOrthoNodeData) : List ℚ :=
  if data.overrideMainWeights then
    (List.range main.length).map (fun i => (data.mainWeightOverrides[i]?).getD 1)
  else main.map (fun nd => nd.weight)

/-- The weight the main loop uses for each node, for the override iterator
standing at `weights_it`. -/
def loopWeights (BOVERRIDEMAIN : Bool) : List SOrthoNodeData → List ℚ → List ℚ
  | [], _ => []
  | nd :: rest, weights_it =>
    (if !BOVERRIDEMAIN then nd.weight
     else match weights_it with
      | [] => 1
      | o :: _ => o) :: loopWeights BOVERRIDEMAIN rest weights_it.tail

/-- A row of nodes with given widths, placed from `nextX` on: rightwards when the
main side is right, leftwards when it is left. -/
def placeMain (BISRIGHT : Bool) (WSPOS : Vector2D) (height : ℚ) :
    List SOrthoNodeData → List ℚ → ℚ → List SOrthoNodeData
  | nd :: rest, w :: widths, nextX =>
    { nd with size := ⟨w, height⟩,
              position := WSPOS + ⟨if BISRIGHT then nextX else nextX - w, 0⟩ } ::
      placeMain BISRIGHT WSPOS height rest widths (if BISRIGHT then nextX + w else nextX - w)
  | _, _, _ => []

/-- A column of nodes with given heights, placed upwards from `nextY`. -/
def placeSecondary (WSPOS : Vector2D) (WIDTH nextX : ℚ) :
    List SOrthoNodeData → List ℚ → ℚ → List SOrthoNodeData
  | nd :: rest, h :: heights, nextY =>
    { nd with size := ⟨WIDTH, h⟩, position := WSPOS + ⟨nextX, nextY - h⟩ } ::
      placeSecondary WSPOS WIDTH nextX rest heights (nextY - h)
  | _, _, _ => []

/-- The horizontal extent of a node's rectangle: left edge, right edge. -/
def SOrthoNodeData.xExtent (nd : SOrthoNodeData) : ℚ × ℚ :=
  (nd.position.x, nd.position.x + nd.size.x)

/-- The vertical extent of a node's rectangle: top edge, bottom edge. -/
def SOrthoNodeData.yExtent (nd : SOrthoNodeData) : ℚ × ℚ :=
  (nd.position.y, nd.position.y + nd.size.y)

/-- The point `p` lies in the node's rectangle (edges: left and top included,
right and bottom excluded). -/
def SOrthoNodeData.covers (nd : SOrthoNodeData) (p : Vector2D) : Prop :=
  nd.position.x ≤ p.x ∧ p.x < nd.position.x + nd.size.x ∧
    nd.position.y ≤ p.y ∧ p.y < nd.position.y + nd.size.y

/-- The point `p` lies in the usable area of the workspace's monitor. -/
def inUsableArea (pWorkspace : CWorkspace) (p : Vector2D) : Prop :=
  (usablePos pWorkspace).x ≤ p.x ∧ p.x < (usablePos pWorkspace).x + (usableSize pWorkspace).x ∧
    (usablePos pWorkspace).y ≤ p.y ∧ p.y < (usablePos pWorkspace).y + (usableSize pWorkspace).y

/-- Intervals laid end to end from `a` up to `b`. -/
inductive ChainUp : ℚ → ℚ → List (ℚ × ℚ) → Prop
  | nil (a : ℚ) : ChainUp a a []
  | cons {a c b : ℚ} {rest : List (ℚ × ℚ)} :
      a ≤ c → ChainUp c b rest → ChainUp a b ((a, c) :: rest)

/-- Intervals laid end to end from `b` down to `a`. -/
inductive ChainDown : ℚ → ℚ → List (ℚ × ℚ) → Prop
  | nil (b : ℚ) : ChainDown b b []
  | cons {b c a : ℚ} {rest : List (ℚ × ℚ)} :
      c ≤ b → ChainDown c a rest → ChainDown b a ((c, b) :: rest)

/-- The intervals `ivs` tile `[lo, hi)`: each lies inside, no two overlap, and
every point of `[lo, hi)` is in one of them. -/
def Tiles (lo hi : ℚ) (ivs : List (ℚ × ℚ)) : Prop :=
  (∀ iv ∈ ivs, lo ≤ iv.1 ∧ iv.1 ≤ iv.2 ∧ iv.2 ≤ hi) ∧
  ivs.Pairwise (fun u v => u.2 ≤ v.1 ∨ v.2 ≤ u.1) ∧
  ∀ x, lo ≤ x → x < hi → ∃ iv ∈ ivs, iv.1 ≤ x ∧ x < iv.2

/-- The windows `onEnable` adopts: mapped, visible and not floating. -/
def adoptableWindows (l : List CWindow) : List CWindow :=
  l.filter (fun w => !(w.m_isFloating || !w.m_isMapped || w.isHidden))

/-- A node with its scratch rectangle blanked: what identifies the node in a
stack apart from the geometry every recompute overwrites. -/
def SOrthoNodeData.stripGeometry (nd : SOrthoNodeData) : SOrthoNodeData :=
  { nd with position := ⟨0, 0⟩, size := ⟨0, 0⟩ }

/-- The nodes of a stack, in order, without their rectangles. -/
def coreStack (s : COrthoLayout) (status : eOrthoStatus) (ws : WORKSPACEID) :
    List SOrthoNodeData :=
  (stackOf s status ws).map SOrthoNodeData.stripGeometry

/-- Two engine states hold the same nodes in the same slots of every stack. -/
def SameStacks (s s' : COrthoLayout) : Prop :=
  ∀ status ws, coreStack s' status ws = coreStack s status ws

/-- The windows referenced by a stack, in order. -/
def wins (s : COrthoLayout) (status : eOrthoStatus) (ws : WORKSPACEID) : List PHLWINDOWREF :=
  (stackOf s status ws).map (fun nd => nd.pWindow)

/-- The windows referenced on a workspace: main stack, then secondary stack. -/
def winsOn (s : COrthoLayout) (ws : WORKSPACEID) : List PHLWINDOWREF :=
  wins s eOrthoStatus.ORTHOSTATUS_MAIN ws ++ wins s eOrthoStatus.ORTHOSTATUS_SECONDARY ws

/-- A window reference appears in at most one node across all stacks of all
workspaces. -/
def WindowsUnique (s : COrthoLayout) : Prop :=
  (∀ ws, (winsOn s ws).Nodup) ∧ ∀ ws ws', ws ≠ ws' → List.Disjoint (winsOn s ws) (winsOn s ws')

/-- The engine states reached from the initial one by the lifecycle handlers when
the host keeps to the calling contract of the layout interface:
`onWindowCreatedTiling` (also inside `onEnable`) is only called for a window that
is not tiled at that moment, and the target of `replaceWindowDataWith` is not
tiled.  The host (configuration, monitors) may differ from call to call. -/
inductive Reachable : COrthoLayout → Prop
  | init : Reachable COrthoLayout.init
  | create {host : Host} {pWindow : CWindow} {s s' : COrthoLayout} :
      Reachable s → getNodeFromWindow s pWindow.handle = none →
      onWindowCreatedTiling host pWindow s = some s' → Reachable s'
  | remove {host : Host} {pWindow : CWindow} {s s' : COrthoLayout} :
      Reachable s → onWindowRemovedTiling host pWindow s = some s' → Reachable s'
  | switch {host : Host} {pWindowA pWindowB : CWindow} {s s' : COrthoLayout} :
      Reachable s → switchWindows host pWindowA pWindowB s = some s' → Reachable s'
  | move {host : Host} {pWindow : CWindow} {dir : String} {s s' : COrthoLayout} :
      Reachable s → moveWindowTo host pWindow dir s = some s' → Reachable s'
  | replace {pFrom pTo : CWindow} {s : COrthoLayout} :
      Reachable s → getNodeFromWindow s pTo.handle = none →
      Reachable (replaceWindowDataWith pFrom pTo s)
  | enable {host : Host} {s s' : COrthoLayout} :
      Reachable s →
      ((adoptableWindows host.m_windows).map (fun w => w.handle)).Nodup →
      (∀ w ∈ adoptableWindows host.m_windows, getNodeFromWindow s w.handle = none) →
      onEnable host s = some s' → Reachable s'

/-- The main stack as `calculateWorkspace` stores it back, for a workspace without
fullscreen window whose stacks are `M` and `S` (lines 288-345). -/
def relaidMain (pWorkspace : CWorkspace) (data : SOrthoWorkspaceData)
    (M S : List SOrthoNodeData) : List SOrthoNodeData :=
  if M.isEmpty then M
  else
    let BISRIGHT := decide (data.mainSide = eMainSide.MAIN_SIDE_RIGHT)
    let widthToSplit : ℚ :=
      if S.isEmpty then (usableSize pWorkspace).x
      else (usableSize pWorkspace).x * data.percMainStack
    mainStackLoop BISRIGHT data.overrideMainWeights (usablePos pWorkspace) (usableSize pWorkspace)
      widthToSplit (mainTotalWeight data.overrideMainWeights data.mainWeightOverrides M) M
      (if BISRIGHT then (usableSize pWorkspace).x - widthToSplit else widthToSplit)
      widthToSplit data.mainWeightOverrides

/-- The secondary stack as `calculateWorkspace` stores it back (lines 288-372). -/
def relaidSecondary (pWorkspace : CWorkspace) (data : SOrthoWorkspaceData)
    (M S : List SOrthoNodeData) : List SOrthoNodeData :=
  if M.isEmpty then S
  else if S.isEmpty then S
  else
    let BISRIGHT := decide (data.mainSide = eMainSide.MAIN_SIDE_RIGHT)
    let widthToSplit : ℚ := (usableSize pWorkspace).x * data.percMainStack
    secondaryStackLoop (usablePos pWorkspace) (usableSize pWorkspace)
      ((usableSize pWorkspace).x - widthToSplit) (if BISRIGHT then 0 else widthToSplit)
      (S.foldl (fun totalWeight nd => totalWeight + nd.weight) 0) (usableSize pWorkspace).y S
      (usableSize pWorkspace).y

/-- Every configuration entry cached in `s` is cached, unchanged, in `s'`. -/
def StoreKeeps (s s' : COrthoLayout) : Prop :=
  ∀ ws data, s.m_orthoWorkspaceDataByWorkspace.find ws = some data →
    s'.m_orthoWorkspaceDataByWorkspace.find ws = some data

/-- The state `s'` is reached from `s` by calls of the engine's entry points other
than `onDisable` and the message `overridemainweights`.  The host (configuration,
monitors, windows) may differ from call to call. -/
inductive RunsTo : COrthoLayout → COrthoLayout → Prop
  | refl (s : COrthoLayout) : RunsTo s s
  | lookup {host : Host} {ws : WORKSPACEID} {data : SOrthoWorkspaceData}
      {s s1 s2 : COrthoLayout} :
      RunsTo s s1 → getOrthoWorkspaceData host ws s1 = some (data, s2) → RunsTo s s2
  | calculate {host : Host} {pWorkspace : CWorkspace} {s s1 s2 : COrthoLayout} :
      RunsTo s s1 → calculateWorkspace host pWorkspace s1 = some s2 → RunsTo s s2
  | recalculate {host : Host} {monid : MONITORID} {s s1 s2 : COrthoLayout} :
      RunsTo s s1 → recalculateMonitor host monid s1 = some s2 → RunsTo s s2
  | create {host : Host} {pWindow : CWindow} {s s1 s2 : COrthoLayout} :
      RunsTo s s1 → onWindowCreatedTiling host pWindow s1 = some s2 → RunsTo s s2
  | remove {host : Host} {pWindow : CWindow} {s s1 s2 : COrthoLayout} :
      RunsTo s s1 → onWindowRemovedTiling host pWindow s1 = some s2 → RunsTo s s2
  | switch {host : Host} {pWindowA pWindowB : CWindow} {s s1 s2 : COrthoLayout} :
      RunsTo s s1 → switchWindows host pWindowA pWindowB s1 = some s2 → RunsTo s s2
  | move {host : Host} {pWindow : CWindow} {dir : String} {s s1 s2 : COrthoLayout} :
      RunsTo s s1 → moveWindowTo host pWindow dir s1 = some s2 → RunsTo s s2
  | replace {pFrom pTo : CWindow} {s s1 : COrthoLayout} :
      RunsTo s s1 → RunsTo s (replaceWindowDataWith pFrom pTo s1)
  | enable {host : Host} {s s1 s2 : COrthoLayout} :
      RunsTo s s1 → onEnable host s1 = some s2 → RunsTo s s2
  | adjust {host : Host} {header : SLayoutMessageHeader} {vars : List String}
      {s s1 : COrthoLayout} :
      RunsTo s s1 → RunsTo s (messageAdjustWeight host header vars s1)

/-! ## Further entry points (lines 375-500, 572-578, 678-716, 728-773) -/

def recalculateWindow (host : Host) (pWindow : CWindow) (s : COrthoLayout) :
    Option COrthoLayout :=
  match getNodeFromWindow s pWindow.handle with
  | none => some s
  | some _ => recalculateMonitor host pWindow.monitorID s

/-- The monitor `Desktop::focusState()->monitor()` as the engine reads it: its
size and its active workspace (`none` for a null `m_activeWorkspace`). -/
structure FocusedMonitor where
  m_size : Vector2D
  m_activeWorkspace : Option WORKSPACEID
deriving DecidableEq

/-- The call `CMonitor::activeWorkspaceID()`. -/
def FocusedMonitor.activeWorkspaceID (m : FocusedMonitor) : WORKSPACEID :=
  m.m_activeWorkspace.getD WORKSPACE_INVALID

/-- The candidate lookup.  The result is the window handle returned (`none` for
`nullptr`) and the engine, in which the `operator[]` reads have created the stacks
they did not find. -/
def getNextWindowCandidate (focus : Option FocusedMonitor) (pWindow : CWindow)
    (s : COrthoLayout) : Option PHLWINDOWREF × COrthoLayout :=
  match getNodeFromWindow s pWindow.handle with
  | none =>
    match focus with
    | none => (none, s)
    | some monitor =>
      let ws := monitor.activeWorkspaceID
      let mainStack := s.m_mainStackByWorkspace.get ws
      let s1 := setStackOf s eOrthoStatus.ORTHOSTATUS_MAIN ws mainStack
      match mainStack with
      | [] => (none, s1)
      | nd :: _ => (some nd.pWindow, s1)
  | some result =>
    let ws := result.ws
    let mainStack := s.m_mainStackByWorkspace.get ws
    let secondaryStack := s.m_secondaryStackByWorkspace.get ws
    let s1 := setStackOf (setStackOf s eOrthoStatus.ORTHOSTATUS_MAIN ws mainStack)
      eOrthoStatus.ORTHOSTATUS_SECONDARY ws secondaryStack
    let firstPool :=
      if result.status = eOrthoStatus.ORTHOSTATUS_MAIN then mainStack else secondaryStack
    let secondPool :=
      if result.status = eOrthoStatus.ORTHOSTATUS_MAIN then secondaryStack else mainStack
    match findInStack result.nd.pWindow firstPool 0 with
    | none => (firstPool.head?.map (fun nd => nd.pWindow), s1)
    | some (idx, _) =>
      match firstPool[idx + 1]? with
      | some CANDIDATE => (some CANDIDATE.pWindow, s1)
      | none =>
        match secondPool with
        | CANDIDATE :: _ => (some CANDIDATE.pWindow, s1)
        | [] => (firstPool.head?.map (fun nd => nd.pWindow), s1)

/-- The size prediction.  `none` is the fault of dereferencing a null
`m_activeWorkspace`; the engine returned has the stacks and the configuration
entry that the `operator[]` reads created (the entry is default-constructed, not
built from the configuration).  `MAINSTACK.size() < mainStackMinimum` compares
the `int` as a `size_t`. -/
def predictSizeForNewWindowTiled (host : Host) (focus : Option FocusedMonitor)
    (s : COrthoLayout) : Option (Vector2D × COrthoLayout) :=
  let mainStackMinimum : Int :=
    toInt32 (if host.PMAINSTACKMIN ≥ 1 then host.PMAINSTACKMIN else 1)
  match focus with
  | none => some (⟨0, 0⟩, s)
  | some monitor =>
    match monitor.m_activeWorkspace with
    | none => none
    | some WS =>
      let MAINSTACK := s.m_mainStackByWorkspace.get WS
      let SECONDARYSTACK := s.m_secondaryStackByWorkspace.get WS
      let WSDATA : SOrthoWorkspaceData := (s.m_orthoWorkspaceDataByWorkspace.find WS).getD {}
      let s1 : COrthoLayout :=
        ⟨s.m_orthoWorkspaceDataByWorkspace.set WS WSDATA,
          s.m_mainStackByWorkspace.set WS MAINSTACK,
          s.m_secondaryStackByWorkspace.set WS SECONDARYSTACK⟩
      let MSIZE := monitor.m_size
      if MAINSTACK.length = 0 then some (monitor.m_size, s1)
      else if MAINSTACK.length < toSizeT mainStackMinimum then
        let HEIGHT := MSIZE.y
        let totalWeight := MAINSTACK.foldl (fun totalWeight nd => totalWeight + nd.weight) 1
        let NPERC := 1 / totalWeight
        let WIDTH := MSIZE.x * WSDATA.percMainStack * NPERC
        some (⟨WIDTH, HEIGHT⟩, s1)
      else
        let WIDTH := MSIZE.x * (1 - WSDATA.percMainStack)
        let totalWeight := SECONDARYSTACK.foldl (fun totalWeight nd => totalWeight + nd.weight) 1
        let NPERC := 1 / totalWeight
        let HEIGHT := MSIZE.y * NPERC
        some (⟨WIDTH, HEIGHT⟩, s1)

/-- The gap sizes of `CCssGapData`. -/
structure CCssGapData where
  m_top : Int
  m_right : Int
  m_bottom : Int
  m_left : Int
deriving DecidableEq

/-- What `applyNodeDataToWindow` reads through a live window handle. -/
structure WindowView where
  /-- Result of `isFullscreen()`. -/
  isFullscreen : Bool
  /-- Result of `validMapped(PWINDOW)`. -/
  validMapped : Bool
  /-- Result of `onSpecialWorkspace()`. -/
  onSpecialWorkspace : Bool
  /-- The field `gapsIn` of the workspace rule of the window's workspace. -/
  ruleGapsIn : Option CCssGapData
  /-- The field `gapsOut` of the workspace rule of the window's workspace. -/
  ruleGapsOut : Option CCssGapData
  /-- The field `topLeft` of `getFullWindowReservedArea()`. -/
  reservedTopLeft : Vector2D
  /-- The field `bottomRight` of `getFullWindowReservedArea()`. -/
  reservedBottomRight : Vector2D
deriving DecidableEq

/-- The compositor as `applyNodeDataToWindow` sees it. -/
structure ApplyEnv where
  /-- The monitor found for the id of an existing workspace (lines 377-391);
  `none` is null. -/
  monitorOf : WORKSPACEID → Option MonitorGeometry
  /-- The call `pNode->pWindow.lock()`; `none` is a dead reference. -/
  lock : PHLWINDOWREF → Option WindowView
  /-- The macro `STICKS`. -/
  STICKS : ℚ → ℚ → Bool
  /-- Value of `general:gaps_in`. -/
  PGAPSIN : CCssGapData
  /-- Value of `general:gaps_out`. -/
  PGAPSOUT : CCssGapData
  /-- Value of `misc:size_limits_tiled`. -/
  PCLAMP_TILED : Int
  /-- The block of lines 454-470 (size limits of the window rules, `Vector2D::clamp`,
  `INFINITY`, `MIN_WINDOW_SIZE`): from the monitor, the outer gaps, `calcPos` and
  `calcSize` to the new `calcPos` and `calcSize`. -/
  sizeLimits : MonitorGeometry → CCssGapData → Vector2D → Vector2D → Vector2D × Vector2D
  /-- The call `CBox::round` on a box given by position and size. -/
  round : Vector2D × Vector2D → Vector2D × Vector2D

/-- What `applyNodeDataToWindow` writes to the window. -/
structure WindowWrites where
  /-- The field `m_position`. -/
  m_position : Vector2D
  /-- The field `m_size`. -/
  m_size : Vector2D
  /-- The box `wb` before `wb.round()`: position. -/
  boxPos : Vector2D
  /-- The box `wb` before `wb.round()`: size. -/
  boxSize : Vector2D
  /-- The goal of `m_realPosition`. -/
  m_realPosition : Vector2D
  /-- The goal of `m_realSize`. -/
  m_realSize : Vector2D
deriving DecidableEq

/-- How a call of `applyNodeDataToWindow` ends. -/
inductive ApplyResult where
  /-- A null window handle was dereferenced. -/
  | fault
  /-- The function returned without writing a position or size. -/
  | skipped
  /-- The function wrote the window's geometry. -/
  | applied (w : WindowWrites)
deriving DecidableEq

def applyNodeDataToWindow (env : ApplyEnv) (pNode : SOrthoNodeData) (ws : WORKSPACEID) :
    ApplyResult :=
  match env.monitorOf ws with
  | none => ApplyResult.skipped
  | some PMONITOR =>
    let DISPLAYLEFT := env.STICKS pNode.position.x (PMONITOR.m_position.x + PMONITOR.m_reservedTopLeft.x)
    let DISPLAYRIGHT := env.STICKS (pNode.position.x + pNode.size.x)
      (PMONITOR.m_position.x + PMONITOR.m_size.x - PMONITOR.m_reservedBottomRight.x)
    let DISPLAYTOP := env.STICKS pNode.position.y (PMONITOR.m_position.y + PMONITOR.m_reservedTopLeft.y)
    let DISPLAYBOTTOM := env.STICKS (pNode.position.y + pNode.size.y)
      (PMONITOR.m_position.y + PMONITOR.m_size.y - PMONITOR.m_reservedBottomRight.y)
    match env.lock pNode.pWindow with
    | none => ApplyResult.fault
    | some PWINDOW =>
      if PWINDOW.isFullscreen && !pNode.ignoreFullscreenChecks then ApplyResult.skipped
      else
        let gapsIn := PWINDOW.ruleGapsIn.getD env.PGAPSIN
        let gapsOut := PWINDOW.ruleGapsOut.getD env.PGAPSOUT
        if !PWINDOW.validMapped then ApplyResult.skipped
        else
          let OFFSETTOPLEFT : Vector2D :=
            ⟨((if DISPLAYLEFT then gapsOut.m_left else gapsIn.m_left : Int) : ℚ),
              ((if DISPLAYTOP then gapsOut.m_top else gapsIn.m_top : Int) : ℚ)⟩
          let OFFSETBOTTOMRIGHT : Vector2D :=
            ⟨((if DISPLAYRIGHT then gapsOut.m_right else gapsIn.m_right : Int) : ℚ),
              ((if DISPLAYBOTTOM then gapsOut.m_bottom else gapsIn.m_bottom : Int) : ℚ)⟩
          let calcPos := pNode.position + OFFSETTOPLEFT
          let calcSize := pNode.size - OFFSETTOPLEFT - OFFSETBOTTOMRIGHT
          let calcPos1 := calcPos + PWINDOW.reservedTopLeft
          let calcSize1 := calcSize - (PWINDOW.reservedTopLeft + PWINDOW.reservedBottomRight)
          let clamped : Vector2D × Vector2D :=
            if env.PCLAMP_TILED ≠ 0 then env.sizeLimits PMONITOR gapsOut calcPos1 calcSize1
            else (calcPos1, calcSize1)
          let wb : Vector2D × Vector2D :=
            if PWINDOW.onSpecialWorkspace && !PWINDOW.isFullscreen then
              (clamped.1 + ⟨(clamped.2.x - clamped.2.x) / 2, (clamped.2.y - clamped.2.y) / 2⟩,
                clamped.2)
            else clamped
          ApplyResult.applied
            { m_position := pNode.position, m_size := pNode.size, boxPos := wb.1, boxSize := wb.2,
              m_realPosition := (env.round wb).1, m_realSize := (env.round wb).2 }

/-- A compositor with one 1920x1080 monitor without reserved area, inner gaps 5,
outer gaps 20, no size limits, no rounding, `STICKS(a, b)` as `|a - b| < 2`, and
the window 7 alive, mapped, not fullscreen, without reserved area; every other
window reference is dead. -/
def exampleApplyEnv : ApplyEnv :=
  { monitorOf := fun _ => some ⟨⟨0, 0⟩, ⟨1920, 1080⟩, ⟨0, 0⟩, ⟨0, 0⟩⟩
    lock := fun w =>
      if w = 7 then
        some { isFullscreen := false, validMapped := true, onSpecialWorkspace := false,
               ruleGapsIn := none, ruleGapsOut := none,
               reservedTopLeft := ⟨0, 0⟩, reservedBottomRight := ⟨0, 0⟩ }
      else none
    STICKS := fun a b => decide (|a - b| < 2)
    PGAPSIN := ⟨5, 5, 5, 5⟩
    PGAPSOUT := ⟨20, 20, 20, 20⟩
    PCLAMP_TILED := 0
    sizeLimits := fun _ _ calcPos calcSize => (calcPos, calcSize)
    round := fun wb => wb }

/-- The engine states reached from the empty engine by `onWindowCreatedTiling` of
windows that are not tiled at that moment, `onWindowRemovedTiling` and
`switchWindows`, under hosts whose configured `main_stack_min` is `m`. -/
inductive ReachableWith (m : Int) : COrthoLayout → Prop
  | init : ReachableWith m COrthoLayout.init
  | create {host : Host} {pWindow : CWindow} {s s' : COrthoLayout} :
      ReachableWith m s → host.PMAINSTACKMIN = m →
      getNodeFromWindow s pWindow.handle = none →
      onWindowCreatedTiling host pWindow s = some s' → ReachableWith m s'
  | remove {host : Host} {pWindow : CWindow} {s s' : COrthoLayout} :
      ReachableWith m s → host.PMAINSTACKMIN = m →
      onWindowRemovedTiling host pWindow s = some s' → ReachableWith m s'
  | switch {host : Host} {pWindowA pWindowB : CWindow} {s s' : COrthoLayout} :
      ReachableWith m s → host.PMAINSTACKMIN = m →
      switchWindows host pWindowA pWindowB s = some s' → ReachableWith m s'

/-- The shape of a workspace's stacks under the minimum `m`: at most `m` main
nodes, and secondary nodes only when the main stack is full. -/
def StackShape (m : Int) (s : COrthoLayout) (ws : WORKSPACEID) : Prop :=
  getMainStackSize s ws ≤ m ∧ (getMainStackSize s ws < m → getSecondaryStackSize s ws = 0)

/-- The host `exampleHost` with the conversion `exampleStof`. -/
def exampleHostStof (minimum : Int) (overrides : String) : Host :=
  { exampleHost minimum overrides with stof := exampleStof }

/-- The role of the other stack of a workspace. -/
def otherStatus (status : eOrthoStatus) : eOrthoStatus :=
  match status with
  | eOrthoStatus.ORTHOSTATUS_MAIN => eOrthoStatus.ORTHOSTATUS_SECONDARY
  | eOrthoStatus.ORTHOSTATUS_SECONDARY => eOrthoStatus.ORTHOSTATUS_MAIN

/-- The gap at one edge: the outer gap if the edge sticks to the edge of the
usable area, the inner gap otherwise. -/
def edgeGap (sticks : Bool) (outer inner : Int) : ℚ :=
  if sticks then (outer : ℚ) else (inner : ℚ)

/-- The stack lengths of a workspace obey the shape for `m`. -/
def LengthShape (m : Int) (s : COrthoLayout) : Prop :=
  ∀ ws, ((stackOf s eOrthoStatus.ORTHOSTATUS_MAIN ws).length : Int) ≤ m ∧
    (((stackOf s eOrthoStatus.ORTHOSTATUS_MAIN ws).length : Int) < m →
      (stackOf s eOrthoStatus.ORTHOSTATUS_SECONDARY ws).length = 0)

/-! ## Lemmas: the map -/

theorem UMap.findEntries_setEntries {V : Type} (l : List (WORKSPACEID × V)) (ws ws' : WORKSPACEID)
    (v : V) :
    UMap.findEntries (UMap.setEntries l ws v) ws' =
      if ws' = ws then some v else UMap.findEntries l ws' := by
  induction l with
  | nil =>
    by_cases h : ws' = ws
    · simp [UMap.setEntries, UMap.findEntries, h]
    · have h2 : ¬ ws = ws' := fun e => h e.symm
      simp [UMap.setEntries, UMap.findEntries, h, h2]
  | cons e rest ih =>
    obtain ⟨k, v0⟩ := e
    by_cases hk : k = ws
    · subst hk
      by_cases h : ws' = k
      · subst h; simp [UMap.setEntries, UMap.findEntries]
      · have h2 : ¬ k = ws' := fun e => h e.symm
        simp [UMap.setEntries, UMap.findEntries, h, h2]
    · by_cases h : ws' = ws
      · subst h
        simp [UMap.setEntries, UMap.findEntries, hk, ih]
      · by_cases hk2 : k = ws'
        · simp [UMap.setEntries, UMap.findEntries, hk, hk2, h]
        · simp [UMap.setEntries, UMap.findEntries, hk, hk2, h, ih]

theorem UMap.find_set {V : Type} (m : UMap V) (ws ws' : WORKSPACEID) (v : V) :
    (m.set ws v).find ws' = if ws' = ws then some v else m.find ws' :=
  UMap.findEntries_setEntries m.entries ws ws' v

theorem UMap.get_set (m : UMap (List SOrthoNodeData)) (ws ws' : WORKSPACEID)
    (v : List SOrthoNodeData) :
    (m.set ws v).get ws' = if ws' = ws then v else m.get ws' := by
  unfold UMap.get
  rw [UMap.find_set]
  split <;> rfl

theorem UMap.get_set_get (m : UMap (List SOrthoNodeData)) (ws ws' : WORKSPACEID) :
    (m.set ws (m.get ws)).get ws' = m.get ws' := by
  rw [UMap.get_set]
  split
  · next h => rw [h]
  · rfl

theorem stackOf_setStackOf (s : COrthoLayout) (status status' : eOrthoStatus)
    (ws ws' : WORKSPACEID) (v : List SOrthoNodeData) :
    stackOf (setStackOf s status ws v) status' ws' =
      if status' = status ∧ ws' = ws then v else stackOf s status' ws' := by
  cases status <;> cases status' <;> simp [stackOf, setStackOf, UMap.get_set]

/-! ## Lemmas: the recompute leaves the stacks' nodes in place -/

theorem SameStacks.refl (s : COrthoLayout) : SameStacks s s := fun _ _ => rfl

theorem SameStacks.trans {s s1 s2 : COrthoLayout} (h1 : SameStacks s s1) (h2 : SameStacks s1 s2) :
    SameStacks s s2 := fun status ws => (h2 status ws).trans (h1 status ws)

theorem mainStackLoop_strip (BISRIGHT BOVERRIDEMAIN : Bool) (WSPOS WSSIZE : Vector2D)
    (widthToSplit totalWeight : ℚ) (l : List SOrthoNodeData) :
    ∀ (nextX remainingWidth : ℚ) (it : List ℚ),
      (mainStackLoop BISRIGHT BOVERRIDEMAIN WSPOS WSSIZE widthToSplit totalWeight l nextX
        remainingWidth it).map SOrthoNodeData.stripGeometry
        = l.map SOrthoNodeData.stripGeometry := by
  induction l with
  | nil => intro _ _ _; rfl
  | cons nd rest ih =>
    intro nextX remainingWidth it
    simp only [mainStackLoop, List.map_cons, ih]
    rfl

theorem secondaryStackLoop_strip (WSPOS WSSIZE : Vector2D)
    (WIDTH nextX totalWeight remainingHeight : ℚ) (l : List SOrthoNodeData) :
    ∀ (nextY : ℚ),
      (secondaryStackLoop WSPOS WSSIZE WIDTH nextX totalWeight remainingHeight l nextY).map
        SOrthoNodeData.stripGeometry = l.map SOrthoNodeData.stripGeometry := by
  induction l with
  | nil => intro _; rfl
  | cons nd rest ih =>
    intro nextY
    simp only [secondaryStackLoop, List.map_cons, ih]
    rfl

theorem substr_one_isSome (str : String) (count : Nat) (h : str ≠ "") :
    ∃ inner, substr str 1 count = some inner := by
  have hlen : ¬ 1 > str.length := by
    have : str.length ≠ 0 := by
      intro h0
      apply h
      have hd : str.data = [] := List.length_eq_zero.mp h0
      exact String.ext hd
    omega
  unfold substr
  rw [if_neg hlen]
  exact ⟨_, rfl⟩

/-- With a non-empty `main_weight_overrides` value the configuration lookup
returns, and it touches neither stack store. -/
theorem getOrthoWorkspaceData_some (host : Host) (ws : WORKSPACEID) (s : COrthoLayout)
    (hcfg : host.PMAINSTACKOVERRIDES ≠ "") :
    ∃ data s1, getOrthoWorkspaceData host ws s = some (data, s1) ∧
      s1.m_mainStackByWorkspace = s.m_mainStackByWorkspace ∧
      s1.m_secondaryStackByWorkspace = s.m_secondaryStackByWorkspace := by
  unfold getOrthoWorkspaceData
  cases hf : s.m_orthoWorkspaceDataByWorkspace.find ws with
  | some data => exact ⟨data, s, rfl, rfl, rfl⟩
  | none =>
    obtain ⟨inner, hin⟩ := substr_one_isSome host.PMAINSTACKOVERRIDES
      ((host.PMAINSTACKOVERRIDES.length + 2 ^ 64 - 2) % 2 ^ 64) hcfg
    simp only [hin]
    exact ⟨_, _, rfl, rfl, rfl⟩

theorem sameStacks_of_get {s s' : COrthoLayout}
    (hm : ∀ ws, (s'.m_mainStackByWorkspace.get ws).map SOrthoNodeData.stripGeometry
      = (s.m_mainStackByWorkspace.get ws).map SOrthoNodeData.stripGeometry)
    (hs : ∀ ws, (s'.m_secondaryStackByWorkspace.get ws).map SOrthoNodeData.stripGeometry
      = (s.m_secondaryStackByWorkspace.get ws).map SOrthoNodeData.stripGeometry) :
    SameStacks s s' := by
  intro status ws
  cases status
  · exact hm ws
  · exact hs ws

theorem getOrthoWorkspaceData_stores {host : Host} {ws : WORKSPACEID} {s s1 : COrthoLayout}
    {data : SOrthoWorkspaceData} (h : getOrthoWorkspaceData host ws s = some (data, s1)) :
    s1.m_mainStackByWorkspace = s.m_mainStackByWorkspace ∧
      s1.m_secondaryStackByWorkspace = s.m_secondaryStackByWorkspace := by
  unfold getOrthoWorkspaceData at h
  cases hf : s.m_orthoWorkspaceDataByWorkspace.find ws with
  | some d =>
    rw [hf] at h
    simp only [Option.some.injEq, Prod.mk.injEq] at h
    rw [← h.2]
    exact ⟨rfl, rfl⟩
  | none =>
    rw [hf] at h
    simp only at h
    split at h
    · simp at h
    · simp only [Option.some.injEq, Prod.mk.injEq] at h
      rw [← h.2]
      exact ⟨rfl, rfl⟩

/-- A recompute that returns has kept every node in its slot. -/
theorem calculateWorkspace_sameStacks {host : Host} {pWorkspace : CWorkspace}
    {s s' : COrthoLayout} (h : calculateWorkspace host pWorkspace s = some s') :
    SameStacks s s' := by
  unfold calculateWorkspace at h
  cases h1 : getOrthoWorkspaceData host pWorkspace.m_id s with
  | none => simp [h1] at h
  | some ds =>
    obtain ⟨data, s1⟩ := ds
    obtain ⟨hm, hs⟩ := getOrthoWorkspaceData_stores h1
    simp only [h1] at h
    split at h
    · simp only [Option.some.injEq] at h
      subst h
      refine sameStacks_of_get ?_ ?_ <;> intro ws <;> simp [hm, hs]
    · split at h
      · simp only [Option.some.injEq] at h
        subst h
        refine sameStacks_of_get ?_ ?_ <;> intro ws <;> simp [hm, hs, UMap.get_set_get]
      · split at h
        · simp only [Option.some.injEq] at h
          subst h
          refine sameStacks_of_get ?_ ?_ <;> intro ws
          · simp only [UMap.get_set, hm]
            split
            · next h => subst h; simp [mainStackLoop_strip, hm]
            · rfl
          · simp [hs, UMap.get_set_get]
        · simp only [Option.some.injEq] at h
          subst h
          refine sameStacks_of_get ?_ ?_ <;> intro ws
          · simp only [UMap.get_set, hm]
            split
            · next h => subst h; simp [mainStackLoop_strip, hm]
            · rfl
          · simp only [UMap.get_set, hs]
            split
            · next h => subst h; simp [secondaryStackLoop_strip, hs]
            · rfl

theorem calculateWorkspace_isSome (host : Host) (pWorkspace : CWorkspace) (s : COrthoLayout)
    (hcfg : host.PMAINSTACKOVERRIDES ≠ "") :
    ∃ s', calculateWorkspace host pWorkspace s = some s' := by
  obtain ⟨data, s1, h1, _, _⟩ := getOrthoWorkspaceData_some host pWorkspace.m_id s hcfg
  unfold calculateWorkspace
  simp only [h1]
  split
  · exact ⟨_, rfl⟩
  · split
    · exact ⟨_, rfl⟩
    · split <;> exact ⟨_, rfl⟩

theorem calculateWorkspace_frame (host : Host) (pWorkspace : CWorkspace) (s : COrthoLayout)
    (hcfg : host.PMAINSTACKOVERRIDES ≠ "") :
    ∃ s', calculateWorkspace host pWorkspace s = some s' ∧ SameStacks s s' := by
  obtain ⟨s', h⟩ := calculateWorkspace_isSome host pWorkspace s hcfg
  exact ⟨s', h, calculateWorkspace_sameStacks h⟩

theorem recalculateMonitor_sameStacks {host : Host} {monid : MONITORID} {s s' : COrthoLayout}
    (h : recalculateMonitor host monid s = some s') : SameStacks s s' := by
  unfold recalculateMonitor at h
  cases hM : host.getMonitorFromID monid with
  | none =>
    rw [hM] at h
    simp only [Option.some.injEq] at h
    subst h
    exact SameStacks.refl s
  | some PMONITOR =>
    rw [hM] at h
    simp only at h
    cases hA : PMONITOR.m_activeWorkspace with
    | none =>
      rw [hA] at h
      simp only [Option.some.injEq] at h
      subst h
      exact SameStacks.refl s
    | some activeWorkspace =>
      rw [hA] at h
      simp only at h
      cases hS : PMONITOR.m_activeSpecialWorkspace with
      | none =>
        rw [hS] at h
        exact calculateWorkspace_sameStacks h
      | some special =>
        rw [hS] at h
        simp only at h
        cases h1 : calculateWorkspace host special s with
        | none => rw [h1] at h; simp at h
        | some s1 =>
          rw [h1] at h
          exact (calculateWorkspace_sameStacks h1).trans (calculateWorkspace_sameStacks h)

theorem recalculateMonitor_frame (host : Host) (monid : MONITORID) (s : COrthoLayout)
    (hcfg : host.PMAINSTACKOVERRIDES ≠ "") :
    ∃ s', recalculateMonitor host monid s = some s' ∧ SameStacks s s' := by
  unfold recalculateMonitor
  cases hM : host.getMonitorFromID monid with
  | none => exact ⟨s, rfl, SameStacks.refl s⟩
  | some PMONITOR =>
    cases hA : PMONITOR.m_activeWorkspace with
    | none => exact ⟨s, by simp only [hA], SameStacks.refl s⟩
    | some activeWorkspace =>
      cases hS : PMONITOR.m_activeSpecialWorkspace with
      | none =>
        obtain ⟨s1, h1, f1⟩ := calculateWorkspace_frame host activeWorkspace s hcfg
        exact ⟨s1, by simp only [hA, hS, h1], f1⟩
      | some special =>
        obtain ⟨s1, h1, f1⟩ := calculateWorkspace_frame host special s hcfg
        obtain ⟨s2, h2, f2⟩ := calculateWorkspace_frame host activeWorkspace s1 hcfg
        exact ⟨s2, by simp only [hA, hS, h1, h2], f1.trans f2⟩

/-! ## Create -/

theorem toInt32_eq (v : Int) (h1 : 1 ≤ v) (h2 : v < 2 ^ 31) : toInt32 v = v := by
  unfold toInt32
  omega

theorem stackOf_eq_of_stores {s s1 : COrthoLayout}
    (hm : s1.m_mainStackByWorkspace = s.m_mainStackByWorkspace)
    (hs : s1.m_secondaryStackByWorkspace = s.m_secondaryStackByWorkspace)
    (status : eOrthoStatus) (ws : WORKSPACEID) : stackOf s1 status ws = stackOf s status ws := by
  cases status <;> simp [stackOf, hm, hs]

/-- C1. Create placement: a non-floating window is appended, as a node of
weight 1, to the tail of its workspace's main stack when that stack is shorter
than the configured minimum (`max 1 main_stack_min`) and to the tail of the
secondary stack otherwise; that one stack grows by that one node and every other
slot of every stack keeps its node. -/
theorem create_placement (host : Host) (pWindow : CWindow) (s : COrthoLayout)
    (hfloat : pWindow.m_isFloating = false)
    (hcfg : host.PMAINSTACKOVERRIDES ≠ "")
    (hmin : host.PMAINSTACKMIN < 2 ^ 31) :
    ∃ s', onWindowCreatedTiling host pWindow s = some s' ∧
      ∀ status ws, coreStack s' status ws =
        if status = (if getMainStackSize s pWindow.workspaceID < max 1 host.PMAINSTACKMIN
              then eOrthoStatus.ORTHOSTATUS_MAIN else eOrthoStatus.ORTHOSTATUS_SECONDARY)
            ∧ ws = pWindow.workspaceID
        then coreStack s status ws ++ [{ pWindow := pWindow.handle, weight := 1 }]
        else coreStack s status ws := by
  obtain ⟨data, s1, h1, hm, hs⟩ := getOrthoWorkspaceData_some host pWindow.workspaceID s hcfg
  have hminEq : toInt32 (if host.PMAINSTACKMIN ≥ 1 then host.PMAINSTACKMIN else 1)
      = max 1 host.PMAINSTACKMIN := by
    by_cases h : host.PMAINSTACKMIN ≥ 1
    · rw [if_pos h, toInt32_eq _ h hmin]; omega
    · rw [if_neg h, toInt32_eq 1 (by norm_num) (by norm_num)]; omega
  have hsize : getMainStackSize s1 pWindow.workspaceID = getMainStackSize s pWindow.workspaceID := by
    simp [getMainStackSize, hm]
  unfold onWindowCreatedTiling
  simp only [hfloat, h1, hminEq, hsize, Bool.false_eq_true, if_false]
  by_cases hlt : getMainStackSize s pWindow.workspaceID < max 1 host.PMAINSTACKMIN
  · simp only [hlt, if_true]
    obtain ⟨s', hr, hf⟩ := recalculateMonitor_frame host pWindow.monitorID
      (setStackOf s1 eOrthoStatus.ORTHOSTATUS_MAIN pWindow.workspaceID
        (stackOf s1 eOrthoStatus.ORTHOSTATUS_MAIN pWindow.workspaceID ++
          [{ pWindow := pWindow.handle }])) hcfg
    refine ⟨s', hr, ?_⟩
    intro status ws
    rw [hf status ws]
    unfold coreStack
    rw [stackOf_setStackOf]
    by_cases hc : status = eOrthoStatus.ORTHOSTATUS_MAIN ∧ ws = pWindow.workspaceID
    · obtain ⟨hst, hws⟩ := hc
      subst hst; subst hws
      simp [stackOf_eq_of_stores hm hs, SOrthoNodeData.stripGeometry]
    · simp only [hc, if_false, stackOf_eq_of_stores hm hs]
  · simp only [hlt, if_false]
    obtain ⟨s', hr, hf⟩ := recalculateMonitor_frame host pWindow.monitorID
      (setStackOf s1 eOrthoStatus.ORTHOSTATUS_SECONDARY pWindow.workspaceID
        (stackOf s1 eOrthoStatus.ORTHOSTATUS_SECONDARY pWindow.workspaceID ++
          [{ pWindow := pWindow.handle }])) hcfg
    refine ⟨s', hr, ?_⟩
    intro status ws
    rw [hf status ws]
    unfold coreStack
    rw [stackOf_setStackOf]
    by_cases hc : status = eOrthoStatus.ORTHOSTATUS_SECONDARY ∧ ws = pWindow.workspaceID
    · obtain ⟨hst, hws⟩ := hc
      subst hst; subst hws
      simp [stackOf_eq_of_stores hm hs, SOrthoNodeData.stripGeometry]
    · simp only [hc, if_false, stackOf_eq_of_stores hm hs]

/-! ## Lemmas: lookup -/

theorem findInStack_some (w : PHLWINDOWREF) (l : List SOrthoNodeData) :
    ∀ (i0 i : Nat) (nd : SOrthoNodeData), findInStack w l i0 = some (i, nd) →
      ∃ pre post, l = pre ++ nd :: post ∧ i = i0 + pre.length ∧ nd.pWindow = w ∧
        ∀ n ∈ pre, n.pWindow ≠ w := by
  induction l with
  | nil => intro i0 i nd h; simp [findInStack] at h
  | cons a rest ih =>
    intro i0 i nd h
    unfold findInStack at h
    by_cases ha : a.pWindow = w
    · rw [if_pos ha] at h
      simp only [Option.some.injEq, Prod.mk.injEq] at h
      obtain ⟨h1, h2⟩ := h
      subst h1; subst h2
      exact ⟨[], rest, rfl, by simp, ha, by simp⟩
    · rw [if_neg ha] at h
      obtain ⟨pre, post, hl, hi, hw, hpre⟩ := ih (i0 + 1) i nd h
      refine ⟨a :: pre, post, by simp [hl], by simp [hi]; omega, hw, ?_⟩
      intro n hn
      rcases List.mem_cons.mp hn with rfl | hn
      · exact ha
      · exact hpre n hn

theorem findInStack_none (w : PHLWINDOWREF) (l : List SOrthoNodeData) :
    ∀ (i0 : Nat), findInStack w l i0 = none → ∀ n ∈ l, n.pWindow ≠ w := by
  induction l with
  | nil => intro _ _ n hn; simp at hn
  | cons a rest ih =>
    intro i0 h n hn
    unfold findInStack at h
    by_cases ha : a.pWindow = w
    · rw [if_pos ha] at h; simp at h
    · rw [if_neg ha] at h
      rcases List.mem_cons.mp hn with rfl | hn
      · exact ha
      · exact ih (i0 + 1) h n hn

theorem findInStack_isSome_of_mem (w : PHLWINDOWREF) (l : List SOrthoNodeData) (i0 : Nat)
    (h : ∃ n ∈ l, n.pWindow = w) : findInStack w l i0 ≠ none := by
  intro hnone
  obtain ⟨n, hn, hw⟩ := h
  exact findInStack_none w l i0 hnone n hn hw

theorem findInMap_some (w : PHLWINDOWREF) (m : UMap (List SOrthoNodeData)) (status : eOrthoStatus)
    (keys : List WORKSPACEID) (r : SNodeLookupResult) (h : findInMap w m status keys = some r) :
    r.status = status ∧ r.ws ∈ keys ∧ findInStack w (m.get r.ws) 0 = some (r.idx, r.nd) := by
  induction keys with
  | nil => simp [findInMap] at h
  | cons ws more ih =>
    unfold findInMap at h
    cases hf : findInStack w (m.get ws) 0 with
    | none =>
      rw [hf] at h
      obtain ⟨h1, h2, h3⟩ := ih h
      exact ⟨h1, List.mem_cons_of_mem _ h2, h3⟩
    | some ir =>
      obtain ⟨i, nd⟩ := ir
      rw [hf] at h
      simp only [Option.some.injEq] at h
      subst h
      exact ⟨rfl, List.mem_cons_self _ _, hf⟩

theorem findInMap_none (w : PHLWINDOWREF) (m : UMap (List SOrthoNodeData)) (status : eOrthoStatus)
    (keys : List WORKSPACEID) (h : findInMap w m status keys = none) :
    ∀ ws ∈ keys, findInStack w (m.get ws) 0 = none := by
  induction keys with
  | nil => intro ws hws; simp at hws
  | cons k more ih =>
    intro ws hws
    unfold findInMap at h
    cases hf : findInStack w (m.get k) 0 with
    | none =>
      rw [hf] at h
      rcases List.mem_cons.mp hws with rfl | hws
      · exact hf
      · exact ih h ws hws
    | some ir =>
      obtain ⟨i, nd⟩ := ir
      rw [hf] at h
      simp at h

theorem UMap.findEntries_eq_none {V : Type} (l : List (WORKSPACEID × V)) (ws : WORKSPACEID)
    (h : ws ∉ l.map Prod.fst) : UMap.findEntries l ws = none := by
  induction l with
  | nil => rfl
  | cons e rest ih =>
    obtain ⟨k, v⟩ := e
    simp only [List.map_cons, List.mem_cons, not_or] at h
    have hk : ¬ k = ws := fun e => h.1 e.symm
    simp only [UMap.findEntries, hk, if_false]
    exact ih h.2

theorem UMap.get_eq_nil_of_not_mem_keys (m : UMap (List SOrthoNodeData)) (ws : WORKSPACEID)
    (h : ws ∉ m.keys) : m.get ws = [] := by
  unfold UMap.get UMap.find
  rw [UMap.findEntries_eq_none m.entries ws h]
  rfl

theorem findInMap_none_all (w : PHLWINDOWREF) (m : UMap (List SOrthoNodeData))
    (status : eOrthoStatus) (h : findInMap w m status m.keys = none) :
    ∀ ws, ∀ n ∈ m.get ws, n.pWindow ≠ w := by
  intro ws n hn
  by_cases hk : ws ∈ m.keys
  · exact findInStack_none w _ 0 (findInMap_none w m status m.keys h ws hk) n hn
  · rw [UMap.get_eq_nil_of_not_mem_keys m ws hk] at hn
    simp at hn

/-- A successful lookup points at the first node of the reported stack that
references the window. -/
theorem getNodeFromWindow_some (s : COrthoLayout) (w : PHLWINDOWREF) (r : SNodeLookupResult)
    (h : getNodeFromWindow s w = some r) :
    findInStack w (stackOf s r.status r.ws) 0 = some (r.idx, r.nd) := by
  unfold getNodeFromWindow at h
  cases hm : findInMap w s.m_mainStackByWorkspace eOrthoStatus.ORTHOSTATUS_MAIN
      s.m_mainStackByWorkspace.keys with
  | some r1 =>
    rw [hm] at h
    simp only [Option.some.injEq] at h
    subst h
    obtain ⟨h1, _, h3⟩ := findInMap_some _ _ _ _ _ hm
    rw [h1]
    exact h3
  | none =>
    rw [hm] at h
    obtain ⟨h1, _, h3⟩ := findInMap_some _ _ _ _ _ h
    rw [h1]
    exact h3

/-- A failed lookup means no node of any stack references the window. -/
theorem getNodeFromWindow_none (s : COrthoLayout) (w : PHLWINDOWREF)
    (h : getNodeFromWindow s w = none) : ∀ status ws, w ∉ wins s status ws := by
  unfold getNodeFromWindow at h
  cases hm : findInMap w s.m_mainStackByWorkspace eOrthoStatus.ORTHOSTATUS_MAIN
      s.m_mainStackByWorkspace.keys with
  | some r1 => rw [hm] at h; simp at h
  | none =>
    rw [hm] at h
    intro status ws hmem
    unfold wins at hmem
    obtain ⟨n, hn, hw⟩ := List.mem_map.mp hmem
    cases status
    · exact findInMap_none_all w _ _ hm ws n hn hw
    · exact findInMap_none_all w _ _ h ws n hn hw

/-! ## Remove -/

theorem eraseIdx_append_cons (pre post : List SOrthoNodeData) (nd : SOrthoNodeData) :
    (pre ++ nd :: post).eraseIdx pre.length = pre ++ post := by
  induction pre with
  | nil => rfl
  | cons a rest ih => simp [List.eraseIdx, ih]

theorem eraseNode_of_nodup (pre post : List SOrthoNodeData) (nd : SOrthoNodeData)
    (hnd : ((pre ++ nd :: post).map (fun n => n.pWindow)).Nodup) :
    eraseNode (pre ++ nd :: post) nd = pre ++ post := by
  simp only [List.map_append, List.map_cons] at hnd
  have hpre : ∀ n ∈ pre, n.pWindow ≠ nd.pWindow := by
    intro n hn heq
    have hdis := (List.nodup_append.mp hnd).2.2
    exact hdis (List.mem_map.mpr ⟨n, hn, rfl⟩) (by rw [heq]; exact List.mem_cons_self _ _)
  have hpost : ∀ n ∈ post, n.pWindow ≠ nd.pWindow := by
    intro n hn heq
    have h2 := (List.nodup_append.mp hnd).2.1
    have h3 := (List.nodup_cons.mp h2).1
    exact h3 (by rw [← heq]; exact List.mem_map.mpr ⟨n, hn, rfl⟩)
  unfold eraseNode
  rw [List.filter_append, List.filter_cons]
  have e1 : pre.filter (fun n => !(n.eqNode nd)) = pre := by
    apply List.filter_eq_self.mpr
    intro n hn
    simp [SOrthoNodeData.eqNode, hpre n hn]
  have e2 : post.filter (fun n => !(n.eqNode nd)) = post := by
    apply List.filter_eq_self.mpr
    intro n hn
    simp [SOrthoNodeData.eqNode, hpost n hn]
  have e3 : (!(nd.eqNode nd)) = false := by simp [SOrthoNodeData.eqNode]
  rw [e1, e2, e3]
  rfl

theorem wins_nodup_of_unique {s : COrthoLayout} (h : WindowsUnique s) (status : eOrthoStatus)
    (ws : WORKSPACEID) : (wins s status ws).Nodup := by
  have h1 := h.1 ws
  unfold winsOn at h1
  cases status
  · exact (List.nodup_append.mp h1).1
  · exact (List.nodup_append.mp h1).2.1

/-- What the lookup result says about the stack it points into, for a state
without duplicate references: the stack splits around the window's node and
`std::erase` removes exactly that node. -/
theorem lookup_stack_split {s : COrthoLayout} {w : PHLWINDOWREF} {r : SNodeLookupResult}
    (hfind : getNodeFromWindow s w = some r) (huniq : WindowsUnique s) :
    r.nd.pWindow = w ∧ (stackOf s r.status r.ws)[r.idx]? = some r.nd ∧
      eraseNode (stackOf s r.status r.ws) r.nd = (stackOf s r.status r.ws).eraseIdx r.idx := by
  obtain ⟨pre, post, hl, hi, hw, _⟩ := findInStack_some w _ 0 r.idx r.nd
    (getNodeFromWindow_some s w r hfind)
  have hn := wins_nodup_of_unique huniq r.status r.ws
  unfold wins at hn
  rw [hl] at hn ⊢
  have hi2 : r.idx = pre.length := by omega
  rw [hi2, eraseIdx_append_cons, eraseNode_of_nodup pre post r.nd hn]
  refine ⟨hw, ?_, rfl⟩
  rw [List.getElem?_append_right (le_refl _)]
  simp

theorem toSizeT_lt (m : Int) (n : Nat) (h1 : 0 ≤ m) (h2 : m < 2 ^ 63) :
    n < toSizeT m ↔ (n : Int) < m := by
  unfold toSizeT
  omega

theorem stackOf_update (s : COrthoLayout) (ws : WORKSPACEID) (A B : List SOrthoNodeData)
    (status : eOrthoStatus) (ws' : WORKSPACEID) :
    stackOf { s with
        m_mainStackByWorkspace := s.m_mainStackByWorkspace.set ws A
        m_secondaryStackByWorkspace := s.m_secondaryStackByWorkspace.set ws B } status ws' =
      if ws' = ws then (match status with
        | eOrthoStatus.ORTHOSTATUS_MAIN => A
        | eOrthoStatus.ORTHOSTATUS_SECONDARY => B)
      else stackOf s status ws' := by
  cases status <;> simp [stackOf, UMap.get_set]

theorem promoteLast_secondary (host : Host) (M S : List SOrthoNodeData) :
    promoteLast host eOrthoStatus.ORTHOSTATUS_SECONDARY M S = (M, S) := by
  simp [promoteLast]

theorem promoteLast_main_promote (host : Host) (M S : List SOrthoNodeData) (hne : S ≠ [])
    (hlt : M.length < toSizeT host.PMAINSTACKMIN) :
    promoteLast host eOrthoStatus.ORTHOSTATUS_MAIN M S = (M ++ [S.getLast hne], S.dropLast) := by
  simp [promoteLast, hlt, List.getLast?_eq_getLast _ hne]

theorem promoteLast_main_keep (host : Host) (M S : List SOrthoNodeData)
    (h : S = [] ∨ ¬ M.length < toSizeT host.PMAINSTACKMIN) :
    promoteLast host eOrthoStatus.ORTHOSTATUS_MAIN M S = (M, S) := by
  rcases h with h | h
  · subst h
    unfold promoteLast
    split <;> rfl
  · simp [promoteLast, h]

/-- C2. Remove with promotion: removing a tiled window erases exactly its node
from its stack, the other nodes keeping their order; when the node left the main
stack, the main stack is thereby shorter than the minimum and the secondary stack
is non-empty, the last secondary node is popped and pushed to the tail of the
main stack; nothing else changes in any stack. -/
theorem remove_with_promotion (host : Host) (pWindow : CWindow) (s : COrthoLayout)
    (r : SNodeLookupResult)
    (hfind : getNodeFromWindow s pWindow.handle = some r)
    (huniq : WindowsUnique s)
    (hcfg : host.PMAINSTACKOVERRIDES ≠ "")
    (hmin1 : 1 ≤ host.PMAINSTACKMIN) (hmin2 : host.PMAINSTACKMIN < 2 ^ 63) :
    ∃ s', onWindowRemovedTiling host pWindow s = some s' ∧
      (stackOf s r.status r.ws)[r.idx]? = some r.nd ∧ r.nd.pWindow = pWindow.handle ∧
      (r.status = eOrthoStatus.ORTHOSTATUS_SECONDARY →
        coreStack s' eOrthoStatus.ORTHOSTATUS_MAIN r.ws
          = coreStack s eOrthoStatus.ORTHOSTATUS_MAIN r.ws ∧
        coreStack s' eOrthoStatus.ORTHOSTATUS_SECONDARY r.ws
          = ((stackOf s eOrthoStatus.ORTHOSTATUS_SECONDARY r.ws).eraseIdx r.idx).map
              SOrthoNodeData.stripGeometry) ∧
      (r.status = eOrthoStatus.ORTHOSTATUS_MAIN →
        ∀ hne : stackOf s eOrthoStatus.ORTHOSTATUS_SECONDARY r.ws ≠ [],
        (((stackOf s eOrthoStatus.ORTHOSTATUS_MAIN r.ws).eraseIdx r.idx).length : Int)
            < host.PMAINSTACKMIN →
        coreStack s' eOrthoStatus.ORTHOSTATUS_MAIN r.ws
          = ((stackOf s eOrthoStatus.ORTHOSTATUS_MAIN r.ws).eraseIdx r.idx ++
              [(stackOf s eOrthoStatus.ORTHOSTATUS_SECONDARY r.ws).getLast hne]).map
              SOrthoNodeData.stripGeometry ∧
        coreStack s' eOrthoStatus.ORTHOSTATUS_SECONDARY r.ws
          = ((stackOf s eOrthoStatus.ORTHOSTATUS_SECONDARY r.ws).dropLast).map
              SOrthoNodeData.stripGeometry) ∧
      (r.status = eOrthoStatus.ORTHOSTATUS_MAIN →
        (stackOf s eOrthoStatus.ORTHOSTATUS_SECONDARY r.ws = [] ∨
          host.PMAINSTACKMIN ≤
            (((stackOf s eOrthoStatus.ORTHOSTATUS_MAIN r.ws).eraseIdx r.idx).length : Int)) →
        coreStack s' eOrthoStatus.ORTHOSTATUS_MAIN r.ws
          = ((stackOf s eOrthoStatus.ORTHOSTATUS_MAIN r.ws).eraseIdx r.idx).map
              SOrthoNodeData.stripGeometry ∧
        coreStack s' eOrthoStatus.ORTHOSTATUS_SECONDARY r.ws
          = coreStack s eOrthoStatus.ORTHOSTATUS_SECONDARY r.ws) ∧
      (∀ status ws, ws ≠ r.ws → coreStack s' status ws = coreStack s status ws) := by
  obtain ⟨hw, hidx, herase⟩ := lookup_stack_split hfind huniq
  unfold onWindowRemovedTiling
  simp only [hfind]
  obtain ⟨s', hr, hf⟩ := recalculateMonitor_frame host pWindow.monitorID _ hcfg
  refine ⟨s', hr, hidx, hw, ?_, ?_, ?_, ?_⟩
  · intro hst
    rw [hst] at herase
    rw [hf, hf]
    unfold coreStack
    rw [stackOf_update, stackOf_update]
    simp only [hst, if_true, reduceCtorEq, if_false, promoteLast_secondary]
    exact ⟨rfl, by rw [← herase]; rfl⟩
  · intro hst hne hlt
    rw [hst] at herase
    rw [hf, hf]
    unfold coreStack
    rw [stackOf_update, stackOf_update]
    simp only [hst, if_true]
    have hlt2 : (eraseNode (s.m_mainStackByWorkspace.get r.ws) r.nd).length
        < toSizeT host.PMAINSTACKMIN := by
      rw [toSizeT_lt _ _ (by omega) hmin2]
      have : eraseNode (s.m_mainStackByWorkspace.get r.ws) r.nd
          = (stackOf s eOrthoStatus.ORTHOSTATUS_MAIN r.ws).eraseIdx r.idx := herase
      rw [this]
      exact hlt
    have hne2 : s.m_secondaryStackByWorkspace.get r.ws ≠ [] := hne
    rw [promoteLast_main_promote host _ _ hne2 hlt2]
    exact ⟨by rw [← herase]; rfl, rfl⟩
  · intro hst hkeep
    rw [hst] at herase
    rw [hf, hf]
    unfold coreStack
    rw [stackOf_update, stackOf_update]
    simp only [hst, if_true]
    have hk : s.m_secondaryStackByWorkspace.get r.ws = [] ∨
        ¬ (eraseNode (s.m_mainStackByWorkspace.get r.ws) r.nd).length
          < toSizeT host.PMAINSTACKMIN := by
      rcases hkeep with h | h
      · exact Or.inl h
      · right
        rw [toSizeT_lt _ _ (by omega) hmin2]
        have : eraseNode (s.m_mainStackByWorkspace.get r.ws) r.nd
            = (stackOf s eOrthoStatus.ORTHOSTATUS_MAIN r.ws).eraseIdx r.idx := herase
        rw [this]
        omega
    rw [promoteLast_main_keep host _ _ hk]
    exact ⟨by rw [← herase]; rfl, rfl⟩
  · intro status ws hws
    rw [hf]
    unfold coreStack
    rw [stackOf_update]
    simp only [hws, if_false]

/-- The stacks of the window's workspace after a removal, for a state without
duplicate references. -/
theorem remove_core (host : Host) (pWindow : CWindow) (s : COrthoLayout)
    (r : SNodeLookupResult)
    (hfind : getNodeFromWindow s pWindow.handle = some r)
    (huniq : WindowsUnique s)
    (hcfg : host.PMAINSTACKOVERRIDES ≠ "") :
    ∃ s', onWindowRemovedTiling host pWindow s = some s' ∧
      r.idx < (stackOf s r.status r.ws).length ∧
      (∀ status ws, ws ≠ r.ws → coreStack s' status ws = coreStack s status ws) ∧
      (∀ status, coreStack s' status r.ws =
        (match status with
          | eOrthoStatus.ORTHOSTATUS_MAIN =>
            (promoteLast host r.status
              (if r.status = eOrthoStatus.ORTHOSTATUS_MAIN then
                (stackOf s eOrthoStatus.ORTHOSTATUS_MAIN r.ws).eraseIdx r.idx
               else stackOf s eOrthoStatus.ORTHOSTATUS_MAIN r.ws)
              (if r.status = eOrthoStatus.ORTHOSTATUS_MAIN then
                stackOf s eOrthoStatus.ORTHOSTATUS_SECONDARY r.ws
               else (stackOf s eOrthoStatus.ORTHOSTATUS_SECONDARY r.ws).eraseIdx r.idx)).1
          | eOrthoStatus.ORTHOSTATUS_SECONDARY =>
            (promoteLast host r.status
              (if r.status = eOrthoStatus.ORTHOSTATUS_MAIN then
                (stackOf s eOrthoStatus.ORTHOSTATUS_MAIN r.ws).eraseIdx r.idx
               else stackOf s eOrthoStatus.ORTHOSTATUS_MAIN r.ws)
              (if r.status = eOrthoStatus.ORTHOSTATUS_MAIN then
                stackOf s eOrthoStatus.ORTHOSTATUS_SECONDARY r.ws
               else (stackOf s eOrthoStatus.ORTHOSTATUS_SECONDARY r.ws).eraseIdx r.idx)).2).map
          SOrthoNodeData.stripGeometry) := by
  obtain ⟨hw, hidx, herase⟩ := lookup_stack_split hfind huniq
  have hlt : r.idx < (stackOf s r.status r.ws).length := by
    by_contra hge
    rw [List.getElem?_eq_none (by omega)] at hidx
    simp at hidx
  unfold onWindowRemovedTiling
  simp only [hfind]
  obtain ⟨s', hr, hf⟩ := recalculateMonitor_frame host pWindow.monitorID _ hcfg
  refine ⟨s', hr, hlt, ?_, ?_⟩
  · intro status ws hws
    rw [hf]
    unfold coreStack
    rw [stackOf_update]
    simp only [hws, if_false]
  · intro status
    rw [hf]
    unfold coreStack
    rw [stackOf_update]
    simp only [if_true]
    cases hst : r.status
    · rw [hst] at herase
      have e : eraseNode (s.m_mainStackByWorkspace.get r.ws) r.nd
          = (stackOf s eOrthoStatus.ORTHOSTATUS_MAIN r.ws).eraseIdx r.idx := herase
      simp only [if_true, e]
      cases status <;> rfl
    · rw [hst] at herase
      have e : eraseNode (s.m_secondaryStackByWorkspace.get r.ws) r.nd
          = (stackOf s eOrthoStatus.ORTHOSTATUS_SECONDARY r.ws).eraseIdx r.idx := herase
      simp only [reduceCtorEq, if_false, e]
      cases status <;> rfl

theorem promoteLast_lengths (host : Host) (status : eOrthoStatus) (M S : List SOrthoNodeData) :
    (promoteLast host status M S).1.length + (promoteLast host status M S).2.length
        = M.length + S.length ∧
      ((status = eOrthoStatus.ORTHOSTATUS_MAIN ∧ M.length < toSizeT host.PMAINSTACKMIN ∧ S ≠ []) →
        (promoteLast host status M S).1.length = M.length + 1) ∧
      (¬ (status = eOrthoStatus.ORTHOSTATUS_MAIN ∧ M.length < toSizeT host.PMAINSTACKMIN ∧ S ≠ []) →
        (promoteLast host status M S).1.length = M.length) := by
  by_cases hc : status = eOrthoStatus.ORTHOSTATUS_MAIN ∧ M.length < toSizeT host.PMAINSTACKMIN
  · by_cases hS : S = []
    · subst hS
      rw [hc.1, promoteLast_main_keep host M [] (Or.inl rfl)]
      simp
    · rw [hc.1, promoteLast_main_promote host M S hS hc.2]
      have hl : 0 < S.length := List.length_pos.mpr hS
      refine ⟨?_, ?_, ?_⟩
      · simp only [List.length_append, List.length_dropLast, List.length_singleton]
        omega
      · intro _; simp
      · intro hn; exact absurd ⟨rfl, hc.2, hS⟩ hn
  · have hp : promoteLast host status M S = (M, S) := by
      unfold promoteLast
      rw [if_neg hc]
    rw [hp]
    refine ⟨rfl, ?_, fun _ => rfl⟩
    intro h
    exact absurd ⟨h.1, h.2.1⟩ hc

theorem coreStack_length (s : COrthoLayout) (status : eOrthoStatus) (ws : WORKSPACEID) :
    (coreStack s status ws).length = (stackOf s status ws).length := by
  simp [coreStack]

theorem getMainStackSize_eq (s : COrthoLayout) (ws : WORKSPACEID) :
    getMainStackSize s ws = ((coreStack s eOrthoStatus.ORTHOSTATUS_MAIN ws).length : Int) := by
  simp [getMainStackSize, coreStack, stackOf]

theorem getSecondaryStackSize_eq (s : COrthoLayout) (ws : WORKSPACEID) :
    getSecondaryStackSize s ws
      = ((coreStack s eOrthoStatus.ORTHOSTATUS_SECONDARY ws).length : Int) := by
  simp [getSecondaryStackSize, coreStack, stackOf]

/-- C3 (amended). Self-healing of Remove: if before the removal of a tiled window
the main stack of its workspace already held at least
`min(main_stack_min, nodes on the workspace)` nodes, it still does afterwards
(in particular whenever the secondary stack had a node to promote). -/
theorem remove_keeps_minimum (host : Host) (pWindow : CWindow) (s : COrthoLayout)
    (r : SNodeLookupResult)
    (hfind : getNodeFromWindow s pWindow.handle = some r)
    (huniq : WindowsUnique s)
    (hcfg : host.PMAINSTACKOVERRIDES ≠ "")
    (hrange : host.PMAINSTACKMIN < 2 ^ 63)
    (hpre : min host.PMAINSTACKMIN (getNodeCountOnWorkspace s r.ws) ≤ getMainStackSize s r.ws) :
    ∃ s', onWindowRemovedTiling host pWindow s = some s' ∧
      min host.PMAINSTACKMIN (getNodeCountOnWorkspace s' r.ws) ≤ getMainStackSize s' r.ws := by
  obtain ⟨s', hr, hlt, _, hcore⟩ := remove_core host pWindow s r hfind huniq hcfg
  refine ⟨s', hr, ?_⟩
  have hM := hcore eOrthoStatus.ORTHOSTATUS_MAIN
  have hS := hcore eOrthoStatus.ORTHOSTATUS_SECONDARY
  simp only at hM hS
  unfold getNodeCountOnWorkspace at hpre ⊢
  rw [getMainStackSize_eq, getSecondaryStackSize_eq] at hpre ⊢
  rw [hM, hS]
  simp only [List.length_map]
  rw [coreStack_length, coreStack_length] at hpre
  cases hst : r.status
  · rw [hst] at hlt
    simp only [if_true]
    have hlen : ((stackOf s eOrthoStatus.ORTHOSTATUS_MAIN r.ws).eraseIdx r.idx).length
        = (stackOf s eOrthoStatus.ORTHOSTATUS_MAIN r.ws).length - 1 := by
      rw [List.length_eraseIdx, if_pos hlt]
    obtain ⟨htot, hprom, hkeep⟩ := promoteLast_lengths host eOrthoStatus.ORTHOSTATUS_MAIN
      ((stackOf s eOrthoStatus.ORTHOSTATUS_MAIN r.ws).eraseIdx r.idx)
      (stackOf s eOrthoStatus.ORTHOSTATUS_SECONDARY r.ws)
    by_cases hc : eOrthoStatus.ORTHOSTATUS_MAIN = eOrthoStatus.ORTHOSTATUS_MAIN ∧
        ((stackOf s eOrthoStatus.ORTHOSTATUS_MAIN r.ws).eraseIdx r.idx).length
          < toSizeT host.PMAINSTACKMIN ∧
        stackOf s eOrthoStatus.ORTHOSTATUS_SECONDARY r.ws ≠ []
    · have h1 := hprom hc
      omega
    · have h1 := hkeep hc
      by_cases hnil : stackOf s eOrthoStatus.ORTHOSTATUS_SECONDARY r.ws = []
      · rw [hnil] at htot hpre h1 ⊢
        simp only [List.length_nil] at htot hpre
        omega
      · have hge : ¬ ((stackOf s eOrthoStatus.ORTHOSTATUS_MAIN r.ws).eraseIdx r.idx).length
            < toSizeT host.PMAINSTACKMIN := fun h => hc ⟨rfl, h, hnil⟩
        unfold toSizeT at hge
        omega
  · rw [hst] at hlt
    simp only [reduceCtorEq, if_false, promoteLast_secondary]
    have hlen : ((stackOf s eOrthoStatus.ORTHOSTATUS_SECONDARY r.ws).eraseIdx r.idx).length
        = (stackOf s eOrthoStatus.ORTHOSTATUS_SECONDARY r.ws).length - 1 := by
      rw [List.length_eraseIdx, if_pos hlt]
    omega

/-! ## Uniqueness of window references -/

theorem wins_eq_core (s : COrthoLayout) (status : eOrthoStatus) (ws : WORKSPACEID) :
    wins s status ws = (coreStack s status ws).map (fun nd => nd.pWindow) := by
  simp [wins, coreStack, SOrthoNodeData.stripGeometry, Function.comp_def]

theorem wins_of_core_eq {s s' : COrthoLayout} {status status' : eOrthoStatus}
    {ws ws' : WORKSPACEID} (h : coreStack s' status' ws' = coreStack s status ws) :
    wins s' status' ws' = wins s status ws := by
  rw [wins_eq_core, wins_eq_core, h]

theorem winsOn_of_sameStacks {s s' : COrthoLayout} (h : SameStacks s s') (ws : WORKSPACEID) :
    winsOn s' ws = winsOn s ws := by
  unfold winsOn
  rw [wins_of_core_eq (h eOrthoStatus.ORTHOSTATUS_MAIN ws),
    wins_of_core_eq (h eOrthoStatus.ORTHOSTATUS_SECONDARY ws)]

theorem windowsUnique_of_winsOn_eq {s s' : COrthoLayout}
    (h : ∀ ws, winsOn s' ws = winsOn s ws) (hu : WindowsUnique s) : WindowsUnique s' := by
  constructor
  · intro ws; rw [h]; exact hu.1 ws
  · intro ws ws' hne; rw [h, h]; exact hu.2 ws ws' hne

theorem windowsUnique_of_subperm {s s' : COrthoLayout}
    (h : ∀ ws, List.Subperm (winsOn s' ws) (winsOn s ws)) (hu : WindowsUnique s) :
    WindowsUnique s' := by
  constructor
  · intro ws
    obtain ⟨l, hp, hs⟩ := h ws
    exact (hp.nodup_iff).mp ((hu.1 ws).sublist hs)
  · intro ws ws' hne x hx hx'
    exact hu.2 ws ws' hne ((h ws).subset hx) ((h ws').subset hx')

theorem windowsUnique_of_map {s s' : COrthoLayout} (f : PHLWINDOWREF → PHLWINDOWREF)
    (hinj : Function.Injective f) (h : ∀ ws, winsOn s' ws = (winsOn s ws).map f)
    (hu : WindowsUnique s) : WindowsUnique s' := by
  constructor
  · intro ws; rw [h]; exact (hu.1 ws).map hinj
  · intro ws ws' hne x hx hx'
    rw [h] at hx hx'
    obtain ⟨a, ha, hfa⟩ := List.mem_map.mp hx
    obtain ⟨b, hb, hfb⟩ := List.mem_map.mp hx'
    have hab : a = b := hinj (hfa.trans hfb.symm)
    subst hab
    exact hu.2 ws ws' hne ha hb

theorem windowsUnique_of_insert {s s' : COrthoLayout} (w : PHLWINDOWREF) (ws0 : WORKSPACEID)
    (hperm : List.Perm (winsOn s' ws0) (w :: winsOn s ws0))
    (hother : ∀ ws, ws ≠ ws0 → winsOn s' ws = winsOn s ws)
    (habs : ∀ ws, w ∉ winsOn s ws) (hu : WindowsUnique s) : WindowsUnique s' := by
  have hmem : ∀ ws x, x ∈ winsOn s' ws → x = w ∨ x ∈ winsOn s ws := by
    intro ws x hx
    by_cases h : ws = ws0
    · subst h
      exact List.mem_cons.mp (hperm.subset hx)
    · rw [hother ws h] at hx
      exact Or.inr hx
  constructor
  · intro ws
    by_cases h : ws = ws0
    · subst h
      exact (hperm.nodup_iff).mpr (List.nodup_cons.mpr ⟨habs ws, hu.1 ws⟩)
    · rw [hother ws h]; exact hu.1 ws
  · intro ws ws' hne x hx hx'
    by_cases h : ws = ws0
    · have h' : ws' ≠ ws0 := fun e => hne (h.trans e.symm)
      rw [hother ws' h'] at hx'
      rcases hmem ws x hx with rfl | hx
      · exact habs ws' hx'
      · exact hu.2 ws ws' hne hx hx'
    · rw [hother ws h] at hx
      rcases hmem ws' x hx' with rfl | hx'
      · exact habs ws hx
      · exact hu.2 ws ws' hne hx hx'

theorem create_core {host : Host} {pWindow : CWindow} {s s' : COrthoLayout}
    (h : onWindowCreatedTiling host pWindow s = some s') :
    (pWindow.m_isFloating = true ∧ s' = s) ∨
    (pWindow.m_isFloating = false ∧ ∃ target : eOrthoStatus, ∀ status ws,
      coreStack s' status ws =
        if status = target ∧ ws = pWindow.workspaceID
        then coreStack s status ws ++ [{ pWindow := pWindow.handle, weight := 1 }]
        else coreStack s status ws) := by
  unfold onWindowCreatedTiling at h
  cases hfl : pWindow.m_isFloating with
  | true =>
    left
    simp only [hfl, if_true, Option.some.injEq] at h
    exact ⟨rfl, h.symm⟩
  | false =>
    right
    refine ⟨rfl, ?_⟩
    simp only [hfl, Bool.false_eq_true, if_false] at h
    cases h1 : getOrthoWorkspaceData host pWindow.workspaceID s with
    | none => simp [h1] at h
    | some ds =>
      obtain ⟨data, s1⟩ := ds
      obtain ⟨hm, hs⟩ := getOrthoWorkspaceData_stores h1
      simp only [h1] at h
      have key : ∀ target : eOrthoStatus,
          recalculateMonitor host pWindow.monitorID
            (setStackOf s1 target pWindow.workspaceID
              (stackOf s1 target pWindow.workspaceID ++ [{ pWindow := pWindow.handle }])) = some s' →
          ∀ status ws, coreStack s' status ws =
            if status = target ∧ ws = pWindow.workspaceID
            then coreStack s status ws ++ [{ pWindow := pWindow.handle, weight := 1 }]
            else coreStack s status ws := by
        intro target hr status ws
        rw [recalculateMonitor_sameStacks hr status ws]
        unfold coreStack
        rw [stackOf_setStackOf]
        by_cases hc : status = target ∧ ws = pWindow.workspaceID
        · obtain ⟨hst, hws⟩ := hc
          subst hst; subst hws
          simp [stackOf_eq_of_stores hm hs, SOrthoNodeData.stripGeometry]
        · simp only [hc, if_false, stackOf_eq_of_stores hm hs]
      generalize toInt32 (if host.PMAINSTACKMIN ≥ 1 then host.PMAINSTACKMIN else 1) = mn at h
      by_cases hlt : getMainStackSize s1 pWindow.workspaceID < mn
      · rw [if_pos hlt] at h
        exact ⟨_, key _ h⟩
      · rw [if_neg hlt] at h
        exact ⟨_, key _ h⟩

theorem not_mem_winsOn {s : COrthoLayout} {w : PHLWINDOWREF}
    (h : ∀ status ws, w ∉ wins s status ws) (ws : WORKSPACEID) : w ∉ winsOn s ws := by
  unfold winsOn
  intro hm
  rcases List.mem_append.mp hm with hm | hm
  · exact h _ _ hm
  · exact h _ _ hm

/-- Creating a window that no node references keeps references unique and adds
nothing but that window. -/
theorem create_unique {host : Host} {pWindow : CWindow} {s s' : COrthoLayout}
    (h : onWindowCreatedTiling host pWindow s = some s')
    (habs : ∀ ws, pWindow.handle ∉ winsOn s ws) (hu : WindowsUnique s) :
    WindowsUnique s' ∧ ∀ ws x, x ∈ winsOn s' ws → x = pWindow.handle ∨ x ∈ winsOn s ws := by
  rcases create_core h with ⟨_, hs⟩ | ⟨_, target, hc⟩
  · rw [hs]
    exact ⟨hu, fun ws x hx => Or.inr hx⟩
  · have hother : ∀ ws, ws ≠ pWindow.workspaceID → winsOn s' ws = winsOn s ws := by
      intro ws hws
      unfold winsOn
      rw [wins_eq_core, wins_eq_core, hc, hc]
      simp only [hws, and_false, if_false]
      rw [← wins_eq_core, ← wins_eq_core]
    have hperm : List.Perm (winsOn s' pWindow.workspaceID)
        (pWindow.handle :: winsOn s pWindow.workspaceID) := by
      unfold winsOn
      rw [wins_eq_core, wins_eq_core, hc, hc]
      cases target
      · simp only [and_self, if_true, reduceCtorEq, false_and, if_false, List.map_append,
          List.map_cons, List.map_nil, ← wins_eq_core]
        rw [List.append_assoc]
        exact List.perm_middle
      · simp only [and_self, if_true, reduceCtorEq, false_and, if_false, List.map_append,
          List.map_cons, List.map_nil, ← wins_eq_core]
        rw [← List.append_assoc]
        exact (List.perm_append_comm).trans (List.Perm.refl _)
    refine ⟨windowsUnique_of_insert pWindow.handle pWindow.workspaceID hperm hother habs hu, ?_⟩
    intro ws x hx
    by_cases hws : ws = pWindow.workspaceID
    · subst hws
      exact List.mem_cons.mp (hperm.subset hx)
    · rw [hother ws hws] at hx
      exact Or.inr hx

theorem remove_core_of_some {host : Host} {pWindow : CWindow} {s s' : COrthoLayout}
    (h : onWindowRemovedTiling host pWindow s = some s') :
    (getNodeFromWindow s pWindow.handle = none ∧ s' = s) ∨
    ∃ r, getNodeFromWindow s pWindow.handle = some r ∧
      (∀ status ws, ws ≠ r.ws → coreStack s' status ws = coreStack s status ws) ∧
      ∃ M1 S1,
        M1 = (if r.status = eOrthoStatus.ORTHOSTATUS_MAIN
              then eraseNode (stackOf s eOrthoStatus.ORTHOSTATUS_MAIN r.ws) r.nd
              else stackOf s eOrthoStatus.ORTHOSTATUS_MAIN r.ws) ∧
        S1 = (if r.status = eOrthoStatus.ORTHOSTATUS_MAIN
              then stackOf s eOrthoStatus.ORTHOSTATUS_SECONDARY r.ws
              else eraseNode (stackOf s eOrthoStatus.ORTHOSTATUS_SECONDARY r.ws) r.nd) ∧
        coreStack s' eOrthoStatus.ORTHOSTATUS_MAIN r.ws
          = (promoteLast host r.status M1 S1).1.map SOrthoNodeData.stripGeometry ∧
        coreStack s' eOrthoStatus.ORTHOSTATUS_SECONDARY r.ws
          = (promoteLast host r.status M1 S1).2.map SOrthoNodeData.stripGeometry := by
  unfold onWindowRemovedTiling at h
  cases hfind : getNodeFromWindow s pWindow.handle with
  | none =>
    left
    simp only [hfind, Option.some.injEq] at h
    exact ⟨rfl, h.symm⟩
  | some r =>
    right
    simp only [hfind] at h
    have hf := recalculateMonitor_sameStacks h
    refine ⟨r, rfl, ?_, _, _, rfl, rfl, ?_, ?_⟩
    · intro status ws hws
      rw [hf]
      unfold coreStack
      rw [stackOf_update]
      simp only [hws, if_false]
    · rw [hf]
      unfold coreStack
      rw [stackOf_update]
      simp only [if_true]
      rfl
    · rw [hf]
      unfold coreStack
      rw [stackOf_update]
      simp only [if_true]
      rfl

theorem promoteLast_perm (host : Host) (status : eOrthoStatus) (M S : List SOrthoNodeData) :
    List.Perm ((promoteLast host status M S).1 ++ (promoteLast host status M S).2) (M ++ S) := by
  unfold promoteLast
  split
  · cases hl : S.getLast? with
    | none => exact List.Perm.refl _
    | some last =>
      simp only
      have hS : S.dropLast ++ [last] = S := List.dropLast_append_getLast? last hl
      rw [List.append_assoc]
      apply List.Perm.append_left
      conv_rhs => rw [← hS]
      exact List.perm_append_comm
  · exact List.Perm.refl _

theorem map_pWindow_strip (l : List SOrthoNodeData) :
    (l.map SOrthoNodeData.stripGeometry).map (fun nd => nd.pWindow)
      = l.map (fun nd => nd.pWindow) := by
  simp [SOrthoNodeData.stripGeometry, Function.comp_def]

theorem mem_eraseNode {l : List SOrthoNodeData} {nd n : SOrthoNodeData}
    (h : n ∈ eraseNode l nd) : n ∈ l ∧ n.pWindow ≠ nd.pWindow := by
  unfold eraseNode at h
  obtain ⟨h1, h2⟩ := List.mem_filter.mp h
  refine ⟨h1, ?_⟩
  simpa [SOrthoNodeData.eqNode] using h2

/-- Removing a window keeps references unique, adds no reference and leaves no
reference to the removed window. -/
theorem remove_unique {host : Host} {pWindow : CWindow} {s s' : COrthoLayout}
    (h : onWindowRemovedTiling host pWindow s = some s') (hu : WindowsUnique s) :
    WindowsUnique s' ∧ (∀ ws, List.Subperm (winsOn s' ws) (winsOn s ws)) ∧
      ∀ ws, pWindow.handle ∉ winsOn s' ws := by
  rcases remove_core_of_some h with ⟨hnone, hs⟩ | ⟨r, hfind, hother, M1, S1, hM1, hS1, hM, hS⟩
  · rw [hs]
    exact ⟨hu, fun ws => List.Subperm.refl _,
      not_mem_winsOn (getNodeFromWindow_none s pWindow.handle hnone)⟩
  · obtain ⟨pre, post, hl, _, hw, _⟩ := findInStack_some pWindow.handle _ 0 r.idx r.nd
      (getNodeFromWindow_some s pWindow.handle r hfind)
    have hwin : pWindow.handle ∈ wins s r.status r.ws := by
      unfold wins
      rw [hl]
      exact List.mem_map.mpr ⟨r.nd, by simp, hw⟩
    have hsub1 : List.Sublist (M1 ++ S1)
        (stackOf s eOrthoStatus.ORTHOSTATUS_MAIN r.ws ++
          stackOf s eOrthoStatus.ORTHOSTATUS_SECONDARY r.ws) := by
      rw [hM1, hS1]
      split
      · exact List.Sublist.append (List.filter_sublist _) (List.Sublist.refl _)
      · exact List.Sublist.append (List.Sublist.refl _) (List.filter_sublist _)
    have hwinsOn' : winsOn s' r.ws
        = ((promoteLast host r.status M1 S1).1 ++ (promoteLast host r.status M1 S1).2).map
            (fun nd => nd.pWindow) := by
      unfold winsOn
      rw [wins_eq_core, wins_eq_core, hM, hS, map_pWindow_strip, map_pWindow_strip,
        List.map_append]
    have hwinsOn : winsOn s r.ws
        = (stackOf s eOrthoStatus.ORTHOSTATUS_MAIN r.ws ++
            stackOf s eOrthoStatus.ORTHOSTATUS_SECONDARY r.ws).map (fun nd => nd.pWindow) := by
      unfold winsOn wins
      rw [List.map_append]
    have hpermW : List.Perm (winsOn s' r.ws) ((M1 ++ S1).map (fun nd => nd.pWindow)) := by
      rw [hwinsOn']
      exact (promoteLast_perm host r.status M1 S1).map _
    have hsubperm : ∀ ws, List.Subperm (winsOn s' ws) (winsOn s ws) := by
      intro ws
      by_cases hws : ws = r.ws
      · subst hws
        rw [hwinsOn]
        exact ⟨_, hpermW.symm, hsub1.map _⟩
      · unfold winsOn
        rw [wins_of_core_eq (hother _ ws hws), wins_of_core_eq (hother _ ws hws)]
    refine ⟨windowsUnique_of_subperm hsubperm hu, hsubperm, ?_⟩
    intro ws hmem
    by_cases hws : ws = r.ws
    · subst hws
      have hmem2 := hpermW.subset hmem
      rw [List.map_append] at hmem2
      have hnodup := hu.1 r.ws
      unfold winsOn at hnodup
      have hdisj := (List.nodup_append.mp hnodup).2.2
      cases hst : r.status
      · rw [hst] at hwin
        rw [hM1, hS1] at hmem2
        simp only [hst, if_true] at hmem2
        rcases List.mem_append.mp hmem2 with hm | hm
        · obtain ⟨n, hn, hnw⟩ := List.mem_map.mp hm
          exact (mem_eraseNode hn).2 (hnw.trans hw.symm)
        · exact hdisj hwin hm
      · rw [hst] at hwin
        rw [hM1, hS1] at hmem2
        simp only [hst, reduceCtorEq, if_false] at hmem2
        rcases List.mem_append.mp hmem2 with hm | hm
        · exact hdisj hm hwin
        · obtain ⟨n, hn, hnw⟩ := List.mem_map.mp hm
          exact (mem_eraseNode hn).2 (hnw.trans hw.symm)
    · have hin : pWindow.handle ∈ winsOn s r.ws := by
        unfold winsOn
        cases hst : r.status
        · rw [hst] at hwin; exact List.mem_append_left _ hwin
        · rw [hst] at hwin; exact List.mem_append_right _ hwin
      exact hu.2 ws r.ws hws ((hsubperm ws).subset hmem) hin

/-! ## Swap and replace on lists of window references -/

theorem nodup_getElem?_inj {l : List PHLWINDOWREF} (hn : l.Nodup) {i k : Nat} {x : PHLWINDOWREF}
    (hi : l[i]? = some x) (hk : l[k]? = some x) : i = k := by
  obtain ⟨h1, e1⟩ := List.getElem?_eq_some_iff.mp hi
  obtain ⟨h2, e2⟩ := List.getElem?_eq_some_iff.mp hk
  exact (List.Nodup.getElem_inj_iff hn).mp (e1.trans e2.symm)

theorem set_eq_map_swap {l : List PHLWINDOWREF} (hn : l.Nodup) {i : Nat} {a b : PHLWINDOWREF}
    (ha : l[i]? = some a) (hb : b ∉ l) : l.set i b = l.map (Equiv.swap a b) := by
  apply List.ext_getElem?
  intro k
  rw [List.getElem?_set, List.getElem?_map]
  have hlen : i < l.length := (List.getElem?_eq_some_iff.mp ha).1
  by_cases hik : i = k
  · subst hik
    simp [hlen, ha]
  · rw [if_neg hik]
    cases hk : l[k]? with
    | none => rfl
    | some x =>
      have hxa : x ≠ a := fun e => hik (nodup_getElem?_inj hn ha (e ▸ hk))
      have hxb : x ≠ b := fun e => hb (e ▸ List.getElem?_mem hk)
      simp [Equiv.swap_apply_of_ne_of_ne hxa hxb]

theorem set_set_eq_map_swap {l : List PHLWINDOWREF} (hn : l.Nodup) {i j : Nat}
    {a b : PHLWINDOWREF} (ha : l[i]? = some a) (hb : l[j]? = some b) :
    (l.set i b).set j a = l.map (Equiv.swap a b) := by
  apply List.ext_getElem?
  intro k
  rw [List.getElem?_set, List.getElem?_set, List.getElem?_map, List.length_set]
  have hleni : i < l.length := (List.getElem?_eq_some_iff.mp ha).1
  have hlenj : j < l.length := (List.getElem?_eq_some_iff.mp hb).1
  by_cases hjk : j = k
  · subst hjk
    simp [hlenj, hb]
  · rw [if_neg hjk]
    by_cases hik : i = k
    · subst hik
      simp [hleni, ha]
    · rw [if_neg hik]
      cases hk : l[k]? with
      | none => rfl
      | some x =>
        have hxa : x ≠ a := fun e => hik (nodup_getElem?_inj hn ha (e ▸ hk))
        have hxb : x ≠ b := fun e => hjk (nodup_getElem?_inj hn hb (e ▸ hk))
        simp [Equiv.swap_apply_of_ne_of_ne hxa hxb]

theorem eq_map_swap_of_not_mem {l : List PHLWINDOWREF} {a b : PHLWINDOWREF}
    (ha : a ∉ l) (hb : b ∉ l) : l = l.map (Equiv.swap a b) := by
  apply List.ext_getElem?
  intro k
  rw [List.getElem?_map]
  cases hk : l[k]? with
  | none => rfl
  | some x =>
    have hxa : x ≠ a := fun e => ha (e ▸ List.getElem?_mem hk)
    have hxb : x ≠ b := fun e => hb (e ▸ List.getElem?_mem hk)
    simp [Equiv.swap_apply_of_ne_of_ne hxa hxb]

/-- In a state with unique references a window lives in one stack only. -/
theorem unique_stack {s : COrthoLayout} (hu : WindowsUnique s) {x : PHLWINDOWREF}
    {status status' : eOrthoStatus} {ws ws' : WORKSPACEID}
    (h1 : x ∈ wins s status ws) (h2 : x ∈ wins s status' ws') : status = status' ∧ ws = ws' := by
  have m1 : x ∈ winsOn s ws := by
    unfold winsOn
    cases status
    · exact List.mem_append_left _ h1
    · exact List.mem_append_right _ h1
  have m2 : x ∈ winsOn s ws' := by
    unfold winsOn
    cases status'
    · exact List.mem_append_left _ h2
    · exact List.mem_append_right _ h2
  have hws : ws = ws' := by
    by_contra hne
    exact hu.2 ws ws' hne m1 m2
  subst hws
  refine ⟨?_, rfl⟩
  have hnodup := hu.1 ws
  unfold winsOn at hnodup
  have hdisj := (List.nodup_append.mp hnodup).2.2
  cases status <;> cases status'
  · rfl
  · exact absurd h2 (fun h => hdisj h1 h)
  · exact absurd h1 (fun h => hdisj h2 h)
  · rfl

theorem winsOn_map {s s' : COrthoLayout} (f : PHLWINDOWREF → PHLWINDOWREF)
    (h : ∀ status ws, wins s' status ws = (wins s status ws).map f) (ws : WORKSPACEID) :
    winsOn s' ws = (winsOn s ws).map f := by
  unfold winsOn
  rw [h, h, List.map_append]

theorem lookup_slot {s : COrthoLayout} {w : PHLWINDOWREF} {r : SNodeLookupResult}
    (hfind : getNodeFromWindow s w = some r) :
    (stackOf s r.status r.ws)[r.idx]? = some r.nd ∧ r.nd.pWindow = w := by
  obtain ⟨pre, post, hl, hi, hw, _⟩ := findInStack_some w _ 0 r.idx r.nd
    (getNodeFromWindow_some s w r hfind)
  have hi2 : r.idx = pre.length := by omega
  rw [hl, hi2, List.getElem?_append_right (le_refl _)]
  simp [hw]

theorem wins_getElem? {s : COrthoLayout} {status : eOrthoStatus} {ws : WORKSPACEID} {i : Nat}
    {nd : SOrthoNodeData} (h : (stackOf s status ws)[i]? = some nd) :
    (wins s status ws)[i]? = some nd.pWindow := by
  unfold wins
  rw [List.getElem?_map, h]
  rfl

/-- Writing each of two nodes into the other's slot applies the transposition of
their two windows to every stack. -/
theorem swap_state_wins (s : COrthoLayout) (hu : WindowsUnique s)
    (stA stB : eOrthoStatus) (wsA wsB : WORKSPACEID) (iA iB : Nat) (ndA ndB : SOrthoNodeData)
    (ha : (stackOf s stA wsA)[iA]? = some ndA) (hb : (stackOf s stB wsB)[iB]? = some ndB)
    (status : eOrthoStatus) (ws : WORKSPACEID) :
    wins (setStackOf (setStackOf s stA wsA ((stackOf s stA wsA).set iA ndB)) stB wsB
        ((stackOf (setStackOf s stA wsA ((stackOf s stA wsA).set iA ndB)) stB wsB).set iB ndA))
      status ws = (wins s status ws).map (Equiv.swap ndA.pWindow ndB.pWindow) := by
  have wa := wins_getElem? ha
  have wb := wins_getElem? hb
  have ma : ndA.pWindow ∈ wins s stA wsA := List.getElem?_mem wa
  have mb : ndB.pWindow ∈ wins s stB wsB := List.getElem?_mem wb
  have hnA := wins_nodup_of_unique hu stA wsA
  have hnB := wins_nodup_of_unique hu stB wsB
  unfold wins
  rw [stackOf_setStackOf]
  by_cases hB : status = stB ∧ ws = wsB
  · obtain ⟨h1, h2⟩ := hB
    subst h1; subst h2
    simp only [and_self, if_true]
    rw [stackOf_setStackOf]
    by_cases hAB : status = stA ∧ ws = wsA
    · obtain ⟨h1, h2⟩ := hAB
      subst h1; subst h2
      simp only [and_self, if_true, List.map_set]
      exact set_set_eq_map_swap hnA wa wb
    · simp only [hAB, if_false, List.map_set]
      have hna : ndA.pWindow ∉ wins s status ws := by
        intro hm
        have := unique_stack hu hm ma
        exact hAB this
      have := set_eq_map_swap hnB wb hna
      rw [Equiv.swap_comm] at this
      exact this
  · simp only [hB, if_false]
    rw [stackOf_setStackOf]
    by_cases hA : status = stA ∧ ws = wsA
    · obtain ⟨h1, h2⟩ := hA
      subst h1; subst h2
      simp only [and_self, if_true, List.map_set]
      have hnb : ndB.pWindow ∉ wins s status ws := by
        intro hm
        have := unique_stack hu hm mb
        exact hB this
      exact set_eq_map_swap hnA wa hnb
    · simp only [hA, if_false]
      have hna : ndA.pWindow ∉ wins s status ws := by
        intro hm
        exact hA (unique_stack hu hm ma)
      have hnb : ndB.pWindow ∉ wins s status ws := by
        intro hm
        exact hB (unique_stack hu hm mb)
      exact eq_map_swap_of_not_mem hna hnb

theorem wins_of_sameStacks {s s' : COrthoLayout} (h : SameStacks s s') (status : eOrthoStatus)
    (ws : WORKSPACEID) : wins s' status ws = wins s status ws :=
  wins_of_core_eq (h status ws)

/-- What `switchWindows` does to the window references of every stack. -/
theorem switch_core {host : Host} {pWindowA pWindowB : CWindow} {s s' : COrthoLayout}
    (h : switchWindows host pWindowA pWindowB s = some s') (hu : WindowsUnique s) :
    ∃ σ : PHLWINDOWREF → PHLWINDOWREF, Function.Injective σ ∧
      ∀ status ws, wins s' status ws = (wins s status ws).map σ := by
  unfold switchWindows at h
  cases hA : getNodeFromWindow s pWindowA.handle with
  | none =>
    simp only [hA, Option.some.injEq] at h
    subst h
    exact ⟨id, Function.injective_id, fun _ _ => (List.map_id _).symm⟩
  | some rA =>
    cases hB : getNodeFromWindow s pWindowB.handle with
    | none =>
      simp only [hA, hB, Option.some.injEq] at h
      subst h
      exact ⟨id, Function.injective_id, fun _ _ => (List.map_id _).symm⟩
    | some rB =>
      simp only [hA, hB] at h
      obtain ⟨sa, pa⟩ := lookup_slot hA
      obtain ⟨sb, pb⟩ := lookup_slot hB
      have hs0 : ∀ status ws,
          stackOf (setStackOf (setStackOf s rA.status rA.ws (stackOf s rA.status rA.ws))
            rB.status rB.ws (stackOf s rB.status rB.ws)) status ws = stackOf s status ws := by
        intro status ws
        rw [stackOf_setStackOf]
        split
        · next hc => rw [hc.1, hc.2]
        · rw [stackOf_setStackOf]
          split
          · next hc => rw [hc.1, hc.2]
          · rfl
      generalize setStackOf (setStackOf s rA.status rA.ws (stackOf s rA.status rA.ws))
        rB.status rB.ws (stackOf s rB.status rB.ws) = s0 at h hs0
      have gA : findInStack rA.nd.pWindow (stackOf s0 rA.status rA.ws) 0 = some (rA.idx, rA.nd) := by
        rw [hs0, pa]
        exact getNodeFromWindow_some s pWindowA.handle rA hA
      have gB : findInStack rB.nd.pWindow (stackOf s0 rB.status rB.ws) 0 = some (rB.idx, rB.nd) := by
        rw [hs0, pb]
        exact getNodeFromWindow_some s pWindowB.handle rB hB
      rw [gA, gB] at h
      simp only at h
      have hw0 : ∀ status ws, wins s0 status ws = wins s status ws := by
        intro status ws
        unfold wins
        rw [hs0]
      have hu0 : WindowsUnique s0 := by
        apply windowsUnique_of_winsOn_eq _ hu
        intro ws
        unfold winsOn
        rw [hw0, hw0]
      have hw2 := swap_state_wins s0 hu0 rA.status rB.status rA.ws rB.ws rA.idx rB.idx rA.nd rB.nd
        (by rw [hs0]; exact sa) (by rw [hs0]; exact sb)
      refine ⟨Equiv.swap rA.nd.pWindow rB.nd.pWindow, (Equiv.swap _ _).injective, ?_⟩
      intro status ws
      rw [← hw0 status ws, ← hw2 status ws]
      cases h3 : recalculateMonitor host pWindowA.monitorID
          (setStackOf (setStackOf s0 rA.status rA.ws ((stackOf s0 rA.status rA.ws).set rA.idx rB.nd))
            rB.status rB.ws
            ((stackOf (setStackOf s0 rA.status rA.ws
              ((stackOf s0 rA.status rA.ws).set rA.idx rB.nd)) rB.status rB.ws).set rB.idx rA.nd)) with
      | none => rw [h3] at h; simp at h
      | some s3 =>
        rw [h3] at h
        simp only at h
        have f3 := recalculateMonitor_sameStacks h3
        split at h
        · have f4 := recalculateMonitor_sameStacks h
          rw [wins_of_sameStacks f4, wins_of_sameStacks f3]
        · simp only [Option.some.injEq] at h
          subst h
          rw [wins_of_sameStacks f3]

/-- What `replaceWindowDataWith` does to the window references when the new
window is not referenced yet. -/
theorem replace_core {pFrom pTo : CWindow} {s : COrthoLayout} (hu : WindowsUnique s)
    (habs : ∀ status ws, pTo.handle ∉ wins s status ws) :
    ∃ σ : PHLWINDOWREF → PHLWINDOWREF, Function.Injective σ ∧
      ∀ status ws, wins (replaceWindowDataWith pFrom pTo s) status ws
        = (wins s status ws).map σ := by
  unfold replaceWindowDataWith
  cases hF : getNodeFromWindow s pFrom.handle with
  | none => exact ⟨id, Function.injective_id, fun _ _ => (List.map_id _).symm⟩
  | some r =>
    obtain ⟨sa, pa⟩ := lookup_slot hF
    have wa := wins_getElem? sa
    have ma : r.nd.pWindow ∈ wins s r.status r.ws := List.getElem?_mem wa
    refine ⟨Equiv.swap r.nd.pWindow pTo.handle, (Equiv.swap _ _).injective, ?_⟩
    intro status ws
    simp only
    unfold wins
    rw [stackOf_setStackOf]
    by_cases hc : status = r.status ∧ ws = r.ws
    · rw [if_pos hc, hc.1, hc.2, List.map_set]
      exact set_eq_map_swap (wins_nodup_of_unique hu r.status r.ws) wa (habs r.status r.ws)
    · simp only [hc, if_false]
      have hna : r.nd.pWindow ∉ wins s status ws := fun hm => hc (unique_stack hu hm ma)
      exact eq_map_swap_of_not_mem hna (habs status ws)

theorem windowsUnique_of_wins_map {s s' : COrthoLayout}
    (h : ∃ σ : PHLWINDOWREF → PHLWINDOWREF, Function.Injective σ ∧
      ∀ status ws, wins s' status ws = (wins s status ws).map σ)
    (hu : WindowsUnique s) : WindowsUnique s' := by
  obtain ⟨σ, hinj, hw⟩ := h
  exact windowsUnique_of_map σ hinj (winsOn_map σ hw) hu

theorem move_unique {host : Host} {pWindow : CWindow} {dir : String} {s s' : COrthoLayout}
    (h : moveWindowTo host pWindow dir s = some s') (hu : WindowsUnique s) :
    WindowsUnique s' := by
  unfold moveWindowTo at h
  split at h
  · simp only [Option.some.injEq] at h
    subst h
    exact hu
  · cases hd : host.getWindowInDirection pWindow dir with
    | none =>
      simp only [hd, Option.some.injEq] at h
      subst h
      exact hu
    | some PWINDOW2 =>
      simp only [hd] at h
      split at h
      · cases h1 : onWindowRemovedTiling host pWindow s with
        | none => rw [h1] at h; simp at h
        | some s1 =>
          rw [h1] at h
          simp only at h
          obtain ⟨hu1, _, habs⟩ := remove_unique h1 hu
          exact (create_unique h habs hu1).1
      · exact windowsUnique_of_wins_map (switch_core h hu) hu

theorem enable_loop_unique (host : Host) (l : List CWindow) :
    ∀ (s s' : COrthoLayout), onEnableLoop host l s = some s' → WindowsUnique s →
      ((adoptableWindows l).map (fun w => w.handle)).Nodup →
      (∀ w ∈ adoptableWindows l, ∀ ws, w.handle ∉ winsOn s ws) → WindowsUnique s' := by
  induction l with
  | nil =>
    intro s s' h hu _ _
    simp only [onEnableLoop, Option.some.injEq] at h
    subst h
    exact hu
  | cons w rest ih =>
    intro s s' h hu hnd habs
    unfold onEnableLoop at h
    by_cases hskip : (w.m_isFloating || !w.m_isMapped || w.isHidden) = true
    · rw [if_pos hskip] at h
      have hf : adoptableWindows (w :: rest) = adoptableWindows rest := by
        unfold adoptableWindows
        rw [List.filter_cons]
        simp [hskip]
      rw [hf] at hnd habs
      exact ih s s' h hu hnd habs
    · rw [if_neg hskip] at h
      have hf : adoptableWindows (w :: rest) = w :: adoptableWindows rest := by
        unfold adoptableWindows
        rw [List.filter_cons]
        simp [hskip]
      rw [hf] at hnd habs
      cases h1 : onWindowCreatedTiling host w s with
      | none => rw [h1] at h; simp at h
      | some s1 =>
        rw [h1] at h
        simp only at h
        obtain ⟨hu1, hmem⟩ := create_unique h1 (habs w (List.mem_cons_self _ _)) hu
        simp only [List.map_cons, List.nodup_cons] at hnd
        apply ih s1 s' h hu1 hnd.2
        intro w' hw' ws hin
        rcases hmem ws _ hin with heq | hin
        · exact hnd.1 (heq ▸ List.mem_map.mpr ⟨w', hw', rfl⟩)
        · exact habs w' (List.mem_cons_of_mem _ hw') ws hin

theorem windowsUnique_init : WindowsUnique COrthoLayout.init := by
  have h : ∀ ws, winsOn COrthoLayout.init ws = [] := by
    intro ws
    simp [winsOn, wins, stackOf, COrthoLayout.init, UMap.empty, UMap.get, UMap.find,
      UMap.findEntries]
  constructor
  · intro ws; rw [h]; exact List.nodup_nil
  · intro ws ws' _; rw [h]; exact List.disjoint_nil_left _

/-- C4 (amended). Uniqueness invariant: in every state reached from the empty
engine through the lifecycle handlers, when creation is only requested for
windows that are not tiled and a replacement's new window is not tiled, each
window reference appears in at most one node across all stacks of all
workspaces. -/
theorem reachable_windowsUnique (s : COrthoLayout) (h : Reachable s) : WindowsUnique s := by
  induction h with
  | init => exact windowsUnique_init
  | create _ hnone hc ih =>
    exact (create_unique hc (not_mem_winsOn (getNodeFromWindow_none _ _ hnone)) ih).1
  | remove _ hr ih => exact (remove_unique hr ih).1
  | switch _ hs ih => exact windowsUnique_of_wins_map (switch_core hs ih) ih
  | move _ hm ih => exact move_unique hm ih
  | replace _ hnone ih =>
    exact windowsUnique_of_wins_map (replace_core ih (getNodeFromWindow_none _ _ hnone)) ih
  | enable _ hnd hnone he ih =>
    exact enable_loop_unique _ _ _ _ he ih hnd
      (fun w hw => not_mem_winsOn (getNodeFromWindow_none _ _ (hnone w hw)))

/-! ## Geometry: what `calculateWorkspace` stores -/

/-- The two stacks after a recompute of a workspace without fullscreen window and
with a non-empty main stack: the results of the two layout loops. -/
theorem calculateWorkspace_stacks {host : Host} {pWorkspace : CWorkspace} {s s1 : COrthoLayout}
    {data : SOrthoWorkspaceData}
    (hD : getOrthoWorkspaceData host pWorkspace.m_id s = some (data, s1))
    (hfs : pWorkspace.m_hasFullscreenWindow = false)
    (hmain : stackOf s eOrthoStatus.ORTHOSTATUS_MAIN pWorkspace.m_id ≠ []) :
    ∃ s', calculateWorkspace host pWorkspace s = some s' ∧
      stackOf s' eOrthoStatus.ORTHOSTATUS_MAIN pWorkspace.m_id =
        mainStackLoop (decide (data.mainSide = eMainSide.MAIN_SIDE_RIGHT)) data.overrideMainWeights
          (usablePos pWorkspace) (usableSize pWorkspace)
          (splitWidth pWorkspace data (stackOf s eOrthoStatus.ORTHOSTATUS_SECONDARY pWorkspace.m_id))
          (mainTotalWeight data.overrideMainWeights data.mainWeightOverrides
            (stackOf s eOrthoStatus.ORTHOSTATUS_MAIN pWorkspace.m_id))
          (stackOf s eOrthoStatus.ORTHOSTATUS_MAIN pWorkspace.m_id)
          (if data.mainSide = eMainSide.MAIN_SIDE_RIGHT then
            (usableSize pWorkspace).x
              - splitWidth pWorkspace data
                  (stackOf s eOrthoStatus.ORTHOSTATUS_SECONDARY pWorkspace.m_id)
           else splitWidth pWorkspace data
                  (stackOf s eOrthoStatus.ORTHOSTATUS_SECONDARY pWorkspace.m_id))
          (splitWidth pWorkspace data (stackOf s eOrthoStatus.ORTHOSTATUS_SECONDARY pWorkspace.m_id))
          data.mainWeightOverrides ∧
      stackOf s' eOrthoStatus.ORTHOSTATUS_SECONDARY pWorkspace.m_id =
        secondaryStackLoop (usablePos pWorkspace) (usableSize pWorkspace)
          ((usableSize pWorkspace).x
            - splitWidth pWorkspace data
                (stackOf s eOrthoStatus.ORTHOSTATUS_SECONDARY pWorkspace.m_id))
          (if data.mainSide = eMainSide.MAIN_SIDE_RIGHT then 0
           else splitWidth pWorkspace data
                  (stackOf s eOrthoStatus.ORTHOSTATUS_SECONDARY pWorkspace.m_id))
          ((stackOf s eOrthoStatus.ORTHOSTATUS_SECONDARY pWorkspace.m_id).foldl
            (fun totalWeight nd => totalWeight + nd.weight) 0)
          (usableSize pWorkspace).y
          (stackOf s eOrthoStatus.ORTHOSTATUS_SECONDARY pWorkspace.m_id)
          (usableSize pWorkspace).y := by
  obtain ⟨hm, hs⟩ := getOrthoWorkspaceData_stores hD
  have hmain' : (s.m_mainStackByWorkspace.get pWorkspace.m_id).isEmpty = false := by
    cases hl : s.m_mainStackByWorkspace.get pWorkspace.m_id with
    | nil => exact absurd hl hmain
    | cons a l => rfl
  unfold calculateWorkspace
  simp only [hD, hfs, hm, hs, hmain', Bool.false_eq_true, if_false]
  cases hsec : s.m_secondaryStackByWorkspace.get pWorkspace.m_id with
  | nil =>
    refine ⟨_, rfl, ?_, ?_⟩
    · simp [stackOf, UMap.get_set, splitWidth, hsec, usableSize, usablePos]
    · simp [stackOf, UMap.get_set, hsec, secondaryStackLoop]
  | cons a l =>
    refine ⟨_, rfl, ?_, ?_⟩
    · simp [stackOf, UMap.get_set, splitWidth, hsec, usableSize, usablePos]
    · simp [stackOf, UMap.get_set, splitWidth, hsec, usableSize, usablePos]

/-! ## Geometry: weights -/

theorem loopWeights_length (O : Bool) (l : List SOrthoNodeData) :
    ∀ it : List ℚ, (loopWeights O l it).length = l.length := by
  induction l with
  | nil => intro _; rfl
  | cons nd rest ih => intro it; simp [loopWeights, ih]

theorem loopWeights_no_override (l : List SOrthoNodeData) :
    ∀ it : List ℚ, loopWeights false l it = l.map (fun nd => nd.weight) := by
  induction l with
  | nil => intro _; rfl
  | cons nd rest ih => intro it; simp [loopWeights, ih]

theorem loopWeights_override (l : List SOrthoNodeData) :
    ∀ it : List ℚ, loopWeights true l it
      = (List.range l.length).map (fun i => (it[i]?).getD 1) := by
  induction l with
  | nil => intro _; rfl
  | cons nd rest ih =>
    intro it
    rw [List.length_cons, List.range_succ_eq_map, List.map_cons, List.map_map]
    unfold loopWeights
    rw [ih]
    cases it with
    | nil => simp [Function.comp_def]
    | cons o os => simp [Function.comp_def]

/-- The loop's weights are the effective weights of the specification. -/
theorem loopWeights_eq_effective (data : SOrthoWorkspaceData) (main : List SOrthoNodeData) :
    loopWeights data.overrideMainWeights main data.mainWeightOverrides
      = effectiveWeights data main := by
  unfold effectiveWeights
  cases h : data.overrideMainWeights
  · simp [loopWeights_no_override]
  · simp [loopWeights_override]

theorem foldl_weight (l : List SOrthoNodeData) :
    ∀ a : ℚ, l.foldl (fun totalWeight nd => totalWeight + nd.weight) a
      = a + (l.map (fun nd => nd.weight)).sum := by
  induction l with
  | nil => intro a; simp
  | cons nd rest ih => intro a; simp [ih, add_assoc]

theorem foldl_add (l : List ℚ) :
    ∀ a : ℚ, l.foldl (fun totalWeight o => totalWeight + o) a = a + l.sum := by
  induction l with
  | nil => intro a; simp
  | cons o rest ih => intro a; simp [ih, add_assoc]

theorem mainTotalWeight_override (l : List SOrthoNodeData) :
    ∀ O : List ℚ, mainTotalWeight true O l = (loopWeights true l O).sum := by
  induction l with
  | nil =>
    intro O
    simp [mainTotalWeight, loopWeights]
  | cons nd rest ih =>
    intro O
    cases O with
    | nil =>
      have h := ih []
      simp only [mainTotalWeight, Bool.not_true, Bool.false_eq_true, if_false, List.length_nil,
        Nat.zero_min, List.take_zero, List.foldl_nil, Nat.sub_zero, zero_add] at h
      simp only [mainTotalWeight, Bool.not_true, Bool.false_eq_true, if_false, List.length_nil,
        Nat.zero_min, List.take_zero, List.foldl_nil, List.length_cons, Nat.sub_zero, zero_add,
        loopWeights, List.tail_nil, List.sum_cons, Nat.zero_lt_succ, if_true]
      rw [← h]
      by_cases hr : 0 < rest.length
      · simp only [hr, if_true]; push_cast; ring
      · have : rest.length = 0 := by omega
        simp [this]
    | cons o os =>
      have h := ih os
      simp only [mainTotalWeight, Bool.not_true, Bool.false_eq_true, if_false] at h
      simp only [mainTotalWeight, Bool.not_true, Bool.false_eq_true, if_false, List.length_cons,
        Nat.add_min_add_right, List.take_succ_cons, List.foldl_cons, zero_add, loopWeights,
        List.tail_cons, List.sum_cons, Nat.add_lt_add_iff_right, Nat.add_sub_add_right]
      rw [← h, foldl_add, foldl_add]
      split <;> ring

/-- The total the loop divides by is the sum of the weights it uses. -/
theorem mainTotalWeight_eq (O : Bool) (overrides : List ℚ) (l : List SOrthoNodeData) :
    mainTotalWeight O overrides l = (loopWeights O l overrides).sum := by
  cases O
  · simp [mainTotalWeight, loopWeights_no_override, foldl_weight]
  · exact mainTotalWeight_override l overrides

/-! ## Geometry: the loops without the rounding guard -/

theorem Vector2D.add_x (a b : Vector2D) : (a + b).x = a.x + b.x := rfl

theorem Vector2D.add_y (a b : Vector2D) : (a + b).y = a.y + b.y := rfl

theorem Vector2D.sub_x (a b : Vector2D) : (a - b).x = a.x - b.x := rfl

theorem Vector2D.sub_y (a b : Vector2D) : (a - b).y = a.y - b.y := rfl

theorem share_le_of_sum (split total e rest rem : ℚ) (htot : 0 < total) (hsplit : 0 ≤ split)
    (hrest : 0 ≤ rest) (hrem : split * (e + rest) / total ≤ rem) :
    split * e / total ≤ rem ∧ split * rest / total ≤ rem - split * e / total := by
  have h1 : split * (e + rest) / total = split * e / total + split * rest / total := by
    field_simp
    ring
  have h2 : 0 ≤ split * rest / total := div_nonneg (mul_nonneg hsplit hrest) htot.le
  constructor <;> linarith

/-- The first weight the main loop uses. -/
theorem loopWeights_cons (O : Bool) (nd : SOrthoNodeData) (rest : List SOrthoNodeData)
    (it : List ℚ) :
    loopWeights O (nd :: rest) it = (loopWeights O [nd] it).headD 1 :: loopWeights O rest it.tail :=
  rfl

/-- One turn of the main loop. -/
theorem mainStackLoop_cons (R O : Bool) (P S : Vector2D) (split total : ℚ) (nd : SOrthoNodeData)
    (rest : List SOrthoNodeData) (nextX rem : ℚ) (it : List ℚ) :
    mainStackLoop R O P S split total (nd :: rest) nextX rem it =
      { nd with
        size := ⟨min (split * (loopWeights O [nd] it).headD 1 / total) rem, S.y⟩
        position := P + ⟨(if !R then nextX - min (split * (loopWeights O [nd] it).headD 1 / total) rem
                          else nextX), 0⟩ } ::
      mainStackLoop R O P S split total rest
        (if R then (if !R then nextX - min (split * (loopWeights O [nd] it).headD 1 / total) rem
                    else nextX) + min (split * (loopWeights O [nd] it).headD 1 / total) rem
         else (if !R then nextX - min (split * (loopWeights O [nd] it).headD 1 / total) rem
               else nextX))
        (rem - min (split * (loopWeights O [nd] it).headD 1 / total) rem) it.tail :=
  rfl

/-- With positive weights and exact arithmetic the guard `min(..., remainingWidth)`
never cuts a width: the main loop places the proportional shares. -/
theorem mainStackLoop_eq_place (R O : Bool) (P S : Vector2D) (split total : ℚ)
    (htot : 0 < total) (hsplit : 0 ≤ split) (l : List SOrthoNodeData) :
    ∀ (nextX rem : ℚ) (it : List ℚ), (∀ e ∈ loopWeights O l it, 0 < e) →
      split * (loopWeights O l it).sum / total ≤ rem →
      mainStackLoop R O P S split total l nextX rem it =
        placeMain R P S.y l ((loopWeights O l it).map (fun e => split * e / total)) nextX := by
  induction l with
  | nil => intro _ _ _ _ _; rfl
  | cons nd rest ih =>
    intro nextX rem it hpos hrem
    rw [loopWeights_cons] at hpos hrem ⊢
    rw [List.sum_cons] at hrem
    have hrestpos : ∀ e ∈ loopWeights O rest it.tail, 0 < e :=
      fun e he => hpos e (List.mem_cons_of_mem _ he)
    have hsum : 0 ≤ (loopWeights O rest it.tail).sum :=
      List.sum_nonneg (fun e he => (hrestpos e he).le)
    obtain ⟨h1, h2⟩ := share_le_of_sum split total _ _ rem htot hsplit hsum hrem
    rw [mainStackLoop_cons, List.map_cons, placeMain]
    simp only [min_eq_left h1]
    rw [ih _ _ _ hrestpos h2]
    cases R <;> simp

theorem weight_share_le (H total w : ℚ) (htot : 0 < total) (hH : 0 ≤ H) (hw : w ≤ total) :
    H * w / total ≤ H := by
  rw [div_le_iff₀ htot]
  exact mul_le_mul_of_nonneg_left hw hH

/-- The secondary loop places the proportional shares of the height. -/
theorem secondaryStackLoop_eq_place (P S : Vector2D) (WIDTH nextX total : ℚ)
    (htot : 0 < total) (hH : 0 ≤ S.y) (l : List SOrthoNodeData)
    (hw : ∀ nd ∈ l, nd.weight ≤ total) :
    ∀ nextY : ℚ, secondaryStackLoop P S WIDTH nextX total S.y l nextY =
      placeSecondary P WIDTH nextX l (l.map (fun nd => S.y * nd.weight / total)) nextY := by
  induction l with
  | nil => intro _; rfl
  | cons nd rest ih =>
    intro nextY
    have h1 := weight_share_le S.y total nd.weight htot hH (hw nd (List.mem_cons_self _ _))
    unfold secondaryStackLoop
    simp only [List.map_cons, placeSecondary, min_eq_left h1]
    rw [ih (fun n hn => hw n (List.mem_cons_of_mem _ hn))]

theorem placeMain_widths (R : Bool) (P : Vector2D) (height : ℚ) (l : List SOrthoNodeData) :
    ∀ (widths : List ℚ) (nextX : ℚ), widths.length = l.length →
      (placeMain R P height l widths nextX).map (fun nd => nd.size.x) = widths := by
  induction l with
  | nil =>
    intro widths nextX h
    have : widths = [] := List.length_eq_zero.mp h
    subst this
    rfl
  | cons nd rest ih =>
    intro widths nextX h
    cases widths with
    | nil => simp at h
    | cons w ws =>
      simp only [List.length_cons, Nat.add_right_cancel_iff] at h
      simp [placeMain, ih ws _ h]

theorem placeSecondary_heights (P : Vector2D) (WIDTH nextX : ℚ) (l : List SOrthoNodeData) :
    ∀ (heights : List ℚ) (nextY : ℚ), heights.length = l.length →
      (placeSecondary P WIDTH nextX l heights nextY).map (fun nd => nd.size.y) = heights := by
  induction l with
  | nil =>
    intro heights nextY h
    have : heights = [] := List.length_eq_zero.mp h
    subst this
    rfl
  | cons nd rest ih =>
    intro heights nextY h
    cases heights with
    | nil => simp at h
    | cons w ws =>
      simp only [List.length_cons, Nat.add_right_cancel_iff] at h
      simp [placeSecondary, ih ws _ h]

/-! ## Geometry: intervals laid end to end -/

theorem ChainUp.bounds {a b : ℚ} {l : List (ℚ × ℚ)} (h : ChainUp a b l) :
    a ≤ b ∧ ∀ iv ∈ l, a ≤ iv.1 ∧ iv.1 ≤ iv.2 ∧ iv.2 ≤ b := by
  induction h with
  | nil a => exact ⟨le_refl a, fun iv hiv => by simp at hiv⟩
  | cons hac _ ih =>
    obtain ⟨hcb, hall⟩ := ih
    refine ⟨hac.trans hcb, ?_⟩
    intro iv hiv
    rcases List.mem_cons.mp hiv with rfl | hiv
    · exact ⟨le_refl _, hac, hcb⟩
    · obtain ⟨h1, h2, h3⟩ := hall iv hiv
      exact ⟨hac.trans h1, h2, h3⟩

theorem ChainUp.ordered {a b : ℚ} {l : List (ℚ × ℚ)} (h : ChainUp a b l) :
    l.Pairwise (fun u v => u.2 ≤ v.1) := by
  induction h with
  | nil a => exact List.Pairwise.nil
  | cons hac hrest ih =>
    refine List.Pairwise.cons ?_ ih
    intro v hv
    exact (hrest.bounds.2 v hv).1

theorem ChainUp.cover {a b : ℚ} {l : List (ℚ × ℚ)} (h : ChainUp a b l) :
    ∀ x, a ≤ x → x < b → ∃ iv ∈ l, iv.1 ≤ x ∧ x < iv.2 := by
  induction h with
  | nil a => intro x h1 h2; exact absurd (lt_of_le_of_lt h1 h2) (lt_irrefl _)
  | @cons a c b rest hac _ ih =>
    intro x h1 h2
    by_cases hx : x < c
    · exact ⟨(a, c), List.mem_cons_self _ _, h1, hx⟩
    · obtain ⟨iv, hiv, h3⟩ := ih x (not_lt.mp hx) h2
      exact ⟨iv, List.mem_cons_of_mem _ hiv, h3⟩

theorem ChainDown.boundsDown {a b : ℚ} {l : List (ℚ × ℚ)} (h : ChainDown b a l) :
    a ≤ b ∧ ∀ iv ∈ l, a ≤ iv.1 ∧ iv.1 ≤ iv.2 ∧ iv.2 ≤ b := by
  induction h with
  | nil b => exact ⟨le_refl b, fun iv hiv => by simp at hiv⟩
  | cons hcb _ ih =>
    obtain ⟨hac, hall⟩ := ih
    refine ⟨hac.trans hcb, ?_⟩
    intro iv hiv
    rcases List.mem_cons.mp hiv with rfl | hiv
    · exact ⟨hac, hcb, le_refl _⟩
    · obtain ⟨h1, h2, h3⟩ := hall iv hiv
      exact ⟨h1, h2, h3.trans hcb⟩

theorem ChainDown.orderedDown {a b : ℚ} {l : List (ℚ × ℚ)} (h : ChainDown b a l) :
    l.Pairwise (fun u v => v.2 ≤ u.1) := by
  induction h with
  | nil b => exact List.Pairwise.nil
  | cons hcb hrest ih =>
    refine List.Pairwise.cons ?_ ih
    intro v hv
    exact (hrest.boundsDown.2 v hv).2.2

theorem ChainDown.coverDown {a b : ℚ} {l : List (ℚ × ℚ)} (h : ChainDown b a l) :
    ∀ x, a ≤ x → x < b → ∃ iv ∈ l, iv.1 ≤ x ∧ x < iv.2 := by
  induction h with
  | nil b => intro x h1 h2; exact absurd (lt_of_le_of_lt h1 h2) (lt_irrefl _)
  | @cons b c a rest hcb _ ih =>
    intro x h1 h2
    by_cases hx : c ≤ x
    · exact ⟨(c, b), List.mem_cons_self _ _, hx, h2⟩
    · obtain ⟨iv, hiv, h3⟩ := ih x h1 (not_le.mp hx)
      exact ⟨iv, List.mem_cons_of_mem _ hiv, h3⟩

theorem placeMain_chainUp (P : Vector2D) (height : ℚ) (l : List SOrthoNodeData) :
    ∀ (widths : List ℚ) (nextX : ℚ), widths.length = l.length → (∀ w ∈ widths, 0 ≤ w) →
      ChainUp (P.x + nextX) (P.x + nextX + widths.sum)
        ((placeMain true P height l widths nextX).map SOrthoNodeData.xExtent) := by
  induction l with
  | nil =>
    intro widths nextX h _
    have : widths = [] := List.length_eq_zero.mp h
    subst this
    simpa [placeMain] using ChainUp.nil (P.x + nextX)
  | cons nd rest ih =>
    intro widths nextX h hpos
    cases widths with
    | nil => simp at h
    | cons w ws =>
      simp only [List.length_cons, Nat.add_right_cancel_iff] at h
      have hw : 0 ≤ w := hpos w (List.mem_cons_self _ _)
      have hrest := ih ws (nextX + w) h (fun x hx => hpos x (List.mem_cons_of_mem _ hx))
      simp only [placeMain, if_true, List.map_cons, SOrthoNodeData.xExtent, Vector2D.add_x,
        List.sum_cons]
      have e1 : P.x + nextX + (w + ws.sum) = P.x + (nextX + w) + ws.sum := by ring
      have e2 : P.x + nextX + w = P.x + (nextX + w) := by ring
      rw [e1, e2]
      exact ChainUp.cons (by linarith) hrest

theorem placeMain_chainDown (P : Vector2D) (height : ℚ) (l : List SOrthoNodeData) :
    ∀ (widths : List ℚ) (nextX : ℚ), widths.length = l.length → (∀ w ∈ widths, 0 ≤ w) →
      ChainDown (P.x + nextX) (P.x + nextX - widths.sum)
        ((placeMain false P height l widths nextX).map SOrthoNodeData.xExtent) := by
  induction l with
  | nil =>
    intro widths nextX h _
    have : widths = [] := List.length_eq_zero.mp h
    subst this
    simpa [placeMain] using ChainDown.nil (P.x + nextX)
  | cons nd rest ih =>
    intro widths nextX h hpos
    cases widths with
    | nil => simp at h
    | cons w ws =>
      simp only [List.length_cons, Nat.add_right_cancel_iff] at h
      have hw : 0 ≤ w := hpos w (List.mem_cons_self _ _)
      have hrest := ih ws (nextX - w) h (fun x hx => hpos x (List.mem_cons_of_mem _ hx))
      simp only [placeMain, Bool.false_eq_true, if_false, List.map_cons, SOrthoNodeData.xExtent,
        Vector2D.add_x, List.sum_cons]
      have e1 : P.x + nextX - (w + ws.sum) = P.x + (nextX - w) - ws.sum := by ring
      have e2 : P.x + (nextX - w) + w = P.x + nextX := by ring
      rw [e1, e2]
      exact ChainDown.cons (by linarith) hrest

theorem placeSecondary_chainDown (P : Vector2D) (WIDTH nextX : ℚ) (l : List SOrthoNodeData) :
    ∀ (heights : List ℚ) (nextY : ℚ), heights.length = l.length → (∀ w ∈ heights, 0 ≤ w) →
      ChainDown (P.y + nextY) (P.y + nextY - heights.sum)
        ((placeSecondary P WIDTH nextX l heights nextY).map SOrthoNodeData.yExtent) := by
  induction l with
  | nil =>
    intro heights nextY h _
    have : heights = [] := List.length_eq_zero.mp h
    subst this
    simpa [placeSecondary] using ChainDown.nil (P.y + nextY)
  | cons nd rest ih =>
    intro heights nextY h hpos
    cases heights with
    | nil => simp at h
    | cons w ws =>
      simp only [List.length_cons, Nat.add_right_cancel_iff] at h
      have hw : 0 ≤ w := hpos w (List.mem_cons_self _ _)
      have hrest := ih ws (nextY - w) h (fun x hx => hpos x (List.mem_cons_of_mem _ hx))
      simp only [placeSecondary, List.map_cons, SOrthoNodeData.yExtent, Vector2D.add_y,
        List.sum_cons]
      have e1 : P.y + nextY - (w + ws.sum) = P.y + (nextY - w) - ws.sum := by ring
      have e2 : P.y + (nextY - w) + w = P.y + nextY := by ring
      rw [e1, e2]
      exact ChainDown.cons (by linarith) hrest

theorem placeMain_y (R : Bool) (P : Vector2D) (height : ℚ) (l : List SOrthoNodeData) :
    ∀ (widths : List ℚ) (nextX : ℚ), ∀ nd ∈ placeMain R P height l widths nextX,
      nd.size.y = height ∧ nd.position.y = P.y := by
  induction l with
  | nil => intro widths nextX nd hnd; simp [placeMain] at hnd
  | cons a rest ih =>
    intro widths nextX nd hnd
    cases widths with
    | nil => simp [placeMain] at hnd
    | cons w ws =>
      simp only [placeMain, List.mem_cons] at hnd
      rcases hnd with rfl | hnd
      · simp [Vector2D.add_y]
      · exact ih ws _ nd hnd

theorem placeSecondary_x (P : Vector2D) (WIDTH nextX : ℚ) (l : List SOrthoNodeData) :
    ∀ (heights : List ℚ) (nextY : ℚ), ∀ nd ∈ placeSecondary P WIDTH nextX l heights nextY,
      nd.size.x = WIDTH ∧ nd.position.x = P.x + nextX := by
  induction l with
  | nil => intro heights nextY nd hnd; simp [placeSecondary] at hnd
  | cons a rest ih =>
    intro heights nextY nd hnd
    cases heights with
    | nil => simp [placeSecondary] at hnd
    | cons w ws =>
      simp only [placeSecondary, List.mem_cons] at hnd
      rcases hnd with rfl | hnd
      · simp [Vector2D.add_x]
      · exact ih ws _ nd hnd

/-! ## Geometry: the stored layout under positive weights -/

theorem effectiveWeights_length (data : SOrthoWorkspaceData) (main : List SOrthoNodeData) :
    (effectiveWeights data main).length = main.length := by
  rw [← loopWeights_eq_effective, loopWeights_length]

theorem sum_pos_of_pos (l : List ℚ) (hne : l ≠ []) (hpos : ∀ e ∈ l, 0 < e) : 0 < l.sum := by
  cases l with
  | nil => exact absurd rfl hne
  | cons a rest =>
    rw [List.sum_cons]
    have h1 : 0 < a := hpos a (List.mem_cons_self _ _)
    have h2 : 0 ≤ rest.sum :=
      List.sum_nonneg (fun e he => (hpos e (List.mem_cons_of_mem _ he)).le)
    linarith

theorem sum_map_share (l : List ℚ) (c total : ℚ) :
    (l.map (fun e => c * e / total)).sum = c * l.sum / total := by
  induction l with
  | nil => simp
  | cons a rest ih =>
    simp only [List.map_cons, List.sum_cons, ih]
    ring

/-- The main stack stored by a recompute when every effective weight is positive
and the split width is not negative: the proportional shares, placed in a row. -/
theorem calculateWorkspace_main_place {host : Host} {pWorkspace : CWorkspace}
    {s s1 : COrthoLayout} {data : SOrthoWorkspaceData}
    (hD : getOrthoWorkspaceData host pWorkspace.m_id s = some (data, s1))
    (hfs : pWorkspace.m_hasFullscreenWindow = false)
    (hmain : stackOf s eOrthoStatus.ORTHOSTATUS_MAIN pWorkspace.m_id ≠ [])
    (hpos : ∀ e ∈ effectiveWeights data (stackOf s eOrthoStatus.ORTHOSTATUS_MAIN pWorkspace.m_id),
      0 < e)
    (hsplit : 0 ≤ splitWidth pWorkspace data
      (stackOf s eOrthoStatus.ORTHOSTATUS_SECONDARY pWorkspace.m_id)) :
    0 < (effectiveWeights data (stackOf s eOrthoStatus.ORTHOSTATUS_MAIN pWorkspace.m_id)).sum ∧
    ∃ s', calculateWorkspace host pWorkspace s = some s' ∧
      stackOf s' eOrthoStatus.ORTHOSTATUS_MAIN pWorkspace.m_id =
        placeMain (decide (data.mainSide = eMainSide.MAIN_SIDE_RIGHT)) (usablePos pWorkspace)
          (usableSize pWorkspace).y (stackOf s eOrthoStatus.ORTHOSTATUS_MAIN pWorkspace.m_id)
          ((effectiveWeights data (stackOf s eOrthoStatus.ORTHOSTATUS_MAIN pWorkspace.m_id)).map
            (fun e => splitWidth pWorkspace data
                (stackOf s eOrthoStatus.ORTHOSTATUS_SECONDARY pWorkspace.m_id) * e /
              (effectiveWeights data
                (stackOf s eOrthoStatus.ORTHOSTATUS_MAIN pWorkspace.m_id)).sum))
          (if data.mainSide = eMainSide.MAIN_SIDE_RIGHT then
            (usableSize pWorkspace).x
              - splitWidth pWorkspace data
                  (stackOf s eOrthoStatus.ORTHOSTATUS_SECONDARY pWorkspace.m_id)
           else splitWidth pWorkspace data
                  (stackOf s eOrthoStatus.ORTHOSTATUS_SECONDARY pWorkspace.m_id)) ∧
      stackOf s' eOrthoStatus.ORTHOSTATUS_SECONDARY pWorkspace.m_id =
        secondaryStackLoop (usablePos pWorkspace) (usableSize pWorkspace)
          ((usableSize pWorkspace).x
            - splitWidth pWorkspace data
                (stackOf s eOrthoStatus.ORTHOSTATUS_SECONDARY pWorkspace.m_id))
          (if data.mainSide = eMainSide.MAIN_SIDE_RIGHT then 0
           else splitWidth pWorkspace data
                  (stackOf s eOrthoStatus.ORTHOSTATUS_SECONDARY pWorkspace.m_id))
          ((stackOf s eOrthoStatus.ORTHOSTATUS_SECONDARY pWorkspace.m_id).foldl
            (fun totalWeight nd => totalWeight + nd.weight) 0)
          (usableSize pWorkspace).y
          (stackOf s eOrthoStatus.ORTHOSTATUS_SECONDARY pWorkspace.m_id)
          (usableSize pWorkspace).y := by
  have hne : effectiveWeights data (stackOf s eOrthoStatus.ORTHOSTATUS_MAIN pWorkspace.m_id)
      ≠ [] := by
    intro h
    have hl := effectiveWeights_length data
      (stackOf s eOrthoStatus.ORTHOSTATUS_MAIN pWorkspace.m_id)
    rw [h] at hl
    exact hmain (List.length_eq_zero.mp hl.symm)
  have htot := sum_pos_of_pos _ hne hpos
  refine ⟨htot, ?_⟩
  obtain ⟨s', hc, hM, hS⟩ := calculateWorkspace_stacks hD hfs hmain
  refine ⟨s', hc, ?_, hS⟩
  rw [hM, mainTotalWeight_eq, loopWeights_eq_effective]
  rw [← loopWeights_eq_effective] at hpos htot ⊢
  apply mainStackLoop_eq_place _ _ _ _ _ _ htot hsplit _ _ _ _ hpos
  rw [mul_div_assoc, div_self (ne_of_gt htot), mul_one]

/-- C7. Sum property: with positive node weights and no override the widths the
recompute assigns to the N >= 1 main nodes are exactly
`splitWidth * w_i / (sum of all w_j)`, hence at most that, and they sum to
`splitWidth`. -/
theorem main_widths_sum (host : Host) (pWorkspace : CWorkspace) (s s1 : COrthoLayout)
    (data : SOrthoWorkspaceData)
    (hD : getOrthoWorkspaceData host pWorkspace.m_id s = some (data, s1))
    (hfs : pWorkspace.m_hasFullscreenWindow = false)
    (hmain : stackOf s eOrthoStatus.ORTHOSTATUS_MAIN pWorkspace.m_id ≠ [])
    (hno : data.overrideMainWeights = false)
    (hpos : ∀ nd ∈ stackOf s eOrthoStatus.ORTHOSTATUS_MAIN pWorkspace.m_id, 0 < nd.weight)
    (hsplit : 0 ≤ splitWidth pWorkspace data
      (stackOf s eOrthoStatus.ORTHOSTATUS_SECONDARY pWorkspace.m_id)) :
    ∃ s', calculateWorkspace host pWorkspace s = some s' ∧
      (stackOf s' eOrthoStatus.ORTHOSTATUS_MAIN pWorkspace.m_id).map (fun nd => nd.size.x) =
        (stackOf s eOrthoStatus.ORTHOSTATUS_MAIN pWorkspace.m_id).map (fun nd =>
          splitWidth pWorkspace data
              (stackOf s eOrthoStatus.ORTHOSTATUS_SECONDARY pWorkspace.m_id) * nd.weight /
            ((stackOf s eOrthoStatus.ORTHOSTATUS_MAIN pWorkspace.m_id).map
              (fun n => n.weight)).sum) ∧
      ((stackOf s' eOrthoStatus.ORTHOSTATUS_MAIN pWorkspace.m_id).map (fun nd => nd.size.x)).sum =
        splitWidth pWorkspace data
          (stackOf s eOrthoStatus.ORTHOSTATUS_SECONDARY pWorkspace.m_id) := by
  have hew : effectiveWeights data (stackOf s eOrthoStatus.ORTHOSTATUS_MAIN pWorkspace.m_id)
      = (stackOf s eOrthoStatus.ORTHOSTATUS_MAIN pWorkspace.m_id).map (fun nd => nd.weight) := by
    simp [effectiveWeights, hno]
  have hpos' : ∀ e ∈ effectiveWeights data
      (stackOf s eOrthoStatus.ORTHOSTATUS_MAIN pWorkspace.m_id), 0 < e := by
    rw [hew]
    intro e he
    obtain ⟨nd, hnd, rfl⟩ := List.mem_map.mp he
    exact hpos nd hnd
  obtain ⟨htot, s', hc, hM, _⟩ := calculateWorkspace_main_place hD hfs hmain hpos' hsplit
  have hw : (stackOf s' eOrthoStatus.ORTHOSTATUS_MAIN pWorkspace.m_id).map (fun nd => nd.size.x)
      = (effectiveWeights data (stackOf s eOrthoStatus.ORTHOSTATUS_MAIN pWorkspace.m_id)).map
          (fun e => splitWidth pWorkspace data
              (stackOf s eOrthoStatus.ORTHOSTATUS_SECONDARY pWorkspace.m_id) * e /
            (effectiveWeights data
              (stackOf s eOrthoStatus.ORTHOSTATUS_MAIN pWorkspace.m_id)).sum) := by
    rw [hM]
    exact placeMain_widths _ _ _ _ _ _ (by rw [List.length_map, effectiveWeights_length])
  refine ⟨s', hc, ?_, ?_⟩
  · rw [hw, hew, List.map_map]
    rfl
  · rw [hw, sum_map_share, mul_div_assoc, div_self (ne_of_gt htot), mul_one]

/-- C10. Override precedence: with overrides active and positive, main node i
uses the override at its index while there is one and weight 1 beyond the list,
the total the loop divides by is the sum of the first `min(k, n)` overrides plus
`max(n - k, 0)`, and node i's width is `splitWidth * effectiveWeight_i / total`,
whatever weights the nodes themselves store. -/
theorem override_precedence (host : Host) (pWorkspace : CWorkspace) (s s1 : COrthoLayout)
    (data : SOrthoWorkspaceData)
    (hD : getOrthoWorkspaceData host pWorkspace.m_id s = some (data, s1))
    (hfs : pWorkspace.m_hasFullscreenWindow = false)
    (hmain : stackOf s eOrthoStatus.ORTHOSTATUS_MAIN pWorkspace.m_id ≠ [])
    (hov : data.overrideMainWeights = true)
    (hpos : ∀ o ∈ data.mainWeightOverrides, 0 < o)
    (hsplit : 0 ≤ splitWidth pWorkspace data
      (stackOf s eOrthoStatus.ORTHOSTATUS_SECONDARY pWorkspace.m_id)) :
    (∀ i, i < (stackOf s eOrthoStatus.ORTHOSTATUS_MAIN pWorkspace.m_id).length →
      (effectiveWeights data (stackOf s eOrthoStatus.ORTHOSTATUS_MAIN pWorkspace.m_id))[i]? =
        some (if h : i < data.mainWeightOverrides.length then data.mainWeightOverrides[i]
              else 1)) ∧
    mainTotalWeight data.overrideMainWeights data.mainWeightOverrides
        (stackOf s eOrthoStatus.ORTHOSTATUS_MAIN pWorkspace.m_id) =
      (data.mainWeightOverrides.take
        (min data.mainWeightOverrides.length
          (stackOf s eOrthoStatus.ORTHOSTATUS_MAIN pWorkspace.m_id).length)).sum +
      (((stackOf s eOrthoStatus.ORTHOSTATUS_MAIN pWorkspace.m_id).length
          - data.mainWeightOverrides.length : Nat) : ℚ) ∧
    ∃ s', calculateWorkspace host pWorkspace s = some s' ∧
      (stackOf s' eOrthoStatus.ORTHOSTATUS_MAIN pWorkspace.m_id).map (fun nd => nd.size.x) =
        (effectiveWeights data (stackOf s eOrthoStatus.ORTHOSTATUS_MAIN pWorkspace.m_id)).map
          (fun e => splitWidth pWorkspace data
              (stackOf s eOrthoStatus.ORTHOSTATUS_SECONDARY pWorkspace.m_id) * e /
            mainTotalWeight data.overrideMainWeights data.mainWeightOverrides
              (stackOf s eOrthoStatus.ORTHOSTATUS_MAIN pWorkspace.m_id)) := by
  have hidx : ∀ i, i < (stackOf s eOrthoStatus.ORTHOSTATUS_MAIN pWorkspace.m_id).length →
      (effectiveWeights data (stackOf s eOrthoStatus.ORTHOSTATUS_MAIN pWorkspace.m_id))[i]? =
        some (if h : i < data.mainWeightOverrides.length then data.mainWeightOverrides[i]
              else 1) := by
    intro i hi
    simp only [effectiveWeights, hov, if_true, List.getElem?_map, List.getElem?_range hi,
      Option.map_some']
    by_cases hk : i < data.mainWeightOverrides.length
    · simp [hk]
    · simp [hk, List.getElem?_eq_none (not_lt.mp hk)]
  have hpos' : ∀ e ∈ effectiveWeights data
      (stackOf s eOrthoStatus.ORTHOSTATUS_MAIN pWorkspace.m_id), 0 < e := by
    intro e he
    obtain ⟨i, hi, hie⟩ := List.getElem_of_mem he
    have hi' : i < (stackOf s eOrthoStatus.ORTHOSTATUS_MAIN pWorkspace.m_id).length := by
      rw [effectiveWeights_length] at hi; exact hi
    have h1 := hidx i hi'
    rw [List.getElem?_eq_getElem hi, hie] at h1
    simp only [Option.some.injEq] at h1
    rw [h1]
    split
    · exact hpos _ (List.getElem_mem _)
    · norm_num
  refine ⟨hidx, ?_, ?_⟩
  · simp only [mainTotalWeight, hov, Bool.not_true, Bool.false_eq_true, if_false, foldl_add,
      zero_add]
    split
    · rfl
    · next hk =>
      have : (stackOf s eOrthoStatus.ORTHOSTATUS_MAIN pWorkspace.m_id).length
          - data.mainWeightOverrides.length = 0 := by omega
      simp [this]
  · obtain ⟨htot, s', hc, hM, _⟩ := calculateWorkspace_main_place hD hfs hmain hpos' hsplit
    refine ⟨s', hc, ?_⟩
    rw [hM, mainTotalWeight_eq, loopWeights_eq_effective]
    exact placeMain_widths _ _ _ _ _ _ (by rw [List.length_map, effectiveWeights_length])

/-! ## Geometry: positions in the stored layout -/

/-- Where the main loop puts its i-th node, in terms of the widths it assigned
to the nodes before it. -/
theorem mainStackLoop_positions (R O : Bool) (P S : Vector2D) (split total : ℚ)
    (l : List SOrthoNodeData) :
    ∀ (nextX rem : ℚ) (it : List ℚ) (i : Nat) (nd : SOrthoNodeData),
      (mainStackLoop R O P S split total l nextX rem it)[i]? = some nd →
      nd.size.y = S.y ∧ nd.position.y = P.y ∧
      (R = true → nd.position.x = P.x + nextX +
        (((mainStackLoop R O P S split total l nextX rem it).take i).map
          (fun n => n.size.x)).sum) ∧
      (R = false → nd.position.x + nd.size.x = P.x + nextX -
        (((mainStackLoop R O P S split total l nextX rem it).take i).map
          (fun n => n.size.x)).sum) := by
  induction l with
  | nil => intro _ _ _ i nd h; simp [mainStackLoop] at h
  | cons a rest ih =>
    intro nextX rem it i nd h
    rw [mainStackLoop_cons] at h ⊢
    cases i with
    | zero =>
      simp only [List.getElem?_cons_zero, Option.some.injEq] at h
      subst h
      refine ⟨rfl, by simp [Vector2D.add_y], ?_, ?_⟩
      · intro hR; subst hR; simp [Vector2D.add_x]
      · intro hR; subst hR; simp only [Vector2D.add_x, Bool.not_false, if_true, List.take_zero,
          List.map_nil, List.sum_nil]; ring
    | succ j =>
      rw [List.getElem?_cons_succ] at h
      obtain ⟨h1, h2, h3, h4⟩ := ih _ _ _ j nd h
      refine ⟨h1, h2, ?_, ?_⟩
      · intro hR
        have := h3 hR
        subst hR
        rw [this]
        simp only [List.take_succ_cons, List.map_cons, List.sum_cons, Bool.not_true,
          Bool.false_eq_true, if_false, if_true]
        ring
      · intro hR
        have := h4 hR
        subst hR
        rw [this]
        simp only [List.take_succ_cons, List.map_cons, List.sum_cons, Bool.not_false,
          Bool.false_eq_true, if_false, if_true]
        ring

/-- C8. Main-stack ordering: the main nodes are placed one after the other from
the boundary with the secondary region, first node at the boundary.  With the
main side right, node i's left edge is `(usableWidth - splitWidth)` plus the
widths of the nodes before it; with the main side left, node i's right edge is
`splitWidth` minus those widths (both measured from the left edge of the usable
area).  Every main node has the full usable height. -/
theorem main_ordering (host : Host) (pWorkspace : CWorkspace) (s s1 : COrthoLayout)
    (data : SOrthoWorkspaceData)
    (hD : getOrthoWorkspaceData host pWorkspace.m_id s = some (data, s1))
    (hfs : pWorkspace.m_hasFullscreenWindow = false)
    (hmain : stackOf s eOrthoStatus.ORTHOSTATUS_MAIN pWorkspace.m_id ≠ []) :
    ∃ s', calculateWorkspace host pWorkspace s = some s' ∧
      ∀ (i : Nat) (nd : SOrthoNodeData),
        (stackOf s' eOrthoStatus.ORTHOSTATUS_MAIN pWorkspace.m_id)[i]? = some nd →
        nd.size.y = (usableSize pWorkspace).y ∧
        nd.position.y = (usablePos pWorkspace).y ∧
        (data.mainSide = eMainSide.MAIN_SIDE_RIGHT →
          nd.position.x = (usablePos pWorkspace).x +
            ((usableSize pWorkspace).x
              - splitWidth pWorkspace data
                  (stackOf s eOrthoStatus.ORTHOSTATUS_SECONDARY pWorkspace.m_id)) +
            (((stackOf s' eOrthoStatus.ORTHOSTATUS_MAIN pWorkspace.m_id).take i).map
              (fun n => n.size.x)).sum) ∧
        (data.mainSide = eMainSide.MAIN_SIDE_LEFT →
          nd.position.x + nd.size.x = (usablePos pWorkspace).x +
            splitWidth pWorkspace data
              (stackOf s eOrthoStatus.ORTHOSTATUS_SECONDARY pWorkspace.m_id) -
            (((stackOf s' eOrthoStatus.ORTHOSTATUS_MAIN pWorkspace.m_id).take i).map
              (fun n => n.size.x)).sum) := by
  obtain ⟨s', hc, hM, _⟩ := calculateWorkspace_stacks hD hfs hmain
  refine ⟨s', hc, ?_⟩
  intro i nd hnd
  rw [hM] at hnd ⊢
  obtain ⟨h1, h2, h3, h4⟩ := mainStackLoop_positions _ _ _ _ _ _ _ _ _ _ i nd hnd
  refine ⟨h1, h2, ?_, ?_⟩
  · intro hR
    have := h3 (by simp [hR])
    rw [this]
    simp [hR]
  · intro hL
    have := h4 (by simp [hL])
    rw [this]
    simp [hL]

theorem ChainUp.tiles {a b : ℚ} {l : List (ℚ × ℚ)} (h : ChainUp a b l) : Tiles a b l :=
  ⟨h.bounds.2, h.ordered.imp (fun hab => Or.inl hab), h.cover⟩

theorem ChainDown.tilesDown {a b : ℚ} {l : List (ℚ × ℚ)} (h : ChainDown b a l) : Tiles a b l :=
  ⟨h.boundsDown.2, h.orderedDown.imp (fun hab => Or.inr hab), h.coverDown⟩

theorem placeMain_tiles (R : Bool) (P : Vector2D) (height : ℚ) (l : List SOrthoNodeData)
    (widths : List ℚ) (nextX : ℚ) (hlen : widths.length = l.length)
    (hnonneg : ∀ w ∈ widths, 0 ≤ w) :
    Tiles (P.x + (if R then nextX else nextX - widths.sum))
      (P.x + (if R then nextX else nextX - widths.sum) + widths.sum)
      ((placeMain R P height l widths nextX).map SOrthoNodeData.xExtent) := by
  cases R
  · have h := (placeMain_chainDown P height l widths nextX hlen hnonneg).tilesDown
    have e1 : P.x + (if false = true then nextX else nextX - widths.sum)
        = P.x + nextX - widths.sum := by simp; ring
    have e2 : P.x + nextX - widths.sum + widths.sum = P.x + nextX := by ring
    rw [e1, e2]
    exact h
  · have h := (placeMain_chainUp P height l widths nextX hlen hnonneg).tiles
    simpa using h

theorem secondaryStackLoop_cons (P S : Vector2D) (WIDTH nextX total remH : ℚ)
    (nd : SOrthoNodeData) (rest : List SOrthoNodeData) (nextY : ℚ) :
    secondaryStackLoop P S WIDTH nextX total remH (nd :: rest) nextY =
      { nd with size := ⟨WIDTH, min (S.y * nd.weight / total) remH⟩,
                position := P + ⟨nextX, nextY - min (S.y * nd.weight / total) remH⟩ } ::
      secondaryStackLoop P S WIDTH nextX total remH rest
        (nextY - min (S.y * nd.weight / total) remH) :=
  rfl

/-- Where the secondary loop puts its i-th node, in terms of the heights it
assigned to the nodes before it. -/
theorem secondaryStackLoop_positions (P S : Vector2D) (WIDTH nextX total remH : ℚ)
    (l : List SOrthoNodeData) :
    ∀ (nextY : ℚ) (i : Nat) (nd : SOrthoNodeData),
      (secondaryStackLoop P S WIDTH nextX total remH l nextY)[i]? = some nd →
      nd.size.x = WIDTH ∧ nd.position.x = P.x + nextX ∧
      nd.position.y + nd.size.y = P.y + nextY -
        (((secondaryStackLoop P S WIDTH nextX total remH l nextY).take i).map
          (fun n => n.size.y)).sum := by
  induction l with
  | nil => intro _ i nd h; simp [secondaryStackLoop] at h
  | cons a rest ih =>
    intro nextY i nd h
    rw [secondaryStackLoop_cons] at h ⊢
    cases i with
    | zero =>
      simp only [List.getElem?_cons_zero, Option.some.injEq] at h
      subst h
      refine ⟨rfl, by simp [Vector2D.add_x], ?_⟩
      simp only [Vector2D.add_y, List.take_zero, List.map_nil, List.sum_nil]
      ring
    | succ j =>
      rw [List.getElem?_cons_succ] at h
      obtain ⟨h1, h2, h3⟩ := ih _ j nd h
      refine ⟨h1, h2, ?_⟩
      rw [h3]
      simp only [List.take_succ_cons, List.map_cons, List.sum_cons]
      ring

theorem sum_take_succ_of_getElem? (l : List SOrthoNodeData) (f : SOrthoNodeData → ℚ) (i : Nat)
    (a : SOrthoNodeData) (h : l[i]? = some a) :
    ((l.take (i + 1)).map f).sum = ((l.take i).map f).sum + f a := by
  rw [List.take_succ, h]
  simp

/-- C9. Secondary-stack layout: with positive weights node i of a non-empty
secondary stack gets the height `usableHeight * w_i / (sum of secondary weights)`
and the width `usableWidth - splitWidth`; the first node's bottom edge is the
bottom of the usable area, every later node sits directly above the one before
it, and the heights sum to the usable height.  The override flag and list of
the workspace are arbitrary here: they do not enter the heights. -/
theorem secondary_layout (host : Host) (pWorkspace : CWorkspace) (s s1 : COrthoLayout)
    (data : SOrthoWorkspaceData)
    (hD : getOrthoWorkspaceData host pWorkspace.m_id s = some (data, s1))
    (hfs : pWorkspace.m_hasFullscreenWindow = false)
    (hmain : stackOf s eOrthoStatus.ORTHOSTATUS_MAIN pWorkspace.m_id ≠ [])
    (hsec : stackOf s eOrthoStatus.ORTHOSTATUS_SECONDARY pWorkspace.m_id ≠ [])
    (hpos : ∀ nd ∈ stackOf s eOrthoStatus.ORTHOSTATUS_SECONDARY pWorkspace.m_id, 0 < nd.weight)
    (hH : 0 ≤ (usableSize pWorkspace).y) :
    ∃ s', calculateWorkspace host pWorkspace s = some s' ∧
      (stackOf s' eOrthoStatus.ORTHOSTATUS_SECONDARY pWorkspace.m_id).map (fun nd => nd.size.y) =
        (stackOf s eOrthoStatus.ORTHOSTATUS_SECONDARY pWorkspace.m_id).map (fun nd =>
          (usableSize pWorkspace).y * nd.weight /
            ((stackOf s eOrthoStatus.ORTHOSTATUS_SECONDARY pWorkspace.m_id).map
              (fun n => n.weight)).sum) ∧
      (∀ nd ∈ stackOf s' eOrthoStatus.ORTHOSTATUS_SECONDARY pWorkspace.m_id,
        nd.size.x = (usableSize pWorkspace).x
          - splitWidth pWorkspace data
              (stackOf s eOrthoStatus.ORTHOSTATUS_SECONDARY pWorkspace.m_id)) ∧
      (∀ nd, (stackOf s' eOrthoStatus.ORTHOSTATUS_SECONDARY pWorkspace.m_id)[0]? = some nd →
        nd.position.y + nd.size.y = (usablePos pWorkspace).y + (usableSize pWorkspace).y) ∧
      (∀ (i : Nat) (a b : SOrthoNodeData),
        (stackOf s' eOrthoStatus.ORTHOSTATUS_SECONDARY pWorkspace.m_id)[i]? = some a →
        (stackOf s' eOrthoStatus.ORTHOSTATUS_SECONDARY pWorkspace.m_id)[i + 1]? = some b →
        b.position.y + b.size.y = a.position.y) ∧
      ((stackOf s' eOrthoStatus.ORTHOSTATUS_SECONDARY pWorkspace.m_id).map
        (fun nd => nd.size.y)).sum = (usableSize pWorkspace).y := by
  obtain ⟨s', hc, _, hS⟩ := calculateWorkspace_stacks hD hfs hmain
  have hne : (stackOf s eOrthoStatus.ORTHOSTATUS_SECONDARY pWorkspace.m_id).map
      (fun n => n.weight) ≠ [] := by
    intro h
    exact hsec (List.map_eq_nil_iff.mp h)
  have hposw : ∀ e ∈ (stackOf s eOrthoStatus.ORTHOSTATUS_SECONDARY pWorkspace.m_id).map
      (fun n => n.weight), 0 < e := by
    intro e he
    obtain ⟨nd, hnd, rfl⟩ := List.mem_map.mp he
    exact hpos nd hnd
  have htot := sum_pos_of_pos _ hne hposw
  have hle : ∀ nd ∈ stackOf s eOrthoStatus.ORTHOSTATUS_SECONDARY pWorkspace.m_id,
      nd.weight ≤ ((stackOf s eOrthoStatus.ORTHOSTATUS_SECONDARY pWorkspace.m_id).map
        (fun n => n.weight)).sum := by
    intro nd hnd
    exact List.single_le_sum (fun e he => (hposw e he).le) _ (List.mem_map.mpr ⟨nd, hnd, rfl⟩)
  have hheights : (stackOf s' eOrthoStatus.ORTHOSTATUS_SECONDARY pWorkspace.m_id).map
      (fun nd => nd.size.y) =
      (stackOf s eOrthoStatus.ORTHOSTATUS_SECONDARY pWorkspace.m_id).map (fun nd =>
        (usableSize pWorkspace).y * nd.weight /
          ((stackOf s eOrthoStatus.ORTHOSTATUS_SECONDARY pWorkspace.m_id).map
            (fun n => n.weight)).sum) := by
    rw [hS, foldl_weight, zero_add,
      secondaryStackLoop_eq_place _ _ _ _ _ htot hH _ hle]
    exact placeSecondary_heights _ _ _ _ _ _ (by rw [List.length_map])
  refine ⟨s', hc, hheights, ?_, ?_, ?_, ?_⟩
  · intro nd hnd
    obtain ⟨i, hi, hie⟩ := List.getElem_of_mem hnd
    have hget : (stackOf s' eOrthoStatus.ORTHOSTATUS_SECONDARY pWorkspace.m_id)[i]? = some nd := by
      rw [List.getElem?_eq_getElem hi, hie]
    rw [hS] at hget
    exact (secondaryStackLoop_positions _ _ _ _ _ _ _ _ i nd hget).1
  · intro nd hget
    rw [hS] at hget
    have := (secondaryStackLoop_positions _ _ _ _ _ _ _ _ 0 nd hget).2.2
    simpa using this
  · intro i a b ha hb
    have ha' := ha
    have hb' := hb
    rw [hS] at ha' hb'
    have h1 := (secondaryStackLoop_positions _ _ _ _ _ _ _ _ i a ha').2.2
    have h2 := (secondaryStackLoop_positions _ _ _ _ _ _ _ _ (i + 1) b hb').2.2
    rw [← hS] at h1 h2
    rw [sum_take_succ_of_getElem? _ _ i a ha] at h2
    linarith
  · rw [hheights]
    have : (stackOf s eOrthoStatus.ORTHOSTATUS_SECONDARY pWorkspace.m_id).map (fun nd =>
        (usableSize pWorkspace).y * nd.weight /
          ((stackOf s eOrthoStatus.ORTHOSTATUS_SECONDARY pWorkspace.m_id).map
            (fun n => n.weight)).sum)
        = ((stackOf s eOrthoStatus.ORTHOSTATUS_SECONDARY pWorkspace.m_id).map
            (fun n => n.weight)).map (fun e => (usableSize pWorkspace).y * e /
          ((stackOf s eOrthoStatus.ORTHOSTATUS_SECONDARY pWorkspace.m_id).map
            (fun n => n.weight)).sum) := by
      rw [List.map_map]
      rfl
    rw [this, sum_map_share, mul_div_assoc, div_self (ne_of_gt htot), mul_one]

/-! ## Geometry: the rectangles partition the usable area -/

/-- A row of full-height rectangles tiling one vertical strip and a column of
rectangles tiling the strip next to it partition the whole area. -/
theorem partition_assemble (A B : List SOrthoNodeData) (X0 Y0 W H mLo mHi sLo sHi : ℚ)
    (hAt : Tiles mLo mHi (A.map SOrthoNodeData.xExtent))
    (hAy : ∀ nd ∈ A, nd.size.y = H ∧ nd.position.y = Y0)
    (hBb : ∀ iv ∈ B.map SOrthoNodeData.yExtent, Y0 ≤ iv.1 ∧ iv.1 ≤ iv.2 ∧ iv.2 ≤ Y0 + H)
    (hBp : (B.map SOrthoNodeData.yExtent).Pairwise (fun u v => u.2 ≤ v.1 ∨ v.2 ≤ u.1))
    (hBc : sLo < sHi → ∀ y, Y0 ≤ y → y < Y0 + H →
      ∃ iv ∈ B.map SOrthoNodeData.yExtent, iv.1 ≤ y ∧ y < iv.2)
    (hBx : ∀ nd ∈ B, nd.position.x = sLo ∧ nd.position.x + nd.size.x = sHi)
    (hH : 0 ≤ H) (hs : sLo ≤ sHi) (hm : mLo ≤ mHi)
    (hreg : (mLo = X0 ∧ mHi = sLo ∧ sHi = X0 + W) ∨ (sLo = X0 ∧ sHi = mLo ∧ mHi = X0 + W)) :
    (∀ nd ∈ A ++ B, X0 ≤ nd.position.x ∧ 0 ≤ nd.size.x ∧ nd.position.x + nd.size.x ≤ X0 + W ∧
      Y0 ≤ nd.position.y ∧ 0 ≤ nd.size.y ∧ nd.position.y + nd.size.y ≤ Y0 + H) ∧
    (A ++ B).Pairwise (fun a b => ∀ p, ¬ (a.covers p ∧ b.covers p)) ∧
    (∀ p : Vector2D, X0 ≤ p.x → p.x < X0 + W → Y0 ≤ p.y → p.y < Y0 + H →
      ∃ nd ∈ A ++ B, nd.covers p) := by
  obtain ⟨hAb, hAp, hAc⟩ := hAt
  have hAx : ∀ nd ∈ A, mLo ≤ nd.position.x ∧ nd.position.x ≤ nd.position.x + nd.size.x ∧
      nd.position.x + nd.size.x ≤ mHi :=
    fun nd hnd => hAb nd.xExtent (List.mem_map.mpr ⟨nd, hnd, rfl⟩)
  have hBy : ∀ nd ∈ B, Y0 ≤ nd.position.y ∧ nd.position.y ≤ nd.position.y + nd.size.y ∧
      nd.position.y + nd.size.y ≤ Y0 + H :=
    fun nd hnd => hBb nd.yExtent (List.mem_map.mpr ⟨nd, hnd, rfl⟩)
  refine ⟨?_, ?_, ?_⟩
  · intro nd hnd
    rcases List.mem_append.mp hnd with hA | hB
    · obtain ⟨h1, h2, h3⟩ := hAx nd hA
      obtain ⟨h4, h5⟩ := hAy nd hA
      rcases hreg with ⟨r1, r2, r3⟩ | ⟨r1, r2, r3⟩
      · refine ⟨by linarith, by linarith, by linarith, by linarith, by linarith, by linarith⟩
      · refine ⟨by linarith, by linarith, by linarith, by linarith, by linarith, by linarith⟩
    · obtain ⟨h1, h2, h3⟩ := hBy nd hB
      obtain ⟨h4, h5⟩ := hBx nd hB
      rcases hreg with ⟨r1, r2, r3⟩ | ⟨r1, r2, r3⟩
      · refine ⟨by linarith, by linarith, by linarith, by linarith, by linarith, by linarith⟩
      · refine ⟨by linarith, by linarith, by linarith, by linarith, by linarith, by linarith⟩
  · rw [List.pairwise_append]
    refine ⟨?_, ?_, ?_⟩
    · have h := List.pairwise_map.mp hAp
      refine h.imp ?_
      intro a b hab p hp
      obtain ⟨⟨a1, a2, _, _⟩, ⟨b1, b2, _, _⟩⟩ := hp
      simp only [SOrthoNodeData.xExtent] at hab
      rcases hab with hab | hab <;> linarith
    · have h := List.pairwise_map.mp hBp
      refine h.imp ?_
      intro a b hab p hp
      obtain ⟨⟨_, _, a1, a2⟩, ⟨_, _, b1, b2⟩⟩ := hp
      simp only [SOrthoNodeData.yExtent] at hab
      rcases hab with hab | hab <;> linarith
    · intro a ha b hb p hp
      obtain ⟨⟨a1, a2, _, _⟩, ⟨b1, b2, _, _⟩⟩ := hp
      obtain ⟨h1, h2, h3⟩ := hAx a ha
      obtain ⟨h4, h5⟩ := hBx b hb
      rcases hreg with ⟨r1, r2, r3⟩ | ⟨r1, r2, r3⟩ <;> linarith
  · intro p px1 px2 py1 py2
    have inA : mLo ≤ p.x → p.x < mHi → ∃ nd ∈ A ++ B, nd.covers p := by
      intro q1 q2
      obtain ⟨iv, hiv, c1, c2⟩ := hAc p.x q1 q2
      obtain ⟨nd, hnd, rfl⟩ := List.mem_map.mp hiv
      obtain ⟨h4, h5⟩ := hAy nd hnd
      refine ⟨nd, List.mem_append_left _ hnd, c1, c2, ?_, ?_⟩ <;> linarith
    have inB : sLo ≤ p.x → p.x < sHi → ∃ nd ∈ A ++ B, nd.covers p := by
      intro q1 q2
      obtain ⟨iv, hiv, c1, c2⟩ := hBc (lt_of_le_of_lt q1 q2) p.y py1 py2
      obtain ⟨nd, hnd, rfl⟩ := List.mem_map.mp hiv
      obtain ⟨h4, h5⟩ := hBx nd hnd
      refine ⟨nd, List.mem_append_right _ hnd, ?_, ?_, c1, c2⟩ <;> linarith
    rcases hreg with ⟨r1, r2, r3⟩ | ⟨r1, r2, r3⟩
    · by_cases hx : p.x < mHi
      · exact inA (by linarith) hx
      · exact inB (by linarith) (by linarith)
    · by_cases hx : p.x < sHi
      · exact inB (by linarith) hx
      · exact inA (by linarith) (by linarith)

/-- The main row stored by a recompute tiles the main region, at full height. -/
theorem calculateWorkspace_main_tiles {host : Host} {pWorkspace : CWorkspace}
    {s s1 : COrthoLayout} {data : SOrthoWorkspaceData}
    (hD : getOrthoWorkspaceData host pWorkspace.m_id s = some (data, s1))
    (hfs : pWorkspace.m_hasFullscreenWindow = false)
    (hmain : stackOf s eOrthoStatus.ORTHOSTATUS_MAIN pWorkspace.m_id ≠ [])
    (hpos : ∀ e ∈ effectiveWeights data (stackOf s eOrthoStatus.ORTHOSTATUS_MAIN pWorkspace.m_id),
      0 < e)
    (hsplit : 0 ≤ splitWidth pWorkspace data
      (stackOf s eOrthoStatus.ORTHOSTATUS_SECONDARY pWorkspace.m_id)) :
    ∃ s', calculateWorkspace host pWorkspace s = some s' ∧
      Tiles
        ((usablePos pWorkspace).x + (if data.mainSide = eMainSide.MAIN_SIDE_RIGHT then
          (usableSize pWorkspace).x
            - splitWidth pWorkspace data
                (stackOf s eOrthoStatus.ORTHOSTATUS_SECONDARY pWorkspace.m_id)
          else 0))
        ((usablePos pWorkspace).x + (if data.mainSide = eMainSide.MAIN_SIDE_RIGHT then
          (usableSize pWorkspace).x
            - splitWidth pWorkspace data
                (stackOf s eOrthoStatus.ORTHOSTATUS_SECONDARY pWorkspace.m_id)
          else 0)
          + splitWidth pWorkspace data
              (stackOf s eOrthoStatus.ORTHOSTATUS_SECONDARY pWorkspace.m_id))
        ((stackOf s' eOrthoStatus.ORTHOSTATUS_MAIN pWorkspace.m_id).map
          SOrthoNodeData.xExtent) ∧
      (∀ nd ∈ stackOf s' eOrthoStatus.ORTHOSTATUS_MAIN pWorkspace.m_id,
        nd.size.y = (usableSize pWorkspace).y ∧ nd.position.y = (usablePos pWorkspace).y) ∧
      ((stackOf s' eOrthoStatus.ORTHOSTATUS_MAIN pWorkspace.m_id).map (fun nd => nd.size.x)).sum
        = splitWidth pWorkspace data
            (stackOf s eOrthoStatus.ORTHOSTATUS_SECONDARY pWorkspace.m_id) ∧
      stackOf s' eOrthoStatus.ORTHOSTATUS_SECONDARY pWorkspace.m_id =
        secondaryStackLoop (usablePos pWorkspace) (usableSize pWorkspace)
          ((usableSize pWorkspace).x
            - splitWidth pWorkspace data
                (stackOf s eOrthoStatus.ORTHOSTATUS_SECONDARY pWorkspace.m_id))
          (if data.mainSide = eMainSide.MAIN_SIDE_RIGHT then 0
           else splitWidth pWorkspace data
                  (stackOf s eOrthoStatus.ORTHOSTATUS_SECONDARY pWorkspace.m_id))
          ((stackOf s eOrthoStatus.ORTHOSTATUS_SECONDARY pWorkspace.m_id).foldl
            (fun totalWeight nd => totalWeight + nd.weight) 0)
          (usableSize pWorkspace).y
          (stackOf s eOrthoStatus.ORTHOSTATUS_SECONDARY pWorkspace.m_id)
          (usableSize pWorkspace).y := by
  obtain ⟨htot, s', hc, hM, hS⟩ := calculateWorkspace_main_place hD hfs hmain hpos hsplit
  have hlen : ((effectiveWeights data
      (stackOf s eOrthoStatus.ORTHOSTATUS_MAIN pWorkspace.m_id)).map
        (fun e => splitWidth pWorkspace data
            (stackOf s eOrthoStatus.ORTHOSTATUS_SECONDARY pWorkspace.m_id) * e /
          (effectiveWeights data
            (stackOf s eOrthoStatus.ORTHOSTATUS_MAIN pWorkspace.m_id)).sum)).length
      = (stackOf s eOrthoStatus.ORTHOSTATUS_MAIN pWorkspace.m_id).length := by
    rw [List.length_map, effectiveWeights_length]
  have hnonneg : ∀ w ∈ (effectiveWeights data
      (stackOf s eOrthoStatus.ORTHOSTATUS_MAIN pWorkspace.m_id)).map
        (fun e => splitWidth pWorkspace data
            (stackOf s eOrthoStatus.ORTHOSTATUS_SECONDARY pWorkspace.m_id) * e /
          (effectiveWeights data
            (stackOf s eOrthoStatus.ORTHOSTATUS_MAIN pWorkspace.m_id)).sum), 0 ≤ w := by
    intro w hw
    obtain ⟨e, he, rfl⟩ := List.mem_map.mp hw
    exact div_nonneg (mul_nonneg hsplit (hpos e he).le) htot.le
  have hsum : ((effectiveWeights data
      (stackOf s eOrthoStatus.ORTHOSTATUS_MAIN pWorkspace.m_id)).map
        (fun e => splitWidth pWorkspace data
            (stackOf s eOrthoStatus.ORTHOSTATUS_SECONDARY pWorkspace.m_id) * e /
          (effectiveWeights data
            (stackOf s eOrthoStatus.ORTHOSTATUS_MAIN pWorkspace.m_id)).sum)).sum
      = splitWidth pWorkspace data
          (stackOf s eOrthoStatus.ORTHOSTATUS_SECONDARY pWorkspace.m_id) := by
    rw [sum_map_share, mul_div_assoc, div_self (ne_of_gt htot), mul_one]
  refine ⟨s', hc, ?_, ?_, ?_, hS⟩
  · have ht := placeMain_tiles (decide (data.mainSide = eMainSide.MAIN_SIDE_RIGHT))
      (usablePos pWorkspace) (usableSize pWorkspace).y _ _
      (if data.mainSide = eMainSide.MAIN_SIDE_RIGHT then
        (usableSize pWorkspace).x
          - splitWidth pWorkspace data
              (stackOf s eOrthoStatus.ORTHOSTATUS_SECONDARY pWorkspace.m_id)
       else splitWidth pWorkspace data
              (stackOf s eOrthoStatus.ORTHOSTATUS_SECONDARY pWorkspace.m_id)) hlen hnonneg
    rw [← hM, hsum] at ht
    cases hside : data.mainSide
    · simp only [hside, reduceCtorEq, decide_False, Bool.false_eq_true, if_false, sub_self]
        at ht ⊢
      exact ht
    · simp only [hside, decide_True, if_true] at ht ⊢
      exact ht
  · intro nd hnd
    rw [hM] at hnd
    exact placeMain_y _ _ _ _ _ _ nd hnd
  · rw [hM, placeMain_widths _ _ _ _ _ _ hlen, hsum]

/-- C6. Main/secondary region split: the main stack is laid out over a
horizontal extent of width `splitWidth` (the full usable width when the
secondary stack is empty, the usable width times the main-side percentage
otherwise), which its nodes fill at full usable height; the secondary nodes get
the remaining width on the opposite side. -/
theorem region_split (host : Host) (pWorkspace : CWorkspace) (s s1 : COrthoLayout)
    (data : SOrthoWorkspaceData)
    (hD : getOrthoWorkspaceData host pWorkspace.m_id s = some (data, s1))
    (hfs : pWorkspace.m_hasFullscreenWindow = false)
    (hmain : stackOf s eOrthoStatus.ORTHOSTATUS_MAIN pWorkspace.m_id ≠ [])
    (hpos : ∀ e ∈ effectiveWeights data (stackOf s eOrthoStatus.ORTHOSTATUS_MAIN pWorkspace.m_id),
      0 < e)
    (hsplit : 0 ≤ splitWidth pWorkspace data
      (stackOf s eOrthoStatus.ORTHOSTATUS_SECONDARY pWorkspace.m_id)) :
    splitWidth pWorkspace data (stackOf s eOrthoStatus.ORTHOSTATUS_SECONDARY pWorkspace.m_id) =
      (if stackOf s eOrthoStatus.ORTHOSTATUS_SECONDARY pWorkspace.m_id = []
       then (usableSize pWorkspace).x else (usableSize pWorkspace).x * data.percMainStack) ∧
    ∃ s', calculateWorkspace host pWorkspace s = some s' ∧
      (∀ nd ∈ stackOf s' eOrthoStatus.ORTHOSTATUS_MAIN pWorkspace.m_id,
        (usablePos pWorkspace).x + (if data.mainSide = eMainSide.MAIN_SIDE_RIGHT then
            (usableSize pWorkspace).x
              - splitWidth pWorkspace data
                  (stackOf s eOrthoStatus.ORTHOSTATUS_SECONDARY pWorkspace.m_id)
            else 0) ≤ nd.position.x ∧
        nd.position.x + nd.size.x ≤
          (usablePos pWorkspace).x + (if data.mainSide = eMainSide.MAIN_SIDE_RIGHT then
            (usableSize pWorkspace).x
              - splitWidth pWorkspace data
                  (stackOf s eOrthoStatus.ORTHOSTATUS_SECONDARY pWorkspace.m_id)
            else 0)
          + splitWidth pWorkspace data
              (stackOf s eOrthoStatus.ORTHOSTATUS_SECONDARY pWorkspace.m_id)) ∧
      ((stackOf s' eOrthoStatus.ORTHOSTATUS_MAIN pWorkspace.m_id).map (fun nd => nd.size.x)).sum
        = splitWidth pWorkspace data
            (stackOf s eOrthoStatus.ORTHOSTATUS_SECONDARY pWorkspace.m_id) ∧
      (∀ nd ∈ stackOf s' eOrthoStatus.ORTHOSTATUS_MAIN pWorkspace.m_id,
        nd.size.y = (usableSize pWorkspace).y ∧ nd.position.y = (usablePos pWorkspace).y) ∧
      (∀ nd ∈ stackOf s' eOrthoStatus.ORTHOSTATUS_SECONDARY pWorkspace.m_id,
        nd.position.x = (usablePos pWorkspace).x +
          (if data.mainSide = eMainSide.MAIN_SIDE_RIGHT then 0
           else splitWidth pWorkspace data
                  (stackOf s eOrthoStatus.ORTHOSTATUS_SECONDARY pWorkspace.m_id)) ∧
        nd.size.x = (usableSize pWorkspace).x
          - splitWidth pWorkspace data
              (stackOf s eOrthoStatus.ORTHOSTATUS_SECONDARY pWorkspace.m_id)) := by
  refine ⟨rfl, ?_⟩
  obtain ⟨s', hc, ht, hy, hsum, hS⟩ := calculateWorkspace_main_tiles hD hfs hmain hpos hsplit
  refine ⟨s', hc, ?_, hsum, hy, ?_⟩
  · intro nd hnd
    obtain ⟨h1, _, h3⟩ := ht.1 nd.xExtent (List.mem_map.mpr ⟨nd, hnd, rfl⟩)
    exact ⟨h1, h3⟩
  · intro nd hnd
    obtain ⟨i, hi, hie⟩ := List.getElem_of_mem hnd
    have hget : (stackOf s' eOrthoStatus.ORTHOSTATUS_SECONDARY pWorkspace.m_id)[i]? = some nd := by
      rw [List.getElem?_eq_getElem hi, hie]
    rw [hS] at hget
    obtain ⟨h1, h2, _⟩ := secondaryStackLoop_positions _ _ _ _ _ _ _ _ i nd hget
    exact ⟨h2, h1⟩

/-- The secondary column stored by a recompute tiles the usable height. -/
theorem secondaryStackLoop_tiles (P S : Vector2D) (WIDTH nextX : ℚ) (l : List SOrthoNodeData)
    (hne : l ≠ []) (hpos : ∀ nd ∈ l, 0 < nd.weight) (hH : 0 ≤ S.y) :
    Tiles P.y (P.y + S.y)
      ((secondaryStackLoop P S WIDTH nextX
        (l.foldl (fun totalWeight nd => totalWeight + nd.weight) 0) S.y l S.y).map
        SOrthoNodeData.yExtent) := by
  have hne' : l.map (fun n => n.weight) ≠ [] := fun h => hne (List.map_eq_nil_iff.mp h)
  have hposw : ∀ e ∈ l.map (fun n => n.weight), 0 < e := by
    intro e he
    obtain ⟨nd, hnd, rfl⟩ := List.mem_map.mp he
    exact hpos nd hnd
  have htot := sum_pos_of_pos _ hne' hposw
  have hle : ∀ nd ∈ l, nd.weight ≤ (l.map (fun n => n.weight)).sum := by
    intro nd hnd
    exact List.single_le_sum (fun e he => (hposw e he).le) _ (List.mem_map.mpr ⟨nd, hnd, rfl⟩)
  rw [foldl_weight, zero_add, secondaryStackLoop_eq_place _ _ _ _ _ htot hH _ hle]
  have hnonneg : ∀ w ∈ l.map (fun nd => S.y * nd.weight / (l.map (fun n => n.weight)).sum),
      0 ≤ w := by
    intro w hw
    obtain ⟨nd, hnd, rfl⟩ := List.mem_map.mp hw
    exact div_nonneg (mul_nonneg hH (hpos nd hnd).le) htot.le
  have hsum : (l.map (fun nd => S.y * nd.weight / (l.map (fun n => n.weight)).sum)).sum
      = S.y := by
    have : l.map (fun nd => S.y * nd.weight / (l.map (fun n => n.weight)).sum)
        = (l.map (fun n => n.weight)).map
            (fun e => S.y * e / (l.map (fun n => n.weight)).sum) := by
      rw [List.map_map]
      rfl
    rw [this, sum_map_share, mul_div_assoc, div_self (ne_of_gt htot), mul_one]
  have h := (placeSecondary_chainDown P WIDTH nextX l _ S.y (by rw [List.length_map])
    hnonneg).tilesDown
  rw [hsum] at h
  have e : P.y + S.y - S.y = P.y := by ring
  rw [e] at h
  exact h

theorem splitWidth_bounds (pWorkspace : CWorkspace) (data : SOrthoWorkspaceData)
    (secondary : List SOrthoNodeData)
    (hperc : 1 / 10 ≤ data.percMainStack ∧ data.percMainStack ≤ 9 / 10)
    (hW : 0 ≤ (usableSize pWorkspace).x) :
    0 ≤ splitWidth pWorkspace data secondary ∧
      splitWidth pWorkspace data secondary ≤ (usableSize pWorkspace).x ∧
      (secondary = [] → splitWidth pWorkspace data secondary = (usableSize pWorkspace).x) := by
  unfold splitWidth
  split
  · exact ⟨hW, le_refl _, fun _ => rfl⟩
  · next hne =>
    refine ⟨mul_nonneg hW (by linarith [hperc.1]), ?_, fun h => absurd h hne⟩
    have : (usableSize pWorkspace).x * data.percMainStack ≤ (usableSize pWorkspace).x * 1 :=
      mul_le_mul_of_nonneg_left (by linarith [hperc.2]) hW
    linarith

/-- C5. Partition: on a workspace without fullscreen window, with a non-empty main
stack, positive effective weights and a split percentage in [0.1, 0.9], the
rectangles a recompute assigns to the main and secondary nodes lie inside the
usable area, are pairwise disjoint and cover the usable area. -/
theorem layout_partition (host : Host) (pWorkspace : CWorkspace) (s s1 : COrthoLayout)
    (data : SOrthoWorkspaceData)
    (hD : getOrthoWorkspaceData host pWorkspace.m_id s = some (data, s1))
    (hfs : pWorkspace.m_hasFullscreenWindow = false)
    (hmain : stackOf s eOrthoStatus.ORTHOSTATUS_MAIN pWorkspace.m_id ≠ [])
    (hposM : ∀ e ∈ effectiveWeights data
      (stackOf s eOrthoStatus.ORTHOSTATUS_MAIN pWorkspace.m_id), 0 < e)
    (hposS : ∀ nd ∈ stackOf s eOrthoStatus.ORTHOSTATUS_SECONDARY pWorkspace.m_id, 0 < nd.weight)
    (hperc : 1 / 10 ≤ data.percMainStack ∧ data.percMainStack ≤ 9 / 10)
    (hW : 0 ≤ (usableSize pWorkspace).x) (hH : 0 ≤ (usableSize pWorkspace).y) :
    ∃ s', calculateWorkspace host pWorkspace s = some s' ∧
      (∀ nd ∈ stackOf s' eOrthoStatus.ORTHOSTATUS_MAIN pWorkspace.m_id ++
          stackOf s' eOrthoStatus.ORTHOSTATUS_SECONDARY pWorkspace.m_id,
        (usablePos pWorkspace).x ≤ nd.position.x ∧ 0 ≤ nd.size.x ∧
        nd.position.x + nd.size.x ≤ (usablePos pWorkspace).x + (usableSize pWorkspace).x ∧
        (usablePos pWorkspace).y ≤ nd.position.y ∧ 0 ≤ nd.size.y ∧
        nd.position.y + nd.size.y ≤ (usablePos pWorkspace).y + (usableSize pWorkspace).y) ∧
      (stackOf s' eOrthoStatus.ORTHOSTATUS_MAIN pWorkspace.m_id ++
          stackOf s' eOrthoStatus.ORTHOSTATUS_SECONDARY pWorkspace.m_id).Pairwise
        (fun a b => ∀ p, ¬ (a.covers p ∧ b.covers p)) ∧
      (∀ p, inUsableArea pWorkspace p →
        ∃ nd ∈ stackOf s' eOrthoStatus.ORTHOSTATUS_MAIN pWorkspace.m_id ++
          stackOf s' eOrthoStatus.ORTHOSTATUS_SECONDARY pWorkspace.m_id, nd.covers p) := by
  obtain ⟨hs0, hsW, hsnil⟩ := splitWidth_bounds pWorkspace data
    (stackOf s eOrthoStatus.ORTHOSTATUS_SECONDARY pWorkspace.m_id) hperc hW
  obtain ⟨s', hc, ht, hy, _, hS⟩ := calculateWorkspace_main_tiles hD hfs hmain hposM hs0
  refine ⟨s', hc, ?_⟩
  have hBx : ∀ nd ∈ stackOf s' eOrthoStatus.ORTHOSTATUS_SECONDARY pWorkspace.m_id,
      nd.position.x = (usablePos pWorkspace).x +
        (if data.mainSide = eMainSide.MAIN_SIDE_RIGHT then 0
         else splitWidth pWorkspace data
                (stackOf s eOrthoStatus.ORTHOSTATUS_SECONDARY pWorkspace.m_id)) ∧
      nd.position.x + nd.size.x = (usablePos pWorkspace).x +
        (if data.mainSide = eMainSide.MAIN_SIDE_RIGHT then 0
         else splitWidth pWorkspace data
                (stackOf s eOrthoStatus.ORTHOSTATUS_SECONDARY pWorkspace.m_id)) +
        ((usableSize pWorkspace).x
          - splitWidth pWorkspace data
              (stackOf s eOrthoStatus.ORTHOSTATUS_SECONDARY pWorkspace.m_id)) := by
    intro nd hnd
    obtain ⟨i, hi, hie⟩ := List.getElem_of_mem hnd
    have hget : (stackOf s' eOrthoStatus.ORTHOSTATUS_SECONDARY pWorkspace.m_id)[i]? = some nd := by
      rw [List.getElem?_eq_getElem hi, hie]
    rw [hS] at hget
    obtain ⟨h1, h2, _⟩ := secondaryStackLoop_positions _ _ _ _ _ _ _ _ i nd hget
    exact ⟨h2, by rw [h2, h1]⟩
  have hreg : ((usablePos pWorkspace).x + (if data.mainSide = eMainSide.MAIN_SIDE_RIGHT then
          (usableSize pWorkspace).x
            - splitWidth pWorkspace data
                (stackOf s eOrthoStatus.ORTHOSTATUS_SECONDARY pWorkspace.m_id)
          else 0) = (usablePos pWorkspace).x ∧
      (usablePos pWorkspace).x + (if data.mainSide = eMainSide.MAIN_SIDE_RIGHT then
          (usableSize pWorkspace).x
            - splitWidth pWorkspace data
                (stackOf s eOrthoStatus.ORTHOSTATUS_SECONDARY pWorkspace.m_id)
          else 0)
          + splitWidth pWorkspace data
              (stackOf s eOrthoStatus.ORTHOSTATUS_SECONDARY pWorkspace.m_id) =
        (usablePos pWorkspace).x +
          (if data.mainSide = eMainSide.MAIN_SIDE_RIGHT then 0
           else splitWidth pWorkspace data
                  (stackOf s eOrthoStatus.ORTHOSTATUS_SECONDARY pWorkspace.m_id)) ∧
      (usablePos pWorkspace).x +
          (if data.mainSide = eMainSide.MAIN_SIDE_RIGHT then 0
           else splitWidth pWorkspace data
                  (stackOf s eOrthoStatus.ORTHOSTATUS_SECONDARY pWorkspace.m_id)) +
          ((usableSize pWorkspace).x
            - splitWidth pWorkspace data
                (stackOf s eOrthoStatus.ORTHOSTATUS_SECONDARY pWorkspace.m_id)) =
        (usablePos pWorkspace).x + (usableSize pWorkspace).x) ∨
      ((usablePos pWorkspace).x +
          (if data.mainSide = eMainSide.MAIN_SIDE_RIGHT then 0
           else splitWidth pWorkspace data
                  (stackOf s eOrthoStatus.ORTHOSTATUS_SECONDARY pWorkspace.m_id)) =
        (usablePos pWorkspace).x ∧
      (usablePos pWorkspace).x +
          (if data.mainSide = eMainSide.MAIN_SIDE_RIGHT then 0
           else splitWidth pWorkspace data
                  (stackOf s eOrthoStatus.ORTHOSTATUS_SECONDARY pWorkspace.m_id)) +
          ((usableSize pWorkspace).x
            - splitWidth pWorkspace data
                (stackOf s eOrthoStatus.ORTHOSTATUS_SECONDARY pWorkspace.m_id)) =
        (usablePos pWorkspace).x + (if data.mainSide = eMainSide.MAIN_SIDE_RIGHT then
          (usableSize pWorkspace).x
            - splitWidth pWorkspace data
                (stackOf s eOrthoStatus.ORTHOSTATUS_SECONDARY pWorkspace.m_id)
          else 0) ∧
      (usablePos pWorkspace).x + (if data.mainSide = eMainSide.MAIN_SIDE_RIGHT then
          (usableSize pWorkspace).x
            - splitWidth pWorkspace data
                (stackOf s eOrthoStatus.ORTHOSTATUS_SECONDARY pWorkspace.m_id)
          else 0)
          + splitWidth pWorkspace data
              (stackOf s eOrthoStatus.ORTHOSTATUS_SECONDARY pWorkspace.m_id) =
        (usablePos pWorkspace).x + (usableSize pWorkspace).x) := by
    cases hside : data.mainSide
    · left
      simp only [reduceCtorEq, if_false]
      refine ⟨by ring, by ring, by ring⟩
    · right
      simp only [if_true]
      refine ⟨by ring, by ring, by ring⟩
  have hres := fun hBb hBp hBc => partition_assemble
    (stackOf s' eOrthoStatus.ORTHOSTATUS_MAIN pWorkspace.m_id)
    (stackOf s' eOrthoStatus.ORTHOSTATUS_SECONDARY pWorkspace.m_id)
    (usablePos pWorkspace).x (usablePos pWorkspace).y (usableSize pWorkspace).x
    (usableSize pWorkspace).y _ _ _ _ ht hy hBb hBp hBc hBx hH (by linarith) (by linarith) hreg
  have hfinal : ∀ hBb hBp hBc, _ := fun hBb hBp hBc =>
    let r := hres hBb hBp hBc
    (⟨r.1, r.2.1, fun p hp => r.2.2 p hp.1 hp.2.1 hp.2.2.1 hp.2.2.2⟩ :
      (∀ nd ∈ stackOf s' eOrthoStatus.ORTHOSTATUS_MAIN pWorkspace.m_id ++
          stackOf s' eOrthoStatus.ORTHOSTATUS_SECONDARY pWorkspace.m_id,
        (usablePos pWorkspace).x ≤ nd.position.x ∧ 0 ≤ nd.size.x ∧
        nd.position.x + nd.size.x ≤ (usablePos pWorkspace).x + (usableSize pWorkspace).x ∧
        (usablePos pWorkspace).y ≤ nd.position.y ∧ 0 ≤ nd.size.y ∧
        nd.position.y + nd.size.y ≤ (usablePos pWorkspace).y + (usableSize pWorkspace).y) ∧
      (stackOf s' eOrthoStatus.ORTHOSTATUS_MAIN pWorkspace.m_id ++
          stackOf s' eOrthoStatus.ORTHOSTATUS_SECONDARY pWorkspace.m_id).Pairwise
        (fun a b => ∀ p, ¬ (a.covers p ∧ b.covers p)) ∧
      (∀ p, inUsableArea pWorkspace p →
        ∃ nd ∈ stackOf s' eOrthoStatus.ORTHOSTATUS_MAIN pWorkspace.m_id ++
          stackOf s' eOrthoStatus.ORTHOSTATUS_SECONDARY pWorkspace.m_id, nd.covers p))
  by_cases hsec : stackOf s eOrthoStatus.ORTHOSTATUS_SECONDARY pWorkspace.m_id = []
  · have hB : stackOf s' eOrthoStatus.ORTHOSTATUS_SECONDARY pWorkspace.m_id = [] := by
      rw [hS, hsec]
      rfl
    refine hfinal ?_ ?_ ?_
    · intro iv hiv
      rw [hB] at hiv
      simp at hiv
    · rw [hB]
      exact List.Pairwise.nil
    · intro hlt
      have := hsnil hsec
      linarith
  · have htiles := secondaryStackLoop_tiles (usablePos pWorkspace) (usableSize pWorkspace)
      ((usableSize pWorkspace).x
        - splitWidth pWorkspace data
            (stackOf s eOrthoStatus.ORTHOSTATUS_SECONDARY pWorkspace.m_id))
      (if data.mainSide = eMainSide.MAIN_SIDE_RIGHT then 0
       else splitWidth pWorkspace data
              (stackOf s eOrthoStatus.ORTHOSTATUS_SECONDARY pWorkspace.m_id))
      _ hsec hposS hH
    rw [← hS] at htiles
    exact hfinal htiles.1 htiles.2.1 (fun _ => htiles.2.2)

/-! ## Example states -/

theorem winsOn_exampleState (main secondary : List PHLWINDOWREF) (ws : WORKSPACEID) :
    winsOn (exampleState main secondary) ws = if ws = 1 then main ++ secondary else [] := by
  by_cases h : ws = 1
  · subst h
    simp [winsOn, wins, stackOf, exampleState, UMap.get, UMap.find, UMap.findEntries,
      Function.comp_def]
  · have h2 : ¬ (1 : Int) = ws := fun e => h e.symm
    simp [winsOn, wins, stackOf, exampleState, UMap.get, UMap.find, UMap.findEntries, h, h2]

theorem windowsUnique_exampleState (main secondary : List PHLWINDOWREF)
    (h : (main ++ secondary).Nodup) : WindowsUnique (exampleState main secondary) := by
  constructor
  · intro ws
    rw [winsOn_exampleState]
    split
    · exact h
    · exact List.nodup_nil
  · intro ws ws' hne
    rw [winsOn_exampleState, winsOn_exampleState]
    by_cases h1 : ws = 1
    · have h2 : ¬ ws' = 1 := fun e => hne (h1.trans e.symm)
      simp [h2]
    · simp [h1]

/-- Witness of C1 (Scenario A, placement): the first window created on an empty
engine with minimum 1 becomes the only main node. -/
theorem create_placement_witness :
    ∃ s', onWindowCreatedTiling (exampleHost 1 "[]") (exampleWindow 7) COrthoLayout.init = some s' ∧
      coreStack s' eOrthoStatus.ORTHOSTATUS_MAIN 1 = [{ pWindow := 7, weight := 1 }] ∧
      coreStack s' eOrthoStatus.ORTHOSTATUS_SECONDARY 1 = [] := by
  obtain ⟨s', h, hc⟩ := create_placement (exampleHost 1 "[]") (exampleWindow 7) COrthoLayout.init
    rfl (by decide) (by decide)
  refine ⟨s', h, ?_, ?_⟩
  · have h1 := hc eOrthoStatus.ORTHOSTATUS_MAIN 1
    simpa [exampleHost, exampleWindow, getMainStackSize, COrthoLayout.init, UMap.empty, UMap.get,
      UMap.find, UMap.findEntries, coreStack, stackOf] using h1
  · have h1 := hc eOrthoStatus.ORTHOSTATUS_SECONDARY 1
    simpa [exampleHost, exampleWindow, getMainStackSize, COrthoLayout.init, UMap.empty, UMap.get,
      UMap.find, UMap.findEntries, coreStack, stackOf] using h1

/-- Witness of C2 (Scenario D): removing the sole main window while the secondary
stack holds two windows and the minimum is 1 promotes the last secondary
window; main then has one node and secondary one. -/
theorem remove_with_promotion_witness :
    ∃ s', onWindowRemovedTiling (exampleHost 1 "[]") (exampleWindow 7) (exampleState [7] [8, 9])
        = some s' ∧
      coreStack s' eOrthoStatus.ORTHOSTATUS_MAIN 1 = [{ pWindow := 9, weight := 1 }] ∧
      coreStack s' eOrthoStatus.ORTHOSTATUS_SECONDARY 1 = [{ pWindow := 8, weight := 1 }] := by
  obtain ⟨s', h, _, _, _, hp, _, _⟩ := remove_with_promotion (exampleHost 1 "[]") (exampleWindow 7)
    (exampleState [7] [8, 9]) ⟨0, { pWindow := 7 }, 1, eOrthoStatus.ORTHOSTATUS_MAIN⟩ rfl
    (windowsUnique_exampleState [7] [8, 9] (by decide)) (by decide) (by decide) (by decide)
  have hp2 := hp rfl (by simp [stackOf, exampleState, UMap.get, UMap.find, UMap.findEntries])
    (by simp [stackOf, exampleState, UMap.get, UMap.find, UMap.findEntries, exampleHost])
  refine ⟨s', h, ?_, ?_⟩
  · simpa [stackOf, exampleState, UMap.get, UMap.find, UMap.findEntries,
      SOrthoNodeData.stripGeometry] using hp2.1
  · simpa [stackOf, exampleState, UMap.get, UMap.find, UMap.findEntries,
      SOrthoNodeData.stripGeometry] using hp2.2

/-- Counterexample to C3 as stated.  With minimum 1 the windows 7, 8, 9 are
placed as main [7], secondary [8, 9]; after the configured minimum is raised to 3,
removing 7 promotes only 9: main [9] has one node although the workspace holds
two and the secondary stack had nodes to spare. -/
theorem remove_keeps_minimum_counterexample :
    ∃ s1 s2 s3 s4,
      onWindowCreatedTiling (exampleHost 1 "[]") (exampleWindow 7) COrthoLayout.init = some s1 ∧
      onWindowCreatedTiling (exampleHost 1 "[]") (exampleWindow 8) s1 = some s2 ∧
      onWindowCreatedTiling (exampleHost 1 "[]") (exampleWindow 9) s2 = some s3 ∧
      1 ≤ getSecondaryStackSize s3 1 ∧
      onWindowRemovedTiling (exampleHost 3 "[]") (exampleWindow 7) s3 = some s4 ∧
      ¬ (min (exampleHost 3 "[]").PMAINSTACKMIN (getNodeCountOnWorkspace s4 1)
          ≤ getMainStackSize s4 1) := by
  refine ⟨_, _, _, _, rfl, rfl, rfl, ?_, rfl, ?_⟩
  · decide
  · decide

/-- Witness of C3 (amended): main [7], secondary [8, 9], minimum 1, window 7
removed. -/
theorem remove_keeps_minimum_witness :
    ∃ s', onWindowRemovedTiling (exampleHost 1 "[]") (exampleWindow 7) (exampleState [7] [8, 9])
        = some s' ∧
      min (exampleHost 1 "[]").PMAINSTACKMIN (getNodeCountOnWorkspace s' 1)
        ≤ getMainStackSize s' 1 :=
  remove_keeps_minimum (exampleHost 1 "[]") (exampleWindow 7) (exampleState [7] [8, 9])
    ⟨0, { pWindow := 7 }, 1, eOrthoStatus.ORTHOSTATUS_MAIN⟩ rfl
    (windowsUnique_exampleState [7] [8, 9] (by decide)) (by decide) (by decide) (by decide)

/-- Counterexample to C4 as stated: two `onWindowCreatedTiling` calls for the same
window, from the empty engine, leave two nodes referencing it (one in the main
stack, one in the secondary stack). -/
theorem reachable_windowsUnique_counterexample :
    ∃ s1 s2,
      onWindowCreatedTiling (exampleHost 1 "[]") (exampleWindow 7) COrthoLayout.init = some s1 ∧
      onWindowCreatedTiling (exampleHost 1 "[]") (exampleWindow 7) s1 = some s2 ∧
      wins s2 eOrthoStatus.ORTHOSTATUS_MAIN 1 = [7] ∧
      wins s2 eOrthoStatus.ORTHOSTATUS_SECONDARY 1 = [7] ∧
      ¬ WindowsUnique s2 := by
  refine ⟨_, _, rfl, rfl, by decide, by decide, ?_⟩
  intro hu
  exact absurd (hu.1 1) (by decide)

/-- Witness of C4 (amended): the state after creating windows 7 and 8 on the
empty engine. -/
theorem reachable_windowsUnique_witness :
    ∃ s1 s2,
      onWindowCreatedTiling (exampleHost 1 "[]") (exampleWindow 7) COrthoLayout.init = some s1 ∧
      onWindowCreatedTiling (exampleHost 1 "[]") (exampleWindow 8) s1 = some s2 ∧
      Reachable s2 ∧ WindowsUnique s2 := by
  have r1 := @Reachable.create (exampleHost 1 "[]") (exampleWindow 7) COrthoLayout.init _
    Reachable.init (by decide) rfl
  have r2 := @Reachable.create (exampleHost 1 "[]") (exampleWindow 8) _ _ r1 (by decide) rfl
  exact ⟨_, _, rfl, rfl, r2, reachable_windowsUnique _ r2⟩

theorem stackOf_exampleLayout (data : SOrthoWorkspaceData)
    (main secondary : List (PHLWINDOWREF × ℚ)) :
    stackOf (exampleLayout data main secondary) eOrthoStatus.ORTHOSTATUS_MAIN 1
        = main.map (fun p => { pWindow := p.1, weight := p.2 }) ∧
      stackOf (exampleLayout data main secondary) eOrthoStatus.ORTHOSTATUS_SECONDARY 1
        = secondary.map (fun p => { pWindow := p.1, weight := p.2 }) := by
  constructor <;> simp [stackOf, exampleLayout, UMap.get, UMap.find, UMap.findEntries]

/-- Witness of C7 (Scenario C): weights 1 and 3 on usable width 1000 without
secondary stack give the widths 250 and 750, which sum to 1000. -/
theorem main_widths_sum_witness :
    ∃ s', calculateWorkspace (exampleHost 1 "[]") (exampleWorkspaceOf 1000 800)
        (exampleLayout (exampleData eMainSide.MAIN_SIDE_LEFT false []) [(7, 1), (8, 3)] [])
        = some s' ∧
      (stackOf s' eOrthoStatus.ORTHOSTATUS_MAIN 1).map (fun nd => nd.size.x) = [250, 750] ∧
      ((stackOf s' eOrthoStatus.ORTHOSTATUS_MAIN 1).map (fun nd => nd.size.x)).sum = 1000 := by
  obtain ⟨s', hc, hw, hsum⟩ := main_widths_sum (exampleHost 1 "[]") (exampleWorkspaceOf 1000 800)
    (exampleLayout (exampleData eMainSide.MAIN_SIDE_LEFT false []) [(7, 1), (8, 3)] [])
    _ _ rfl rfl
    (by simp [exampleWorkspaceOf, (stackOf_exampleLayout _ _ _).1])
    rfl
    (by simp [exampleWorkspaceOf, (stackOf_exampleLayout _ _ _).1])
    (by simp [exampleWorkspaceOf, (stackOf_exampleLayout _ _ _).2, splitWidth, usableSize,
          Vector2D.sub_x])
  refine ⟨s', hc, ?_, ?_⟩
  · refine hw.trans ?_
    simp [exampleWorkspaceOf, (stackOf_exampleLayout _ _ _).1, (stackOf_exampleLayout _ _ _).2,
      splitWidth, usableSize, Vector2D.sub_x]
    norm_num
  · refine hsum.trans ?_
    simp [exampleWorkspaceOf, (stackOf_exampleLayout _ _ _).2, splitWidth, usableSize,
      Vector2D.sub_x]

theorem calculateWorkspace_unique {host : Host} {pWorkspace : CWorkspace}
    {s a b : COrthoLayout} (ha : calculateWorkspace host pWorkspace s = some a)
    (hb : calculateWorkspace host pWorkspace s = some b) : a = b :=
  Option.some.inj (ha.symm.trans hb)

/-- Witness of C8 (Scenario C): main side left, weights 1 and 3 on usable width
1000 without secondary stack.  The weight-1 node, first in the stack, is the one
at the boundary x = 1000: it occupies [750, 1000), the weight-3 node [0, 750). -/
theorem main_ordering_witness :
    ∃ s', calculateWorkspace (exampleHost 1 "[]") (exampleWorkspaceOf 1000 800)
        (exampleLayout (exampleData eMainSide.MAIN_SIDE_LEFT false []) [(7, 1), (8, 3)] [])
        = some s' ∧
      (stackOf s' eOrthoStatus.ORTHOSTATUS_MAIN 1).map
          (fun nd => (nd.pWindow, nd.position.x, nd.size.x, nd.size.y))
        = [(7, 750, 250, 800), (8, 0, 750, 800)] ∧
      ∀ (i : Nat) (nd : SOrthoNodeData),
        (stackOf s' eOrthoStatus.ORTHOSTATUS_MAIN 1)[i]? = some nd →
        nd.position.x + nd.size.x = 1000 -
          (((stackOf s' eOrthoStatus.ORTHOSTATUS_MAIN 1).take i).map (fun n => n.size.x)).sum := by
  have hmain : stackOf (exampleLayout (exampleData eMainSide.MAIN_SIDE_LEFT false [])
      [(7, 1), (8, 3)] []) eOrthoStatus.ORTHOSTATUS_MAIN (exampleWorkspaceOf 1000 800).m_id
      ≠ [] := by
    simp [exampleWorkspaceOf, (stackOf_exampleLayout _ _ _).1]
  obtain ⟨s', hc, hord⟩ := main_ordering (exampleHost 1 "[]") (exampleWorkspaceOf 1000 800)
    (exampleLayout (exampleData eMainSide.MAIN_SIDE_LEFT false []) [(7, 1), (8, 3)] [])
    _ _ rfl rfl hmain
  obtain ⟨s'', hc', hM, _⟩ := @calculateWorkspace_stacks (exampleHost 1 "[]")
    (exampleWorkspaceOf 1000 800)
    (exampleLayout (exampleData eMainSide.MAIN_SIDE_LEFT false []) [(7, 1), (8, 3)] [])
    _ _ rfl rfl hmain
  have := calculateWorkspace_unique hc' hc
  subst this
  refine ⟨s'', hc, ?_, ?_⟩
  · have hM' : stackOf s'' eOrthoStatus.ORTHOSTATUS_MAIN 1 = _ := hM
    rw [hM']
    simp [exampleWorkspaceOf, (stackOf_exampleLayout _ _ _).1, (stackOf_exampleLayout _ _ _).2,
      splitWidth, usableSize, usablePos, Vector2D.sub_x, Vector2D.sub_y, Vector2D.add_x,
      mainStackLoop_cons, mainStackLoop, loopWeights, mainTotalWeight, exampleData]
    norm_num
  · intro i nd hnd
    have h := (hord i nd hnd).2.2.2 rfl
    refine h.trans ?_
    simp [exampleWorkspaceOf, (stackOf_exampleLayout _ _ _).2, splitWidth, usableSize, usablePos,
      Vector2D.sub_x, Vector2D.add_x]

/-- Witness of C9: main [7], secondary weights 1 and 3 on 1920x1080, split 0.5:
the secondary nodes are 960 wide and 270 and 810 high. -/
theorem secondary_layout_witness :
    ∃ s', calculateWorkspace (exampleHost 1 "[]") (exampleWorkspaceOf 1920 1080)
        (exampleLayout (exampleData eMainSide.MAIN_SIDE_LEFT true [5]) [(7, 1)] [(8, 1), (9, 3)])
        = some s' ∧
      (stackOf s' eOrthoStatus.ORTHOSTATUS_SECONDARY 1).map (fun nd => nd.size.y) = [270, 810] ∧
      (∀ nd ∈ stackOf s' eOrthoStatus.ORTHOSTATUS_SECONDARY 1, nd.size.x = 960) ∧
      ((stackOf s' eOrthoStatus.ORTHOSTATUS_SECONDARY 1).map (fun nd => nd.size.y)).sum = 1080 := by
  obtain ⟨s', hc, hh, hw, _, _, hsum⟩ := secondary_layout (exampleHost 1 "[]")
    (exampleWorkspaceOf 1920 1080)
    (exampleLayout (exampleData eMainSide.MAIN_SIDE_LEFT true [5]) [(7, 1)] [(8, 1), (9, 3)])
    _ _ rfl rfl
    (by simp [exampleWorkspaceOf, (stackOf_exampleLayout _ _ _).1])
    (by simp [exampleWorkspaceOf, (stackOf_exampleLayout _ _ _).2])
    (by simp [exampleWorkspaceOf, (stackOf_exampleLayout _ _ _).2])
    (by simp [exampleWorkspaceOf, usableSize, Vector2D.sub_y])
  refine ⟨s', hc, ?_, ?_, ?_⟩
  · refine hh.trans ?_
    simp [exampleWorkspaceOf, (stackOf_exampleLayout _ _ _).2, usableSize, Vector2D.sub_y]
    norm_num
  · intro nd hnd
    refine (hw nd hnd).trans ?_
    simp [exampleWorkspaceOf, (stackOf_exampleLayout _ _ _).2, splitWidth, usableSize,
      Vector2D.sub_x, exampleData]
    norm_num
  · refine hsum.trans ?_
    simp [exampleWorkspaceOf, usableSize, Vector2D.sub_y]

/-- Witness of C10 (Scenario E): overrides [2, 1] on a 3-node main stack whose
nodes store the weights 5, 1, 1: effective weights 2, 1, 1, total 4, widths 500,
250 and 250 of 1000. -/
theorem override_precedence_witness :
    effectiveWeights (exampleData eMainSide.MAIN_SIDE_LEFT true [2, 1])
        (stackOf (exampleLayout (exampleData eMainSide.MAIN_SIDE_LEFT true [2, 1])
          [(7, 5), (8, 1), (9, 1)] []) eOrthoStatus.ORTHOSTATUS_MAIN 1) = [2, 1, 1] ∧
    mainTotalWeight true [2, 1]
        (stackOf (exampleLayout (exampleData eMainSide.MAIN_SIDE_LEFT true [2, 1])
          [(7, 5), (8, 1), (9, 1)] []) eOrthoStatus.ORTHOSTATUS_MAIN 1) = 4 ∧
    ∃ s', calculateWorkspace (exampleHost 1 "[]") (exampleWorkspaceOf 1000 800)
        (exampleLayout (exampleData eMainSide.MAIN_SIDE_LEFT true [2, 1])
          [(7, 5), (8, 1), (9, 1)] []) = some s' ∧
      (stackOf s' eOrthoStatus.ORTHOSTATUS_MAIN 1).map (fun nd => nd.size.x)
        = [500, 250, 250] := by
  obtain ⟨_, htot, s', hc, hw⟩ := override_precedence (exampleHost 1 "[]")
    (exampleWorkspaceOf 1000 800)
    (exampleLayout (exampleData eMainSide.MAIN_SIDE_LEFT true [2, 1]) [(7, 5), (8, 1), (9, 1)] [])
    _ _ rfl rfl
    (by simp [exampleWorkspaceOf, (stackOf_exampleLayout _ _ _).1])
    rfl
    (by simp [exampleData])
    (by simp [exampleWorkspaceOf, (stackOf_exampleLayout _ _ _).2, splitWidth, usableSize,
          Vector2D.sub_x])
  have hew : effectiveWeights (exampleData eMainSide.MAIN_SIDE_LEFT true [2, 1])
      (stackOf (exampleLayout (exampleData eMainSide.MAIN_SIDE_LEFT true [2, 1])
        [(7, 5), (8, 1), (9, 1)] []) eOrthoStatus.ORTHOSTATUS_MAIN 1) = [2, 1, 1] := by
    simp [effectiveWeights, exampleData, (stackOf_exampleLayout _ _ _).1, List.range_succ]
  have htot4 : mainTotalWeight true [2, 1]
      (stackOf (exampleLayout (exampleData eMainSide.MAIN_SIDE_LEFT true [2, 1])
        [(7, 5), (8, 1), (9, 1)] []) eOrthoStatus.ORTHOSTATUS_MAIN 1) = 4 := by
    refine htot.trans ?_
    simp [exampleWorkspaceOf, exampleData, (stackOf_exampleLayout _ _ _).1]
    norm_num
  refine ⟨hew, htot4, s', hc, ?_⟩
  refine hw.trans ?_
  have e1 : (exampleWorkspaceOf 1000 800).m_id = 1 := rfl
  have e2 : (exampleData eMainSide.MAIN_SIDE_LEFT true [2, 1]).overrideMainWeights = true := rfl
  have e3 : (exampleData eMainSide.MAIN_SIDE_LEFT true [2, 1]).mainWeightOverrides = [2, 1] := rfl
  rw [e1, e2, e3, hew, htot4]
  simp [exampleWorkspaceOf, (stackOf_exampleLayout _ _ _).2, splitWidth, usableSize,
    Vector2D.sub_x]
  norm_num

/-- Witness of C6.  Scenario A: a single main node gets the full 1920x1080 usable
rectangle.  Scenario B: main side left, split 0.5, main node 7 and secondary node
8: node 7 occupies x in [0, 960), node 8 occupies x in [960, 1920), both at full
height. -/
theorem region_split_witness :
    (∃ sA, calculateWorkspace (exampleHost 1 "[]") (exampleWorkspaceOf 1920 1080)
        (exampleLayout (exampleData eMainSide.MAIN_SIDE_LEFT false []) [(7, 1)] []) = some sA ∧
      (stackOf sA eOrthoStatus.ORTHOSTATUS_MAIN 1).map
          (fun nd => (nd.pWindow, nd.position.x, nd.position.y, nd.size.x, nd.size.y))
        = [(7, 0, 0, 1920, 1080)]) ∧
    ∃ s', calculateWorkspace (exampleHost 1 "[]") (exampleWorkspaceOf 1920 1080)
        (exampleLayout (exampleData eMainSide.MAIN_SIDE_LEFT false []) [(7, 1)] [(8, 1)])
        = some s' ∧
      (stackOf s' eOrthoStatus.ORTHOSTATUS_MAIN 1).map
          (fun nd => (nd.pWindow, nd.position.x, nd.position.y, nd.size.x, nd.size.y))
        = [(7, 0, 0, 960, 1080)] ∧
      (stackOf s' eOrthoStatus.ORTHOSTATUS_SECONDARY 1).map
          (fun nd => (nd.pWindow, nd.position.x, nd.position.y, nd.size.x, nd.size.y))
        = [(8, 960, 0, 960, 1080)] ∧
      ((stackOf s' eOrthoStatus.ORTHOSTATUS_MAIN 1).map (fun nd => nd.size.x)).sum = 960 ∧
      (∀ nd ∈ stackOf s' eOrthoStatus.ORTHOSTATUS_SECONDARY 1,
        nd.position.x = 960 ∧ nd.size.x = 960) := by
  constructor
  · have hmainA : stackOf (exampleLayout (exampleData eMainSide.MAIN_SIDE_LEFT false [])
        [(7, 1)] []) eOrthoStatus.ORTHOSTATUS_MAIN (exampleWorkspaceOf 1920 1080).m_id
        ≠ [] := by
      simp [exampleWorkspaceOf, (stackOf_exampleLayout _ _ _).1]
    obtain ⟨sA, hcA, hMA, _⟩ := @calculateWorkspace_stacks (exampleHost 1 "[]")
      (exampleWorkspaceOf 1920 1080)
      (exampleLayout (exampleData eMainSide.MAIN_SIDE_LEFT false []) [(7, 1)] [])
      _ _ rfl rfl hmainA
    refine ⟨sA, hcA, ?_⟩
    have hMA' : stackOf sA eOrthoStatus.ORTHOSTATUS_MAIN 1 = _ := hMA
    rw [hMA']
    simp [exampleWorkspaceOf, (stackOf_exampleLayout _ _ _).1, (stackOf_exampleLayout _ _ _).2,
      splitWidth, usableSize, usablePos, Vector2D.sub_x, Vector2D.sub_y, Vector2D.add_x,
      Vector2D.add_y, mainStackLoop_cons, mainStackLoop, loopWeights, mainTotalWeight,
      exampleData]
  have hmain : stackOf (exampleLayout (exampleData eMainSide.MAIN_SIDE_LEFT false [])
      [(7, 1)] [(8, 1)]) eOrthoStatus.ORTHOSTATUS_MAIN (exampleWorkspaceOf 1920 1080).m_id
      ≠ [] := by
    simp [exampleWorkspaceOf, (stackOf_exampleLayout _ _ _).1]
  have hsplit : splitWidth (exampleWorkspaceOf 1920 1080)
      (exampleData eMainSide.MAIN_SIDE_LEFT false [])
      (stackOf (exampleLayout (exampleData eMainSide.MAIN_SIDE_LEFT false []) [(7, 1)] [(8, 1)])
        eOrthoStatus.ORTHOSTATUS_SECONDARY (exampleWorkspaceOf 1920 1080).m_id) = 960 := by
    simp [exampleWorkspaceOf, (stackOf_exampleLayout _ _ _).2, splitWidth, usableSize,
      Vector2D.sub_x, exampleData]
    norm_num
  obtain ⟨_, s', hc, _, hsum, _, hsec⟩ := region_split (exampleHost 1 "[]")
    (exampleWorkspaceOf 1920 1080)
    (exampleLayout (exampleData eMainSide.MAIN_SIDE_LEFT false []) [(7, 1)] [(8, 1)])
    _ _ rfl rfl hmain
    (by simp [exampleWorkspaceOf, (stackOf_exampleLayout _ _ _).1, effectiveWeights, exampleData])
    (by rw [hsplit]; norm_num)
  obtain ⟨s'', hc', hM, hS⟩ := @calculateWorkspace_stacks (exampleHost 1 "[]")
    (exampleWorkspaceOf 1920 1080)
    (exampleLayout (exampleData eMainSide.MAIN_SIDE_LEFT false []) [(7, 1)] [(8, 1)])
    _ _ rfl rfl hmain
  have := calculateWorkspace_unique hc' hc
  subst this
  refine ⟨s'', hc, ?_, ?_, ?_, ?_⟩
  · have hM' : stackOf s'' eOrthoStatus.ORTHOSTATUS_MAIN 1 = _ := hM
    rw [hM', hsplit]
    simp [exampleWorkspaceOf, (stackOf_exampleLayout _ _ _).1, usableSize, usablePos,
      Vector2D.sub_x, Vector2D.sub_y, Vector2D.add_x, Vector2D.add_y, mainStackLoop_cons,
      mainStackLoop, loopWeights, mainTotalWeight, exampleData]
  · have hS' : stackOf s'' eOrthoStatus.ORTHOSTATUS_SECONDARY 1 = _ := hS
    rw [hS', hsplit]
    simp [exampleWorkspaceOf, (stackOf_exampleLayout _ _ _).2, usableSize, usablePos,
      Vector2D.sub_x, Vector2D.sub_y, Vector2D.add_x, Vector2D.add_y, secondaryStackLoop,
      exampleData]
    norm_num
  · exact hsum.trans hsplit
  · intro nd hnd
    obtain ⟨h1, h2⟩ := hsec nd hnd
    rw [hsplit] at h1 h2
    constructor
    · refine h1.trans ?_
      simp [exampleWorkspaceOf, usablePos, Vector2D.add_x, exampleData]
    · refine h2.trans ?_
      simp [exampleWorkspaceOf, usableSize, Vector2D.sub_x]
      norm_num

/-- Witness of C5: the layout of Scenario B covers the 1920x1080 usable area. -/
theorem layout_partition_witness :
    ∃ s', calculateWorkspace (exampleHost 1 "[]") (exampleWorkspaceOf 1920 1080)
        (exampleLayout (exampleData eMainSide.MAIN_SIDE_LEFT false []) [(7, 1)] [(8, 1)])
        = some s' ∧
      (stackOf s' eOrthoStatus.ORTHOSTATUS_MAIN 1 ++
          stackOf s' eOrthoStatus.ORTHOSTATUS_SECONDARY 1).Pairwise
        (fun a b => ∀ p, ¬ (a.covers p ∧ b.covers p)) ∧
      (∀ p, inUsableArea (exampleWorkspaceOf 1920 1080) p →
        ∃ nd ∈ stackOf s' eOrthoStatus.ORTHOSTATUS_MAIN 1 ++
          stackOf s' eOrthoStatus.ORTHOSTATUS_SECONDARY 1, nd.covers p) := by
  obtain ⟨s', hc, _, hdisj, hcover⟩ := layout_partition (exampleHost 1 "[]")
    (exampleWorkspaceOf 1920 1080)
    (exampleLayout (exampleData eMainSide.MAIN_SIDE_LEFT false []) [(7, 1)] [(8, 1)])
    _ _ rfl rfl
    (by simp [exampleWorkspaceOf, (stackOf_exampleLayout _ _ _).1])
    (by simp [exampleWorkspaceOf, (stackOf_exampleLayout _ _ _).1, effectiveWeights, exampleData])
    (by simp [exampleWorkspaceOf, (stackOf_exampleLayout _ _ _).2])
    (by simp [exampleData]; norm_num)
    (by simp [exampleWorkspaceOf, usableSize, Vector2D.sub_x])
    (by simp [exampleWorkspaceOf, usableSize, Vector2D.sub_y])
  exact ⟨s', hc, hdisj, hcover⟩

/-! ## Idempotence of the geometry computation -/

theorem UMap.setEntries_setEntries {V : Type} (l : List (WORKSPACEID × V)) (ws : WORKSPACEID)
    (a b : V) : UMap.setEntries (UMap.setEntries l ws a) ws b = UMap.setEntries l ws b := by
  induction l with
  | nil => simp [UMap.setEntries]
  | cons e rest ih =>
    obtain ⟨k, v0⟩ := e
    by_cases hk : k = ws
    · simp [UMap.setEntries, hk]
    · simp [UMap.setEntries, hk, ih]

theorem UMap.set_set {V : Type} (m : UMap V) (ws : WORKSPACEID) (a b : V) :
    (m.set ws a).set ws b = m.set ws b := by
  unfold UMap.set
  simp only [UMap.setEntries_setEntries]

theorem UMap.get_set_self (m : UMap (List SOrthoNodeData)) (ws : WORKSPACEID)
    (v : List SOrthoNodeData) : (m.set ws v).get ws = v := by
  rw [UMap.get_set, if_pos rfl]

theorem calculateWorkspace_form {host : Host} {pWorkspace : CWorkspace} {s s1 : COrthoLayout}
    {data : SOrthoWorkspaceData}
    (hD : getOrthoWorkspaceData host pWorkspace.m_id s = some (data, s1)) :
    calculateWorkspace host pWorkspace s = some
      (if pWorkspace.m_hasFullscreenWindow then s1
       else
        { s1 with
          m_mainStackByWorkspace := s1.m_mainStackByWorkspace.set pWorkspace.m_id
            (relaidMain pWorkspace data (s1.m_mainStackByWorkspace.get pWorkspace.m_id)
              (s1.m_secondaryStackByWorkspace.get pWorkspace.m_id))
          m_secondaryStackByWorkspace := s1.m_secondaryStackByWorkspace.set pWorkspace.m_id
            (relaidSecondary pWorkspace data (s1.m_mainStackByWorkspace.get pWorkspace.m_id)
              (s1.m_secondaryStackByWorkspace.get pWorkspace.m_id)) }) := by
  unfold calculateWorkspace
  simp only [hD]
  by_cases hfs : pWorkspace.m_hasFullscreenWindow = true
  · simp [hfs]
  · by_cases hM : (s1.m_mainStackByWorkspace.get pWorkspace.m_id).isEmpty = true
    · simp [hfs, hM, relaidMain, relaidSecondary]
    · by_cases hS : (s1.m_secondaryStackByWorkspace.get pWorkspace.m_id).isEmpty = true
      · simp [hfs, hM, hS, relaidMain, relaidSecondary, UMap.set_set, usableSize, usablePos]
      · simp [hfs, hM, hS, relaidMain, relaidSecondary, UMap.set_set, usableSize, usablePos]

theorem strip_eq_iff (a b : SOrthoNodeData) :
    a.stripGeometry = b.stripGeometry ↔
      a.pWindow = b.pWindow ∧ a.ignoreFullscreenChecks = b.ignoreFullscreenChecks ∧
        a.weight = b.weight := by
  cases a; cases b
  simp [SOrthoNodeData.stripGeometry]

theorem weights_of_strip {l l' : List SOrthoNodeData}
    (h : l'.map SOrthoNodeData.stripGeometry = l.map SOrthoNodeData.stripGeometry) :
    l'.map (fun nd => nd.weight) = l.map (fun nd => nd.weight) := by
  have := congrArg (List.map (fun nd : SOrthoNodeData => nd.weight)) h
  simpa [SOrthoNodeData.stripGeometry, Function.comp_def] using this

theorem length_of_strip {l l' : List SOrthoNodeData}
    (h : l'.map SOrthoNodeData.stripGeometry = l.map SOrthoNodeData.stripGeometry) :
    l'.length = l.length := by
  have := congrArg List.length h
  simpa using this

theorem isEmpty_of_strip {l l' : List SOrthoNodeData}
    (h : l'.map SOrthoNodeData.stripGeometry = l.map SOrthoNodeData.stripGeometry) :
    l'.isEmpty = l.isEmpty := by
  have hl := length_of_strip h
  cases l <;> cases l' <;> simp_all

theorem mainTotalWeight_congr (b : Bool) (O : List ℚ) {l l' : List SOrthoNodeData}
    (h : l'.map SOrthoNodeData.stripGeometry = l.map SOrthoNodeData.stripGeometry) :
    mainTotalWeight b O l' = mainTotalWeight b O l := by
  unfold mainTotalWeight
  rw [foldl_weight, foldl_weight, weights_of_strip h, length_of_strip h]

theorem mainStackLoop_congr (BISRIGHT BOVERRIDEMAIN : Bool) (WSPOS WSSIZE : Vector2D)
    (widthToSplit totalWeight : ℚ) (l : List SOrthoNodeData) :
    ∀ (l' : List SOrthoNodeData),
      l'.map SOrthoNodeData.stripGeometry = l.map SOrthoNodeData.stripGeometry →
      ∀ (nextX remainingWidth : ℚ) (it : List ℚ),
        mainStackLoop BISRIGHT BOVERRIDEMAIN WSPOS WSSIZE widthToSplit totalWeight l' nextX
          remainingWidth it
        = mainStackLoop BISRIGHT BOVERRIDEMAIN WSPOS WSSIZE widthToSplit totalWeight l nextX
          remainingWidth it := by
  induction l with
  | nil =>
    intro l' h nextX remainingWidth it
    cases l' with
    | nil => rfl
    | cons a r => simp at h
  | cons nd rest ih =>
    intro l' h nextX remainingWidth it
    cases l' with
    | nil => simp at h
    | cons nd' rest' =>
      simp only [List.map_cons, List.cons.injEq] at h
      obtain ⟨h1, h2⟩ := h
      obtain ⟨hw, hi, hwt⟩ := (strip_eq_iff nd' nd).mp h1
      rw [mainStackLoop_cons, mainStackLoop_cons, ih rest' h2]
      cases nd; cases nd'
      simp only at hw hi hwt
      subst hw hi hwt
      simp [loopWeights]

theorem secondaryStackLoop_congr (WSPOS WSSIZE : Vector2D)
    (WIDTH nextX totalWeight remainingHeight : ℚ) (l : List SOrthoNodeData) :
    ∀ (l' : List SOrthoNodeData),
      l'.map SOrthoNodeData.stripGeometry = l.map SOrthoNodeData.stripGeometry →
      ∀ (nextY : ℚ),
        secondaryStackLoop WSPOS WSSIZE WIDTH nextX totalWeight remainingHeight l' nextY
        = secondaryStackLoop WSPOS WSSIZE WIDTH nextX totalWeight remainingHeight l nextY := by
  induction l with
  | nil =>
    intro l' h nextY
    cases l' with
    | nil => rfl
    | cons a r => simp at h
  | cons nd rest ih =>
    intro l' h nextY
    cases l' with
    | nil => simp at h
    | cons nd' rest' =>
      simp only [List.map_cons, List.cons.injEq] at h
      obtain ⟨h1, h2⟩ := h
      obtain ⟨hw, hi, hwt⟩ := (strip_eq_iff nd' nd).mp h1
      rw [secondaryStackLoop_cons, secondaryStackLoop_cons, ih rest' h2]
      cases nd; cases nd'
      simp only at hw hi hwt
      subst hw hi hwt
      simp

theorem relaidMain_strip (pWorkspace : CWorkspace) (data : SOrthoWorkspaceData)
    (M S : List SOrthoNodeData) :
    (relaidMain pWorkspace data M S).map SOrthoNodeData.stripGeometry
      = M.map SOrthoNodeData.stripGeometry := by
  unfold relaidMain
  split
  · rfl
  · exact mainStackLoop_strip _ _ _ _ _ _ _ _ _ _

theorem relaidSecondary_strip (pWorkspace : CWorkspace) (data : SOrthoWorkspaceData)
    (M S : List SOrthoNodeData) :
    (relaidSecondary pWorkspace data M S).map SOrthoNodeData.stripGeometry
      = S.map SOrthoNodeData.stripGeometry := by
  unfold relaidSecondary
  split
  · rfl
  · split
    · rfl
    · exact secondaryStackLoop_strip _ _ _ _ _ _ _ _

theorem foldl_weight_congr {l l' : List SOrthoNodeData}
    (h : l'.map SOrthoNodeData.stripGeometry = l.map SOrthoNodeData.stripGeometry) :
    l'.foldl (fun totalWeight nd => totalWeight + nd.weight) 0
      = l.foldl (fun totalWeight nd => totalWeight + nd.weight) 0 := by
  rw [foldl_weight, foldl_weight, weights_of_strip h]

theorem relaidMain_congr (pWorkspace : CWorkspace) (data : SOrthoWorkspaceData)
    {M S M' S' : List SOrthoNodeData} (hM : ¬ M.isEmpty = true)
    (hMs : M'.map SOrthoNodeData.stripGeometry = M.map SOrthoNodeData.stripGeometry)
    (hSe : S'.isEmpty = S.isEmpty) :
    relaidMain pWorkspace data M' S' = relaidMain pWorkspace data M S := by
  unfold relaidMain
  rw [isEmpty_of_strip hMs, hSe, if_neg hM, if_neg hM, mainTotalWeight_congr _ _ hMs]
  exact mainStackLoop_congr _ _ _ _ _ _ _ _ hMs _ _ _

theorem relaidSecondary_congr (pWorkspace : CWorkspace) (data : SOrthoWorkspaceData)
    {M S M' S' : List SOrthoNodeData} (hM : ¬ M.isEmpty = true) (hS : ¬ S.isEmpty = true)
    (hMe : M'.isEmpty = M.isEmpty)
    (hSs : S'.map SOrthoNodeData.stripGeometry = S.map SOrthoNodeData.stripGeometry) :
    relaidSecondary pWorkspace data M' S' = relaidSecondary pWorkspace data M S := by
  unfold relaidSecondary
  rw [hMe, isEmpty_of_strip hSs, if_neg hM, if_neg hS, if_neg hM, if_neg hS,
    foldl_weight_congr hSs]
  exact secondaryStackLoop_congr _ _ _ _ _ _ _ _ hSs _

/-- Laying out a laid-out pair of stacks again changes nothing. -/
theorem relaid_idem (pWorkspace : CWorkspace) (data : SOrthoWorkspaceData)
    (M S : List SOrthoNodeData) :
    relaidMain pWorkspace data (relaidMain pWorkspace data M S)
        (relaidSecondary pWorkspace data M S) = relaidMain pWorkspace data M S ∧
    relaidSecondary pWorkspace data (relaidMain pWorkspace data M S)
        (relaidSecondary pWorkspace data M S) = relaidSecondary pWorkspace data M S := by
  have hMs := relaidMain_strip pWorkspace data M S
  have hSs := relaidSecondary_strip pWorkspace data M S
  by_cases hM : M.isEmpty = true
  · have e1 : relaidMain pWorkspace data M S = M := by simp [relaidMain, hM]
    have e2 : relaidSecondary pWorkspace data M S = S := by simp [relaidSecondary, hM]
    rw [e1, e2]
    exact ⟨e1, e2⟩
  · refine ⟨relaidMain_congr pWorkspace data hM hMs (isEmpty_of_strip hSs), ?_⟩
    by_cases hS : S.isEmpty = true
    · have e2 : relaidSecondary pWorkspace data M S = S := by simp [relaidSecondary, hM, hS]
      rw [e2]
      unfold relaidSecondary
      rw [isEmpty_of_strip hMs, if_neg hM, if_pos hS]
    · exact relaidSecondary_congr pWorkspace data hM hS (isEmpty_of_strip hMs) hSs

theorem getOrthoWorkspaceData_cached {host : Host} {ws : WORKSPACEID} {s s1 : COrthoLayout}
    {data : SOrthoWorkspaceData} (h : getOrthoWorkspaceData host ws s = some (data, s1)) :
    s1.m_orthoWorkspaceDataByWorkspace.find ws = some data := by
  unfold getOrthoWorkspaceData at h
  cases hf : s.m_orthoWorkspaceDataByWorkspace.find ws with
  | some d =>
    rw [hf] at h
    simp only [Option.some.injEq, Prod.mk.injEq] at h
    rw [← h.2, ← h.1]
    exact hf
  | none =>
    rw [hf] at h
    simp only at h
    split at h
    · simp at h
    · simp only [Option.some.injEq, Prod.mk.injEq] at h
      rw [← h.2, ← h.1]
      simp [UMap.find_set]

theorem getOrthoWorkspaceData_of_find (host : Host) {ws : WORKSPACEID} {s : COrthoLayout}
    {data : SOrthoWorkspaceData} (h : s.m_orthoWorkspaceDataByWorkspace.find ws = some data) :
    getOrthoWorkspaceData host ws s = some (data, s) := by
  unfold getOrthoWorkspaceData
  rw [h]

/-- C11: running the geometry computation again on the engine state it has just
produced changes nothing: it returns, and every store, hence the position
and size of every node, is exactly as the first run left it. -/
theorem calculateWorkspace_idempotent (host : Host) (pWorkspace : CWorkspace)
    (s s1 : COrthoLayout) (h : calculateWorkspace host pWorkspace s = some s1) :
    calculateWorkspace host pWorkspace s1 = some s1 := by
  cases hD : getOrthoWorkspaceData host pWorkspace.m_id s with
  | none =>
    unfold calculateWorkspace at h
    simp [hD] at h
  | some ds =>
    obtain ⟨data, t⟩ := ds
    have hfind := getOrthoWorkspaceData_cached hD
    rw [calculateWorkspace_form hD] at h
    simp only [Option.some.injEq] at h
    by_cases hfs : pWorkspace.m_hasFullscreenWindow = true
    · rw [if_pos hfs] at h
      subst h
      rw [calculateWorkspace_form (getOrthoWorkspaceData_of_find host hfind), if_pos hfs]
    · rw [if_neg hfs] at h
      have hfind1 : s1.m_orthoWorkspaceDataByWorkspace.find pWorkspace.m_id = some data := by
        rw [← h]; exact hfind
      rw [calculateWorkspace_form (getOrthoWorkspaceData_of_find host hfind1), if_neg hfs]
      obtain ⟨i1, i2⟩ := relaid_idem pWorkspace data
        (t.m_mainStackByWorkspace.get pWorkspace.m_id)
        (t.m_secondaryStackByWorkspace.get pWorkspace.m_id)
      subst h
      simp only [UMap.get_set_self, UMap.set_set, i1, i2]

/-- Witness of C11: Scenario B is laid out (X at 0 and Y at 960, both 960 wide and
1080 high), and a second run on the result returns the same engine state. -/
theorem calculateWorkspace_idempotent_witness :
    ∃ s1, calculateWorkspace (exampleHost 1 "[]") (exampleWorkspaceOf 1920 1080)
        (exampleLayout (exampleData eMainSide.MAIN_SIDE_LEFT false []) [(7, 1)] [(8, 1)])
        = some s1 ∧
      calculateWorkspace (exampleHost 1 "[]") (exampleWorkspaceOf 1920 1080) s1 = some s1 ∧
      (stackOf s1 eOrthoStatus.ORTHOSTATUS_MAIN 1).map
          (fun nd => (nd.pWindow, nd.position.x, nd.position.y, nd.size.x, nd.size.y))
        = [(7, 0, 0, 960, 1080)] ∧
      (stackOf s1 eOrthoStatus.ORTHOSTATUS_SECONDARY 1).map
          (fun nd => (nd.pWindow, nd.position.x, nd.position.y, nd.size.x, nd.size.y))
        = [(8, 960, 0, 960, 1080)] := by
  have hmain : stackOf (exampleLayout (exampleData eMainSide.MAIN_SIDE_LEFT false [])
      [(7, 1)] [(8, 1)]) eOrthoStatus.ORTHOSTATUS_MAIN (exampleWorkspaceOf 1920 1080).m_id
      ≠ [] := by
    simp [exampleWorkspaceOf, (stackOf_exampleLayout _ _ _).1]
  have hsplit : splitWidth (exampleWorkspaceOf 1920 1080)
      (exampleData eMainSide.MAIN_SIDE_LEFT false [])
      (stackOf (exampleLayout (exampleData eMainSide.MAIN_SIDE_LEFT false []) [(7, 1)] [(8, 1)])
        eOrthoStatus.ORTHOSTATUS_SECONDARY (exampleWorkspaceOf 1920 1080).m_id) = 960 := by
    simp [exampleWorkspaceOf, (stackOf_exampleLayout _ _ _).2, splitWidth, usableSize,
      Vector2D.sub_x, exampleData]
    norm_num
  obtain ⟨s1, hc, hM, hS⟩ := @calculateWorkspace_stacks (exampleHost 1 "[]")
    (exampleWorkspaceOf 1920 1080)
    (exampleLayout (exampleData eMainSide.MAIN_SIDE_LEFT false []) [(7, 1)] [(8, 1)])
    _ _ rfl rfl hmain
  refine ⟨s1, hc, calculateWorkspace_idempotent _ _ _ s1 hc, ?_, ?_⟩
  · have hM' : stackOf s1 eOrthoStatus.ORTHOSTATUS_MAIN 1 = _ := hM
    rw [hM', hsplit]
    simp [exampleWorkspaceOf, (stackOf_exampleLayout _ _ _).1, usableSize, usablePos,
      Vector2D.sub_x, Vector2D.sub_y, Vector2D.add_x, Vector2D.add_y, mainStackLoop_cons,
      mainStackLoop, loopWeights, mainTotalWeight, exampleData]
  · have hS' : stackOf s1 eOrthoStatus.ORTHOSTATUS_SECONDARY 1 = _ := hS
    rw [hS', hsplit]
    simp [exampleWorkspaceOf, (stackOf_exampleLayout _ _ _).2, usableSize, usablePos,
      Vector2D.sub_x, Vector2D.sub_y, Vector2D.add_x, Vector2D.add_y, secondaryStackLoop,
      exampleData]
    norm_num

/-! ## Swap -/

/-- The state `switchWindows` hands to the recompute, for two tiled windows. -/
theorem switch_pre {host : Host} {pWindowA pWindowB : CWindow} {s : COrthoLayout}
    {rA rB : SNodeLookupResult}
    (hA : getNodeFromWindow s pWindowA.handle = some rA)
    (hB : getNodeFromWindow s pWindowB.handle = some rB) :
    ∃ s2, (∀ status ws, stackOf s2 status ws =
        if status = rB.status ∧ ws = rB.ws then
          (if status = rA.status ∧ ws = rA.ws then (stackOf s status ws).set rA.idx rB.nd
           else stackOf s status ws).set rB.idx rA.nd
        else if status = rA.status ∧ ws = rA.ws then (stackOf s status ws).set rA.idx rB.nd
        else stackOf s status ws) ∧
      s2.m_orthoWorkspaceDataByWorkspace = s.m_orthoWorkspaceDataByWorkspace ∧
      switchWindows host pWindowA pWindowB s =
        match recalculateMonitor host pWindowA.monitorID s2 with
        | none => none
        | some s3 =>
          if rA.ws ≠ rB.ws then recalculateMonitor host pWindowB.monitorID s3 else some s3 := by
  obtain ⟨sa, pa⟩ := lookup_slot hA
  obtain ⟨sb, pb⟩ := lookup_slot hB
  have hs0 : ∀ status ws,
      stackOf (setStackOf (setStackOf s rA.status rA.ws (stackOf s rA.status rA.ws))
        rB.status rB.ws (stackOf s rB.status rB.ws)) status ws = stackOf s status ws := by
    intro status ws
    rw [stackOf_setStackOf]
    split
    · next hc => rw [hc.1, hc.2]
    · rw [stackOf_setStackOf]
      split
      · next hc => rw [hc.1, hc.2]
      · rfl
  have hst0 : (setStackOf (setStackOf s rA.status rA.ws (stackOf s rA.status rA.ws))
        rB.status rB.ws (stackOf s rB.status rB.ws)).m_orthoWorkspaceDataByWorkspace
        = s.m_orthoWorkspaceDataByWorkspace := by
    cases rA.status <;> cases rB.status <;> rfl
  unfold switchWindows
  simp only [hA, hB]
  generalize setStackOf (setStackOf s rA.status rA.ws (stackOf s rA.status rA.ws))
    rB.status rB.ws (stackOf s rB.status rB.ws) = s0 at hs0 hst0
  have gA : findInStack rA.nd.pWindow (stackOf s0 rA.status rA.ws) 0 = some (rA.idx, rA.nd) := by
    rw [hs0, pa]
    exact getNodeFromWindow_some s pWindowA.handle rA hA
  have gB : findInStack rB.nd.pWindow (stackOf s0 rB.status rB.ws) 0 = some (rB.idx, rB.nd) := by
    rw [hs0, pb]
    exact getNodeFromWindow_some s pWindowB.handle rB hB
  rw [gA, gB]
  refine ⟨_, ?_, ?_, rfl⟩
  · intro status ws
    rw [stackOf_setStackOf]
    split
    · next hc =>
      rw [hc.1, hc.2, stackOf_setStackOf]
      split
      · next hd => rw [hs0, hd.1, hd.2]
      · rw [hs0]
    · rw [stackOf_setStackOf]
      split
      · next hc => rw [hc.1, hc.2, hs0]
      · rw [hs0]
  · rw [← hst0]
    cases rA.status <;> cases rB.status <;> rfl


theorem getElem?_set_set (l : List SOrthoNodeData) (i j k : Nat) (a b x y : SOrthoNodeData)
    (hi : l[i]? = some x) (hj : l[j]? = some y) :
    ((l.set i a).set j b)[k]? =
      if k = j then some b else if k = i then some a else l[k]? := by
  have hil : i < l.length := by
    rcases Nat.lt_or_ge i l.length with h | h
    · exact h
    · rw [List.getElem?_eq_none h] at hi; cases hi
  have hjl : j < l.length := by
    rcases Nat.lt_or_ge j l.length with h | h
    · exact h
    · rw [List.getElem?_eq_none h] at hj; cases hj
  by_cases hkj : k = j
  · subst hkj
    simp [List.getElem?_set, hjl]
  · by_cases hki : k = i
    · subst hki
      have : ¬ j = k := fun e => hkj e.symm
      simp [List.getElem?_set, hil, hkj, this]
    · have h1 : ¬ j = k := fun e => hkj e.symm
      have h2 : ¬ i = k := fun e => hki e.symm
      simp [List.getElem?_set, hkj, hki, h1, h2]

theorem getElem?_set_one (l : List SOrthoNodeData) (i k : Nat) (a x : SOrthoNodeData)
    (hi : l[i]? = some x) :
    (l.set i a)[k]? = if k = i then some a else l[k]? := by
  have hil : i < l.length := by
    rcases Nat.lt_or_ge i l.length with h | h
    · exact h
    · rw [List.getElem?_eq_none h] at hi; cases hi
  by_cases hki : k = i
  · subst hki
    simp [List.getElem?_set, hil]
  · have h2 : ¬ i = k := fun e => hki e.symm
    simp [List.getElem?_set, hki, h2]

/-- The slots of the state `switchWindows` hands to the recompute. -/
theorem switch_pre_slots {s s2 : COrthoLayout} {rA rB : SNodeLookupResult}
    (sa : (stackOf s rA.status rA.ws)[rA.idx]? = some rA.nd)
    (sb : (stackOf s rB.status rB.ws)[rB.idx]? = some rB.nd)
    (h2 : ∀ status ws, stackOf s2 status ws =
        if status = rB.status ∧ ws = rB.ws then
          (if status = rA.status ∧ ws = rA.ws then (stackOf s status ws).set rA.idx rB.nd
           else stackOf s status ws).set rB.idx rA.nd
        else if status = rA.status ∧ ws = rA.ws then (stackOf s status ws).set rA.idx rB.nd
        else stackOf s status ws)
    (status : eOrthoStatus) (ws : WORKSPACEID) (i : Nat) :
    (stackOf s2 status ws)[i]? =
      if status = rB.status ∧ ws = rB.ws ∧ i = rB.idx then some rA.nd
      else if status = rA.status ∧ ws = rA.ws ∧ i = rA.idx then some rB.nd
      else (stackOf s status ws)[i]? := by
  rw [h2]
  by_cases hB : status = rB.status ∧ ws = rB.ws
  · obtain ⟨e1, e2⟩ := hB
    subst e1 e2
    by_cases hA : rB.status = rA.status ∧ rB.ws = rA.ws
    · rw [hA.1, hA.2] at sb ⊢
      simp only [true_and, and_self, if_true]
      exact getElem?_set_set _ _ _ _ _ _ _ _ sa sb
    · rw [if_pos ⟨rfl, rfl⟩, if_neg hA]
      rw [getElem?_set_one _ _ _ _ _ sb]
      by_cases hi : i = rB.idx
      · simp [hi]
      · have : ¬ (rB.status = rA.status ∧ rB.ws = rA.ws ∧ i = rA.idx) := fun h => hA ⟨h.1, h.2.1⟩
        simp [hi, this]
  · rw [if_neg hB]
    have hB' : ¬ (status = rB.status ∧ ws = rB.ws ∧ i = rB.idx) := fun h => hB ⟨h.1, h.2.1⟩
    rw [if_neg hB']
    by_cases hA : status = rA.status ∧ ws = rA.ws
    · obtain ⟨e1, e2⟩ := hA
      subst e1 e2
      rw [if_pos ⟨rfl, rfl⟩, getElem?_set_one _ _ _ _ _ sa]
      simp
    · rw [if_neg hA]
      have hA' : ¬ (status = rA.status ∧ ws = rA.ws ∧ i = rA.idx) := fun h => hA ⟨h.1, h.2.1⟩
      rw [if_neg hA']

theorem switch_pre_length {s s2 : COrthoLayout} {rA rB : SNodeLookupResult}
    (h2 : ∀ status ws, stackOf s2 status ws =
        if status = rB.status ∧ ws = rB.ws then
          (if status = rA.status ∧ ws = rA.ws then (stackOf s status ws).set rA.idx rB.nd
           else stackOf s status ws).set rB.idx rA.nd
        else if status = rA.status ∧ ws = rA.ws then (stackOf s status ws).set rA.idx rB.nd
        else stackOf s status ws)
    (status : eOrthoStatus) (ws : WORKSPACEID) :
    (stackOf s2 status ws).length = (stackOf s status ws).length := by
  rw [h2]
  split
  · split <;> simp
  · split <;> simp


/-- C12: `switchWindows` exchanges two tiled windows.  The slot (workspace, role,
index) in which the lookup finds A holds B's node afterwards and the slot of B
holds A's node, every other slot of every stack holds the node it held, and
every stack keeps its length (nodes are compared without their rectangles, which
the recompute rewrites).  If either window is untiled the engine state is
returned as it was. -/
theorem switch_exchanges (host : Host) (pWindowA pWindowB : CWindow) (s : COrthoLayout)
    (hcfg : host.PMAINSTACKOVERRIDES ≠ "") :
    (∀ rA rB, getNodeFromWindow s pWindowA.handle = some rA →
      getNodeFromWindow s pWindowB.handle = some rB →
      ∃ s', switchWindows host pWindowA pWindowB s = some s' ∧
        (coreStack s' rA.status rA.ws)[rA.idx]? = some rB.nd.stripGeometry ∧
        (coreStack s' rB.status rB.ws)[rB.idx]? = some rA.nd.stripGeometry ∧
        (∀ status ws i, ¬ (status = rA.status ∧ ws = rA.ws ∧ i = rA.idx) →
          ¬ (status = rB.status ∧ ws = rB.ws ∧ i = rB.idx) →
          (coreStack s' status ws)[i]? = (coreStack s status ws)[i]?) ∧
        ∀ status ws, (stackOf s' status ws).length = (stackOf s status ws).length) ∧
    ((isWindowTiled s pWindowA.handle = false ∨ isWindowTiled s pWindowB.handle = false) →
      switchWindows host pWindowA pWindowB s = some s) := by
  constructor
  · intro rA rB hA hB
    obtain ⟨sa, _⟩ := lookup_slot hA
    obtain ⟨sb, _⟩ := lookup_slot hB
    obtain ⟨s2, h2, _, hsw⟩ := @switch_pre host pWindowA pWindowB s rA rB hA hB
    have hslots := switch_pre_slots sa sb h2
    have hlen := switch_pre_length h2
    obtain ⟨s3, h3, f3⟩ := recalculateMonitor_frame host pWindowA.monitorID s2 hcfg
    obtain ⟨s4, h4, f4⟩ := recalculateMonitor_frame host pWindowB.monitorID s3 hcfg
    have key : ∃ s', switchWindows host pWindowA pWindowB s = some s' ∧ SameStacks s2 s' := by
      rw [hsw, h3]
      dsimp only
      by_cases hw : rA.ws ≠ rB.ws
      · rw [if_pos hw]
        exact ⟨s4, h4, SameStacks.trans f3 f4⟩
      · rw [if_neg hw]
        exact ⟨s3, rfl, f3⟩
    obtain ⟨s', hs', f⟩ := key
    have hcore : ∀ (status : eOrthoStatus) (ws : WORKSPACEID) (i : Nat),
        (coreStack s' status ws)[i]? =
        ((stackOf s2 status ws)[i]?).map SOrthoNodeData.stripGeometry := by
      intro status ws i
      rw [f status ws]
      simp [coreStack]
    refine ⟨s', hs', ?_, ?_, ?_, ?_⟩
    · rw [hcore, hslots]
      by_cases hc : rA.status = rB.status ∧ rA.ws = rB.ws ∧ rA.idx = rB.idx
      · rw [if_pos hc]
        have : rA.nd = rB.nd := by
          rw [hc.1, hc.2.1, hc.2.2, sb] at sa
          exact (Option.some.inj sa).symm
        rw [this]
        rfl
      · rw [if_neg hc, if_pos ⟨rfl, rfl, rfl⟩]
        rfl
    · rw [hcore, hslots, if_pos ⟨rfl, rfl, rfl⟩]
      rfl
    · intro status ws i hnA hnB
      rw [hcore, hslots, if_neg hnB, if_neg hnA]
      simp [coreStack]
    · intro status ws
      rw [← coreStack_length, f status ws, coreStack_length]
      exact hlen status ws
  · intro h
    unfold isWindowTiled at h
    unfold switchWindows
    rcases h with h | h
    · cases hA : getNodeFromWindow s pWindowA.handle with
      | none => rfl
      | some r => rw [hA] at h; simp at h
    · cases hB : getNodeFromWindow s pWindowB.handle with
      | none =>
        cases hA : getNodeFromWindow s pWindowA.handle <;> rfl
      | some r => rw [hB] at h; simp at h

/-- Witness of C12: on a workspace with main stack [7] and secondary stack [8, 9],
switching 7 and 9 gives main [9] and secondary [8, 7]. -/
theorem switch_exchanges_witness :
    ∃ s', switchWindows (exampleHost 1 "[]") (exampleWindow 7) (exampleWindow 9)
        (exampleState [7] [8, 9]) = some s' ∧
      (coreStack s' eOrthoStatus.ORTHOSTATUS_MAIN 1)[0]? = some { pWindow := 9 } ∧
      (coreStack s' eOrthoStatus.ORTHOSTATUS_SECONDARY 1)[1]? = some { pWindow := 7 } ∧
      (coreStack s' eOrthoStatus.ORTHOSTATUS_SECONDARY 1)[0]? = some { pWindow := 8 } ∧
      (stackOf s' eOrthoStatus.ORTHOSTATUS_SECONDARY 1).length = 2 := by
  obtain ⟨s', h, h1, h2, h3, h4⟩ :=
    (switch_exchanges (exampleHost 1 "[]") (exampleWindow 7) (exampleWindow 9)
      (exampleState [7] [8, 9]) (by decide)).1
      ⟨0, { pWindow := 7 }, 1, eOrthoStatus.ORTHOSTATUS_MAIN⟩
      ⟨1, { pWindow := 9 }, 1, eOrthoStatus.ORTHOSTATUS_SECONDARY⟩ rfl rfl
  refine ⟨s', h, h1, h2, ?_, ?_⟩
  · rw [h3 eOrthoStatus.ORTHOSTATUS_SECONDARY 1 0 (by decide) (by decide)]
    rfl
  · rw [h4]
    rfl

/-! ## Lookup -/

/-- C13: the lookup succeeds exactly for the windows referenced by some node of
some main or secondary stack; its result references the window and is an element
(at the reported index) of the stack of the reported role on the reported
workspace; a window present in a main stack is reported with role main; and
`isWindowTiled` is true exactly when the lookup succeeds. -/
theorem lookup_spec (s : COrthoLayout) (w : PHLWINDOWREF) :
    ((∃ r, getNodeFromWindow s w = some r) ↔
      ∃ status ws nd, nd ∈ stackOf s status ws ∧ nd.pWindow = w) ∧
    (∀ r, getNodeFromWindow s w = some r →
      r.nd.pWindow = w ∧ r.nd ∈ stackOf s r.status r.ws ∧
        (stackOf s r.status r.ws)[r.idx]? = some r.nd) ∧
    ((∃ ws nd, nd ∈ stackOf s eOrthoStatus.ORTHOSTATUS_MAIN ws ∧ nd.pWindow = w) →
      ∃ r, getNodeFromWindow s w = some r ∧ r.status = eOrthoStatus.ORTHOSTATUS_MAIN) ∧
    (isWindowTiled s w = true ↔ ∃ r, getNodeFromWindow s w = some r) := by
  have hsome : ∀ r, getNodeFromWindow s w = some r →
      r.nd.pWindow = w ∧ r.nd ∈ stackOf s r.status r.ws ∧
        (stackOf s r.status r.ws)[r.idx]? = some r.nd := by
    intro r hr
    obtain ⟨h1, h2⟩ := lookup_slot hr
    exact ⟨h2, List.getElem?_mem h1, h1⟩
  refine ⟨⟨?_, ?_⟩, hsome, ?_, ?_⟩
  · rintro ⟨r, hr⟩
    obtain ⟨h1, h2, _⟩ := hsome r hr
    exact ⟨r.status, r.ws, r.nd, h2, h1⟩
  · rintro ⟨status, ws, nd, hmem, hw⟩
    cases h : getNodeFromWindow s w with
    | some r => exact ⟨r, rfl⟩
    | none =>
      exfalso
      apply getNodeFromWindow_none s w h status ws
      unfold wins
      exact List.mem_map.mpr ⟨nd, hmem, hw⟩
  · rintro ⟨ws, nd, hmem, hw⟩
    unfold getNodeFromWindow
    cases h : findInMap w s.m_mainStackByWorkspace eOrthoStatus.ORTHOSTATUS_MAIN
        s.m_mainStackByWorkspace.keys with
    | some r =>
      exact ⟨r, rfl, (findInMap_some w _ _ _ r h).1⟩
    | none =>
      exfalso
      exact findInMap_none_all w _ _ h ws nd hmem hw
  · unfold isWindowTiled
    rw [Option.isSome_iff_exists]

/-! ## Weight parsing -/

theorem parseOverrideWeightsLoop_some (stof : String → Option ℚ) (l : List String) :
    ∀ L : List ℚ, parseOverrideWeightsLoop stof l = some L ↔ l.map stof = L.map some := by
  induction l with
  | nil =>
    intro L
    cases L <;> simp [parseOverrideWeightsLoop]
  | cons t rest ih =>
    intro L
    unfold parseOverrideWeightsLoop
    cases ht : stof t with
    | none =>
      cases L <;> simp [ht]
    | some v =>
      cases hr : parseOverrideWeightsLoop stof rest with
      | none =>
        cases L with
        | nil => simp [ht]
        | cons a L' =>
          have := (ih L').not.mp (by rw [hr]; simp)
          simp [ht, this]
      | some ws =>
        have hws := (ih ws).mp hr
        cases L with
        | nil => simp [ht]
        | cons a L' =>
          simp only [ht, List.map_cons, Option.some.injEq, List.cons.injEq]
          constructor
          · rintro ⟨rfl, rfl⟩
            exact ⟨rfl, hws⟩
          · rintro ⟨rfl, h2⟩
            refine ⟨rfl, ?_⟩
            have := (ih L').mpr h2
            rw [hr] at this
            exact Option.some.inj this

theorem parseOverrideWeightsLoop_none (stof : String → Option ℚ) (l : List String) :
    parseOverrideWeightsLoop stof l = none ↔ ∃ t ∈ l, stof t = none := by
  induction l with
  | nil => simp [parseOverrideWeightsLoop]
  | cons t rest ih =>
    unfold parseOverrideWeightsLoop
    cases ht : stof t with
    | none => simp [ht]
    | some v =>
      cases hr : parseOverrideWeightsLoop stof rest with
      | none =>
        have := ih.mp hr
        simp [ht, this]
      | some ws =>
        have : ¬ ∃ t ∈ rest, stof t = none := fun h => by
          have := ih.mpr h
          rw [hr] at this
          cases this
        simp only [List.mem_cons, exists_eq_or_imp, ht, false_or]
        simp [this]

theorem toSizeT_toInt32 (n : Nat) (h : n < 2 ^ 31) : toSizeT (toInt32 (n : Int)) = n := by
  unfold toSizeT toInt32
  omega


/-- The tokens the parser reads, by index. -/
theorem considered_getElem? (tokens : List String) (start stop j : Nat) :
    ((tokens.take (min stop tokens.length)).drop start)[j]? =
      if start + j < min stop tokens.length then tokens[start + j]? else none := by
  rw [List.getElem?_drop, List.getElem?_take]

theorem parseOverrideWeights_some_iff (stof : String → Option ℚ) (tokens : List String)
    (start stop : Nat) (hstart : start < 2 ^ 31) (L : List ℚ) :
    parseOverrideWeights stof tokens start stop = some L ↔
      (L.length = min stop tokens.length - start ∧
        ∀ j, j < L.length → (tokens[start + j]?).bind stof = L[j]?) := by
  unfold parseOverrideWeights
  rw [toSizeT_toInt32 start hstart]
  have hlen : ((tokens.take (min stop tokens.length)).drop start).length
      = min stop tokens.length - start := by
    simp
  rw [parseOverrideWeightsLoop_some]
  constructor
  · intro h
    have hl : L.length = min stop tokens.length - start := by
      have := congrArg List.length h
      simp only [List.length_map] at this
      rw [← this, hlen]
    refine ⟨hl, ?_⟩
    intro j hj
    have hj' : start + j < min stop tokens.length := by omega
    have := congrArg (fun l => l[j]?) h
    simp only [List.getElem?_map, considered_getElem?, if_pos hj'] at this
    cases ht : tokens[start + j]? with
    | none =>
      rw [ht] at this
      cases hL : L[j]? with
      | none => rfl
      | some x => rw [hL] at this; simp at this
    | some t =>
      rw [ht] at this
      cases hL : L[j]? with
      | none => rw [hL] at this; simp at this
      | some x =>
        rw [hL] at this
        simp only [Option.map_some', Option.some.injEq] at this
        simpa using this
  · rintro ⟨hl, hpt⟩
    apply List.ext_getElem?
    intro j
    simp only [List.getElem?_map, considered_getElem?]
    by_cases hj : j < L.length
    · have hj' : start + j < min stop tokens.length := by omega
      rw [if_pos hj']
      have h1 := hpt j hj
      have hlt : start + j < tokens.length := by omega
      rw [List.getElem?_eq_getElem hlt] at h1 ⊢
      rw [List.getElem?_eq_getElem hj] at h1 ⊢
      simpa using h1
    · have hj' : ¬ start + j < min stop tokens.length := by omega
      rw [if_neg hj', List.getElem?_eq_none (by omega)]
      rfl

theorem parseOverrideWeights_none_iff (stof : String → Option ℚ) (tokens : List String)
    (start stop : Nat) (hstart : start < 2 ^ 31) :
    parseOverrideWeights stof tokens start stop = none ↔
      ∃ i, start ≤ i ∧ i < min stop tokens.length ∧ (tokens[i]?).bind stof = none := by
  unfold parseOverrideWeights
  rw [toSizeT_toInt32 start hstart]
  rw [parseOverrideWeightsLoop_none]
  constructor
  · rintro ⟨t, hmem, ht⟩
    obtain ⟨j, hj⟩ := List.mem_iff_getElem?.mp hmem
    rw [considered_getElem?] at hj
    by_cases hlt : start + j < min stop tokens.length
    · rw [if_pos hlt] at hj
      exact ⟨start + j, Nat.le_add_right _ _, hlt, by rw [hj]; exact ht⟩
    · rw [if_neg hlt] at hj
      cases hj
  · rintro ⟨i, h1, h2, h3⟩
    have hlt : i < tokens.length := by omega
    rw [List.getElem?_eq_getElem hlt] at h3
    refine ⟨tokens[i], ?_, h3⟩
    apply List.mem_iff_getElem?.mpr
    refine ⟨i - start, ?_⟩
    rw [considered_getElem?]
    have : start + (i - start) = i := by omega
    rw [this, if_pos h2, List.getElem?_eq_getElem hlt]

/-- C14: weight parsing is all-or-nothing.  The parser reads the tokens with index
in `[start, min(end, tokens.size()))`: it returns a list exactly when each of them
parses, and then the list has one value per token, in order; it returns nothing
exactly when one of them fails to parse. -/
theorem parse_all_or_nothing (stof : String → Option ℚ) (tokens : List String)
    (start stop : Nat) (hstart : start < 2 ^ 31) :
    (∀ L : List ℚ, parseOverrideWeights stof tokens start stop = some L ↔
      (L.length = min stop tokens.length - start ∧
        ∀ j, j < L.length → (tokens[start + j]?).bind stof = L[j]?)) ∧
    (parseOverrideWeights stof tokens start stop = none ↔
      ∃ i, start ≤ i ∧ i < min stop tokens.length ∧ (tokens[i]?).bind stof = none) :=
  ⟨parseOverrideWeights_some_iff stof tokens start stop hstart,
    parseOverrideWeights_none_iff stof tokens start stop hstart⟩


/-- Witness of C14: of the tokens `overridemainweights 2 1` read from index 1 the
parser returns the two values; with a token that does not parse in that range it
returns nothing. -/
theorem parse_all_or_nothing_witness :
    parseOverrideWeights exampleStof ["overridemainweights", "2", "1"] 1 3 = some [2, 1] ∧
    parseOverrideWeights exampleStof ["overridemainweights", "2", "x"] 1 3 = none ∧
    ((parseOverrideWeights exampleStof ["overridemainweights", "2", "x"] 1 3 = none ↔
      ∃ i, 1 ≤ i ∧ i < min 3 ["overridemainweights", "2", "x"].length ∧
        (["overridemainweights", "2", "x"][i]?).bind exampleStof = none)) :=
  ⟨by rfl, by rfl,
    (parse_all_or_nothing exampleStof ["overridemainweights", "2", "x"] 1 3 (by norm_num)).2⟩

/-- Counterexample to C15 as stated: the tokens `0` and `-1` parse, and the parser
returns their values, which are not positive. -/
theorem parse_positive_counterexample :
    ¬ (∀ L, parseOverrideWeights exampleStof ["0", "-1"] 0 2 = some L → ∀ v ∈ L, 0 < v) := by
  intro h
  have h0 := h [0, -1] (by rfl) 0 (by simp)
  exact lt_irrefl _ h0

/-- C15, amended: the parser makes no sign check.  A returned sequence holds
exactly the values `std::stof` gives for the tokens read, so its elements are
strictly positive if and only if each token read has a strictly positive
value. -/
theorem parse_values (stof : String → Option ℚ) (tokens : List String) (start stop : Nat)
    (hstart : start < 2 ^ 31) (L : List ℚ)
    (h : parseOverrideWeights stof tokens start stop = some L) :
    (∀ v, v ∈ L ↔
      ∃ i, start ≤ i ∧ i < min stop tokens.length ∧ (tokens[i]?).bind stof = some v) ∧
    ((∀ v ∈ L, 0 < v) ↔
      ∀ i, start ≤ i → i < min stop tokens.length →
        ∀ v, (tokens[i]?).bind stof = some v → 0 < v) := by
  obtain ⟨hl, hpt⟩ := (parseOverrideWeights_some_iff stof tokens start stop hstart L).mp h
  have hmem : ∀ v, v ∈ L ↔
      ∃ i, start ≤ i ∧ i < min stop tokens.length ∧ (tokens[i]?).bind stof = some v := by
    intro v
    constructor
    · intro hv
      obtain ⟨j, hj⟩ := List.mem_iff_getElem?.mp hv
      have hjl : j < L.length := by
        rcases Nat.lt_or_ge j L.length with h | h
        · exact h
        · rw [List.getElem?_eq_none h] at hj; cases hj
      exact ⟨start + j, Nat.le_add_right _ _, by omega, by rw [hpt j hjl, hj]⟩
    · rintro ⟨i, h1, h2, h3⟩
      have hjl : i - start < L.length := by omega
      have := hpt (i - start) hjl
      have e : start + (i - start) = i := by omega
      rw [e, h3] at this
      exact List.getElem?_mem this.symm
  refine ⟨hmem, ?_⟩
  constructor
  · intro hp i h1 h2 v hv
    exact hp v ((hmem v).mpr ⟨i, h1, h2, hv⟩)
  · intro hp v hv
    obtain ⟨i, h1, h2, h3⟩ := (hmem v).mp hv
    exact hp i h1 h2 v h3

/-- Witness of C15: the tokens `2` and `0.5` give the positive values 2 and 1/2. -/
theorem parse_values_witness :
    parseOverrideWeights exampleStof ["2", "0.5"] 0 2 = some [2, 1 / 2] ∧
    ((∀ v ∈ [2, (1 / 2 : ℚ)], 0 < v) ↔
      ∀ i, 0 ≤ i → i < min 2 ["2", "0.5"].length →
        ∀ v, (["2", "0.5"][i]?).bind exampleStof = some v → 0 < v) :=
  ⟨by rfl, (parse_values exampleStof ["2", "0.5"] 0 2 (by norm_num) [2, 1 / 2] (by rfl)).2⟩

/-! ## The workspace configuration store -/

/-- The entry built for a workspace that is not in the store, when `substr`
returns `inner`. -/
theorem getOrthoWorkspaceData_new {host : Host} {ws : WORKSPACEID} {s : COrthoLayout}
    {inner : String}
    (hnew : s.m_orthoWorkspaceDataByWorkspace.find ws = none)
    (hin : substr host.PMAINSTACKOVERRIDES 1
      ((host.PMAINSTACKOVERRIDES.length + 2 ^ 64 - 2) % 2 ^ 64) = some inner) :
    ∃ data : SOrthoWorkspaceData,
      getOrthoWorkspaceData host ws s = some (data,
        { s with m_orthoWorkspaceDataByWorkspace :=
                   s.m_orthoWorkspaceDataByWorkspace.set ws data }) ∧
      data.percMainStack = max (1 / 10) (min host.PMAINPERCENT (9 / 10)) ∧
      data.mainStackMin = toInt32 (if host.PMAINSTACKMIN ≤ 0 then 1 else host.PMAINSTACKMIN) ∧
      data.workspaceID = ws ∧
      data.mainSide = (if host.PMAINSIDE = "right" then eMainSide.MAIN_SIDE_RIGHT
                       else eMainSide.MAIN_SIDE_LEFT) ∧
      data.overrideMainWeights = (parseOverrideWeights host.stof (host.varListComma inner) 0
        (host.varListComma inner).length).isSome ∧
      data.mainWeightOverrides = (parseOverrideWeights host.stof (host.varListComma inner) 0
        (host.varListComma inner).length).getD [] := by
  unfold getOrthoWorkspaceData
  rw [hnew]
  simp only [hin]
  exact ⟨_, rfl, rfl, rfl, rfl, rfl, rfl, rfl⟩

/-- C16: the entry built for a workspace that is not in the store has the
configured percentage clamped to [0.1, 0.9], the configured minimum if it is at
least 1 and 1 otherwise, and main side right exactly for the side string
`right`. -/
theorem config_ranges (host : Host) (ws : WORKSPACEID) (s : COrthoLayout)
    (hnew : s.m_orthoWorkspaceDataByWorkspace.find ws = none)
    (hcfg : host.PMAINSTACKOVERRIDES ≠ "") (hrange : host.PMAINSTACKMIN < 2 ^ 31) :
    ∃ data s1, getOrthoWorkspaceData host ws s = some (data, s1) ∧
      s1.m_orthoWorkspaceDataByWorkspace.find ws = some data ∧
      data.percMainStack =
        (if host.PMAINPERCENT < 1 / 10 then 1 / 10
         else if 9 / 10 < host.PMAINPERCENT then 9 / 10 else host.PMAINPERCENT) ∧
      1 / 10 ≤ data.percMainStack ∧ data.percMainStack ≤ 9 / 10 ∧
      data.mainStackMin = (if 1 ≤ host.PMAINSTACKMIN then host.PMAINSTACKMIN else 1) ∧
      1 ≤ data.mainStackMin ∧
      (data.mainSide = eMainSide.MAIN_SIDE_RIGHT ↔ host.PMAINSIDE = "right") ∧
      (data.mainSide = eMainSide.MAIN_SIDE_LEFT ↔ host.PMAINSIDE ≠ "right") := by
  obtain ⟨inner, hin⟩ := substr_one_isSome host.PMAINSTACKOVERRIDES
    ((host.PMAINSTACKOVERRIDES.length + 2 ^ 64 - 2) % 2 ^ 64) hcfg
  obtain ⟨data, hD, hp, hm, _, hside, _, _⟩ := @getOrthoWorkspaceData_new host ws s inner hnew hin
  have hperc : data.percMainStack =
      (if host.PMAINPERCENT < 1 / 10 then 1 / 10
       else if 9 / 10 < host.PMAINPERCENT then 9 / 10 else host.PMAINPERCENT) := by
    rw [hp]
    by_cases h1 : host.PMAINPERCENT < 1 / 10
    · rw [if_pos h1, min_eq_left (by linarith), max_eq_left (le_of_lt h1)]
    · rw [if_neg h1]
      by_cases h2 : 9 / 10 < host.PMAINPERCENT
      · rw [if_pos h2, min_eq_right (le_of_lt h2), max_eq_right (by norm_num)]
      · rw [if_neg h2, min_eq_left (not_lt.mp h2), max_eq_right (not_lt.mp h1)]
  have hmin : data.mainStackMin
      = (if 1 ≤ host.PMAINSTACKMIN then host.PMAINSTACKMIN else 1) := by
    rw [hm]
    by_cases h1 : 1 ≤ host.PMAINSTACKMIN
    · have h0 : ¬ host.PMAINSTACKMIN ≤ 0 := by omega
      rw [if_pos h1, if_neg h0]
      exact toInt32_eq _ h1 hrange
    · have h0 : host.PMAINSTACKMIN ≤ 0 := by omega
      rw [if_neg h1, if_pos h0]
      rfl
  refine ⟨data, _, hD, ?_, hperc, ?_, ?_, hmin, ?_, ?_, ?_⟩
  · simp [UMap.find_set]
  · rw [hp]; exact le_max_left _ _
  · rw [hp]; exact max_le (by norm_num) (min_le_right _ _)
  · rw [hmin]; split <;> omega
  · rw [hside]; split <;> simp_all
  · rw [hside]; split <;> simp_all

/-- Witness of C16: percentage 0.5, minimum 0 and side `left` give 0.5, 1 and
left. -/
theorem config_ranges_witness :
    ∃ data s1, getOrthoWorkspaceData (exampleHost 0 "[]") 1 COrthoLayout.init = some (data, s1) ∧
      data.percMainStack = 1 / 2 ∧ data.mainStackMin = 1 ∧
      data.mainSide = eMainSide.MAIN_SIDE_LEFT := by
  obtain ⟨data, s1, h, _, hp, _, _, hm, _, _, hs⟩ :=
    config_ranges (exampleHost 0 "[]") 1 COrthoLayout.init rfl (by decide) (by decide)
  refine ⟨data, s1, h, ?_, ?_, ?_⟩
  · rw [hp]
    simp [exampleHost]
    norm_num
  · rw [hm]
    rfl
  · rw [hs]
    decide

/-! ## Cached configuration entries -/

theorem StoreKeeps.same (s : COrthoLayout) : StoreKeeps s s := fun _ _ h => h

theorem StoreKeeps.andThen {s s1 s2 : COrthoLayout} (h1 : StoreKeeps s s1) (h2 : StoreKeeps s1 s2) :
    StoreKeeps s s2 := fun ws d h => h2 ws d (h1 ws d h)

theorem storeKeeps_of_eq {s s' : COrthoLayout}
    (h : s'.m_orthoWorkspaceDataByWorkspace = s.m_orthoWorkspaceDataByWorkspace) :
    StoreKeeps s s' := by
  intro ws d hd
  rw [h]
  exact hd

theorem setStackOf_store (s : COrthoLayout) (status : eOrthoStatus) (ws : WORKSPACEID)
    (v : List SOrthoNodeData) :
    (setStackOf s status ws v).m_orthoWorkspaceDataByWorkspace
      = s.m_orthoWorkspaceDataByWorkspace := by
  cases status <;> rfl

theorem getOrthoWorkspaceData_keeps {host : Host} {ws : WORKSPACEID} {s s1 : COrthoLayout}
    {data : SOrthoWorkspaceData} (h : getOrthoWorkspaceData host ws s = some (data, s1)) :
    StoreKeeps s s1 := by
  unfold getOrthoWorkspaceData at h
  cases hf : s.m_orthoWorkspaceDataByWorkspace.find ws with
  | some d =>
    rw [hf] at h
    simp only [Option.some.injEq, Prod.mk.injEq] at h
    rw [← h.2]
    exact StoreKeeps.same s
  | none =>
    rw [hf] at h
    simp only at h
    split at h
    · simp at h
    · simp only [Option.some.injEq, Prod.mk.injEq] at h
      rw [← h.2]
      intro ws' d hd
      simp only [UMap.find_set]
      by_cases e : ws' = ws
      · rw [e, hf] at hd; cases hd
      · rw [if_neg e]; exact hd

theorem calculateWorkspace_store {host : Host} {pWorkspace : CWorkspace} {s s1 s' : COrthoLayout}
    {data : SOrthoWorkspaceData}
    (hD : getOrthoWorkspaceData host pWorkspace.m_id s = some (data, s1))
    (h : calculateWorkspace host pWorkspace s = some s') :
    s'.m_orthoWorkspaceDataByWorkspace = s1.m_orthoWorkspaceDataByWorkspace := by
  rw [calculateWorkspace_form hD] at h
  simp only [Option.some.injEq] at h
  rw [← h]
  split <;> rfl

theorem calculateWorkspace_keeps {host : Host} {pWorkspace : CWorkspace} {s s' : COrthoLayout}
    (h : calculateWorkspace host pWorkspace s = some s') : StoreKeeps s s' := by
  cases hD : getOrthoWorkspaceData host pWorkspace.m_id s with
  | none =>
    unfold calculateWorkspace at h
    simp [hD] at h
  | some ds =>
    obtain ⟨data, s1⟩ := ds
    exact (getOrthoWorkspaceData_keeps hD).andThen (storeKeeps_of_eq (calculateWorkspace_store hD h))

theorem recalculateMonitor_keeps {host : Host} {monid : MONITORID} {s s' : COrthoLayout}
    (h : recalculateMonitor host monid s = some s') : StoreKeeps s s' := by
  unfold recalculateMonitor at h
  cases hM : host.getMonitorFromID monid with
  | none =>
    simp only [hM, Option.some.injEq] at h
    subst h; exact StoreKeeps.same s
  | some PMONITOR =>
    cases hA : PMONITOR.m_activeWorkspace with
    | none =>
      simp only [hM, hA, Option.some.injEq] at h
      subst h; exact StoreKeeps.same s
    | some act =>
      cases hS : PMONITOR.m_activeSpecialWorkspace with
      | none =>
        simp only [hM, hA, hS] at h
        exact calculateWorkspace_keeps h
      | some special =>
        simp only [hM, hA, hS] at h
        cases h1 : calculateWorkspace host special s with
        | none => simp [h1] at h
        | some s1 =>
          simp only [h1] at h
          exact (calculateWorkspace_keeps h1).andThen (calculateWorkspace_keeps h)


/-- A relation that every returning `calculateWorkspace` satisfies holds between a
state and what the recompute inside a `try` block leaves. -/
theorem recalculateMonitorInTry_rel (host : Host) (R : COrthoLayout → COrthoLayout → Prop)
    (hrefl : ∀ s, R s s) (htrans : ∀ s s1 s2, R s s1 → R s1 s2 → R s s2)
    (hcalc : ∀ W s s', calculateWorkspace host W s = some s' → R s s')
    (monid : MONITORID) (s : COrthoLayout) :
    R s (recalculateMonitorInTry host monid s) := by
  unfold recalculateMonitorInTry
  cases hM : host.getMonitorFromID monid with
  | none => exact hrefl s
  | some PMONITOR =>
    simp only
    cases hA : PMONITOR.m_activeWorkspace with
    | none => exact hrefl s
    | some act =>
      simp only
      cases hS : PMONITOR.m_activeSpecialWorkspace with
      | none =>
        simp only
        cases h : calculateWorkspace host act s with
        | none => exact hrefl s
        | some s1 => exact hcalc _ _ _ h
      | some special =>
        simp only
        cases h : calculateWorkspace host special s with
        | none => exact hrefl s
        | some s1 =>
          simp only
          cases h2 : calculateWorkspace host act s1 with
          | none => exact hcalc _ _ _ h
          | some s2 => exact htrans _ _ _ (hcalc _ _ _ h) (hcalc _ _ _ h2)

theorem recalculateMonitorInTry_keeps (host : Host) (monid : MONITORID) (s : COrthoLayout) :
    StoreKeeps s (recalculateMonitorInTry host monid s) :=
  recalculateMonitorInTry_rel host StoreKeeps StoreKeeps.same
    (fun _ _ _ h1 h2 => h1.andThen h2) (fun _ _ _ h => calculateWorkspace_keeps h) monid s

theorem recalculateMonitorInTry_sameStacks (host : Host) (monid : MONITORID) (s : COrthoLayout) :
    SameStacks s (recalculateMonitorInTry host monid s) :=
  recalculateMonitorInTry_rel host SameStacks SameStacks.refl
    (fun _ _ _ h1 h2 => h1.trans h2) (fun _ _ _ h => calculateWorkspace_sameStacks h) monid s

theorem ite_store (c : Prop) [Decidable c] {a b s : COrthoLayout}
    (ha : a.m_orthoWorkspaceDataByWorkspace = s.m_orthoWorkspaceDataByWorkspace)
    (hb : b.m_orthoWorkspaceDataByWorkspace = s.m_orthoWorkspaceDataByWorkspace) :
    (if c then a else b).m_orthoWorkspaceDataByWorkspace
      = s.m_orthoWorkspaceDataByWorkspace := by
  split <;> assumption

theorem create_keeps {host : Host} {pWindow : CWindow} {s s' : COrthoLayout}
    (h : onWindowCreatedTiling host pWindow s = some s') : StoreKeeps s s' := by
  unfold onWindowCreatedTiling at h
  split at h
  · simp only [Option.some.injEq] at h
    subst h; exact StoreKeeps.same s
  · cases hD : getOrthoWorkspaceData host pWindow.workspaceID s with
    | none => simp [hD] at h
    | some ds =>
      obtain ⟨data, s1⟩ := ds
      simp only [hD] at h
      refine (getOrthoWorkspaceData_keeps hD).andThen (StoreKeeps.andThen ?_ (recalculateMonitor_keeps h))
      apply storeKeeps_of_eq
      exact ite_store _ (setStackOf_store _ _ _ _) (setStackOf_store _ _ _ _)

theorem remove_keeps {host : Host} {pWindow : CWindow} {s s' : COrthoLayout}
    (h : onWindowRemovedTiling host pWindow s = some s') : StoreKeeps s s' := by
  unfold onWindowRemovedTiling at h
  cases hf : getNodeFromWindow s pWindow.handle with
  | none =>
    simp only [hf, Option.some.injEq] at h
    subst h; exact StoreKeeps.same s
  | some r =>
    simp only [hf] at h
    have k := recalculateMonitor_keeps h
    exact fun ws d hd => k ws d hd

theorem switch_keeps {host : Host} {pWindowA pWindowB : CWindow} {s s' : COrthoLayout}
    (h : switchWindows host pWindowA pWindowB s = some s') : StoreKeeps s s' := by
  cases hA : getNodeFromWindow s pWindowA.handle with
  | none =>
    unfold switchWindows at h
    simp only [hA, Option.some.injEq] at h
    subst h; exact StoreKeeps.same s
  | some rA =>
    cases hB : getNodeFromWindow s pWindowB.handle with
    | none =>
      unfold switchWindows at h
      simp only [hA, hB, Option.some.injEq] at h
      subst h; exact StoreKeeps.same s
    | some rB =>
      obtain ⟨s2, _, hst, hsw⟩ := @switch_pre host pWindowA pWindowB s rA rB hA hB
      rw [hsw] at h
      cases h3 : recalculateMonitor host pWindowA.monitorID s2 with
      | none => rw [h3] at h; simp at h
      | some s3 =>
        rw [h3] at h
        simp only at h
        have k3 := (storeKeeps_of_eq hst).andThen (recalculateMonitor_keeps h3)
        split at h
        · exact k3.andThen (recalculateMonitor_keeps h)
        · simp only [Option.some.injEq] at h
          subst h; exact k3

theorem replace_keeps (pFrom pTo : CWindow) (s : COrthoLayout) :
    StoreKeeps s (replaceWindowDataWith pFrom pTo s) := by
  unfold replaceWindowDataWith
  cases getNodeFromWindow s pFrom.handle with
  | none => exact StoreKeeps.same s
  | some r => exact storeKeeps_of_eq (setStackOf_store _ _ _ _)

theorem move_keeps {host : Host} {pWindow : CWindow} {dir : String} {s s' : COrthoLayout}
    (h : moveWindowTo host pWindow dir s = some s') : StoreKeeps s s' := by
  unfold moveWindowTo at h
  split at h
  · simp only [Option.some.injEq] at h
    subst h; exact StoreKeeps.same s
  · cases hW : host.getWindowInDirection pWindow dir with
    | none =>
      simp only [hW, Option.some.injEq] at h
      subst h; exact StoreKeeps.same s
    | some w2 =>
      simp only [hW] at h
      split at h
      · cases hr : onWindowRemovedTiling host pWindow s with
        | none => simp [hr] at h
        | some s1 =>
          simp only [hr] at h
          exact (remove_keeps hr).andThen (create_keeps h)
      · exact switch_keeps h

theorem enable_loop_keeps (host : Host) (l : List CWindow) :
    ∀ (s s' : COrthoLayout), onEnableLoop host l s = some s' → StoreKeeps s s' := by
  induction l with
  | nil =>
    intro s s' h
    simp only [onEnableLoop, Option.some.injEq] at h
    subst h; exact StoreKeeps.same s
  | cons w rest ih =>
    intro s s' h
    unfold onEnableLoop at h
    split at h
    · exact ih s s' h
    · cases hc : onWindowCreatedTiling host w s with
      | none => simp [hc] at h
      | some s1 =>
        simp only [hc] at h
        exact (create_keeps hc).andThen (ih s1 s' h)

theorem adjust_keeps (host : Host) (header : SLayoutMessageHeader) (vars : List String)
    (s : COrthoLayout) : StoreKeeps s (messageAdjustWeight host header vars s) := by
  unfold messageAdjustWeight
  cases header.pWindow with
  | none => exact StoreKeeps.same s
  | some w =>
    simp only
    cases getNodeFromWindow s w.handle with
    | none => exact StoreKeeps.same s
    | some r =>
      simp only
      split
      · split
        · exact StoreKeeps.same s
        · exact StoreKeeps.andThen (storeKeeps_of_eq (setStackOf_store _ _ _ _))
            (recalculateMonitorInTry_keeps _ _ _)
      · split
        · split
          · exact StoreKeeps.same s
          · split
            · exact StoreKeeps.same s
            · exact StoreKeeps.andThen (storeKeeps_of_eq (setStackOf_store _ _ _ _))
                (recalculateMonitorInTry_keeps _ _ _)
        · exact StoreKeeps.same s


theorem runsTo_keeps {s s' : COrthoLayout} (h : RunsTo s s') : StoreKeeps s s' := by
  induction h with
  | refl s => exact StoreKeeps.same s
  | lookup _ h ih => exact ih.andThen (getOrthoWorkspaceData_keeps h)
  | calculate _ h ih => exact ih.andThen (calculateWorkspace_keeps h)
  | recalculate _ h ih => exact ih.andThen (recalculateMonitor_keeps h)
  | create _ h ih => exact ih.andThen (create_keeps h)
  | remove _ h ih => exact ih.andThen (remove_keeps h)
  | switch _ h ih => exact ih.andThen (switch_keeps h)
  | move _ h ih => exact ih.andThen (move_keeps h)
  | replace _ ih => exact ih.andThen (replace_keeps _ _ _)
  | enable _ h ih => exact ih.andThen (enable_loop_keeps _ _ _ _ h)
  | adjust _ ih => exact ih.andThen (adjust_keeps _ _ _ _)

/-- C17: a cached configuration entry is what the lookup returns, whatever the
global configuration values are at that moment, and the lookup leaves the engine
unchanged; the entry (so also an override list a runtime command stored in it) is
still returned after any further calls of the engine other than
`overridemainweights`; `onDisable` empties the store. -/
theorem config_cached (s : COrthoLayout) (ws : WORKSPACEID) (data : SOrthoWorkspaceData)
    (h : s.m_orthoWorkspaceDataByWorkspace.find ws = some data) :
    (∀ host, getOrthoWorkspaceData host ws s = some (data, s)) ∧
    (∀ s', RunsTo s s' → ∀ host, getOrthoWorkspaceData host ws s' = some (data, s')) ∧
    (∀ ws', (onDisable s).m_orthoWorkspaceDataByWorkspace.find ws' = none) := by
  refine ⟨fun host => getOrthoWorkspaceData_of_find host h, ?_, ?_⟩
  · intro s' hr host
    exact getOrthoWorkspaceData_of_find host (runsTo_keeps hr ws data h)
  · intro ws'
    rfl

/-- Witness of C17: an entry with the override list [2, 1] cached for workspace 1
is returned under a host whose configured minimum is 5 and whose
`main_weight_overrides` value is the empty string, also after an `adjustweight`
message; after `onDisable` the store has no entry for workspace 1. -/
theorem config_cached_witness :
    getOrthoWorkspaceData (exampleHost 5 "") 1
        (exampleLayout (exampleData eMainSide.MAIN_SIDE_LEFT true [2, 1]) [(7, 1)] [])
      = some (exampleData eMainSide.MAIN_SIDE_LEFT true [2, 1],
          exampleLayout (exampleData eMainSide.MAIN_SIDE_LEFT true [2, 1]) [(7, 1)] []) ∧
    (getOrthoWorkspaceData (exampleHost 5 "") 1
        (messageAdjustWeight (exampleHost 1 "[]") ⟨some (exampleWindow 7)⟩ ["adjustweight", "2"]
          (exampleLayout (exampleData eMainSide.MAIN_SIDE_LEFT true [2, 1]) [(7, 1)] []))).map
        Prod.fst = some (exampleData eMainSide.MAIN_SIDE_LEFT true [2, 1]) ∧
    (onDisable (exampleLayout (exampleData eMainSide.MAIN_SIDE_LEFT true [2, 1])
        [(7, 1)] [])).m_orthoWorkspaceDataByWorkspace.find 1 = none := by
  obtain ⟨h1, h2, h3⟩ := config_cached
    (exampleLayout (exampleData eMainSide.MAIN_SIDE_LEFT true [2, 1]) [(7, 1)] []) 1
    (exampleData eMainSide.MAIN_SIDE_LEFT true [2, 1]) rfl
  refine ⟨h1 _, ?_, h3 1⟩
  rw [h2 _ (RunsTo.adjust (RunsTo.refl _)) (exampleHost 5 "")]
  rfl

/-! ## Configured overrides -/

theorem parseOverrideWeights_all (stof : String → Option ℚ) (tokens : List String) :
    parseOverrideWeights stof tokens 0 tokens.length = parseOverrideWeightsLoop stof tokens := by
  unfold parseOverrideWeights
  have h0 : toSizeT (toInt32 ((0 : Nat) : Int)) = 0 := toSizeT_toInt32 0 (by norm_num)
  rw [h0]
  simp

/-- With a non-empty `main_weight_overrides` value the entry built for a workspace
that is not in the store has overrides enabled with list `L` exactly when every
comma-separated token of the value without its first and last character parses,
`L` being the parsed values. -/
theorem constructed_overrides (host : Host) (ws : WORKSPACEID) (s : COrthoLayout)
    (hnew : s.m_orthoWorkspaceDataByWorkspace.find ws = none)
    (hcfg : host.PMAINSTACKOVERRIDES ≠ "") (hlen : host.PMAINSTACKOVERRIDES.length < 2 ^ 64) :
    ∃ data s1, getOrthoWorkspaceData host ws s = some (data, s1) ∧
      (∀ L, (data.overrideMainWeights = true ∧ data.mainWeightOverrides = L) ↔
        (host.varListComma (String.mk (host.PMAINSTACKOVERRIDES.data.drop 1).dropLast)).map
          host.stof = L.map some) ∧
      (data.overrideMainWeights = false ↔
        ∃ t ∈ host.varListComma (String.mk (host.PMAINSTACKOVERRIDES.data.drop 1).dropLast),
          host.stof t = none) := by
  have hpos : 0 < host.PMAINSTACKOVERRIDES.length := by
    rcases Nat.eq_zero_or_pos host.PMAINSTACKOVERRIDES.length with h0 | h0
    · exfalso
      apply hcfg
      exact String.ext (List.length_eq_zero.mp h0)
    · exact h0
  have hin : substr host.PMAINSTACKOVERRIDES 1
      ((host.PMAINSTACKOVERRIDES.length + 2 ^ 64 - 2) % 2 ^ 64)
      = some (String.mk (host.PMAINSTACKOVERRIDES.data.drop 1).dropLast) := by
    have hn : ¬ 1 > host.PMAINSTACKOVERRIDES.length := by omega
    have hl : host.PMAINSTACKOVERRIDES.data.length = host.PMAINSTACKOVERRIDES.length := rfl
    have hcount : (host.PMAINSTACKOVERRIDES.data.drop 1).length - 1 ≤
        (host.PMAINSTACKOVERRIDES.length + 2 ^ 64 - 2) % 2 ^ 64 ∧
        ((host.PMAINSTACKOVERRIDES.length + 2 ^ 64 - 2) % 2 ^ 64
            = (host.PMAINSTACKOVERRIDES.data.drop 1).length - 1 ∨
          (host.PMAINSTACKOVERRIDES.data.drop 1).length = 0) := by
      rw [List.length_drop, hl]
      omega
    generalize (host.PMAINSTACKOVERRIDES.length + 2 ^ 64 - 2) % 2 ^ 64 = count at hcount
    unfold substr
    rw [if_neg hn]
    congr 2
    rw [List.dropLast_eq_take]
    rcases hcount.2 with h | h
    · rw [h]
    · rw [List.length_eq_zero.mp h]
      simp
  obtain ⟨data, hD, _, _, _, _, hflag, hlist⟩ :=
    @getOrthoWorkspaceData_new host ws s _ hnew hin
  refine ⟨data, _, hD, ?_, ?_⟩
  · intro L
    rw [hflag, hlist, parseOverrideWeights_all, ← parseOverrideWeightsLoop_some]
    cases parseOverrideWeightsLoop host.stof
        (host.varListComma (String.mk (host.PMAINSTACKOVERRIDES.data.drop 1).dropLast)) with
    | none => simp
    | some L' => simp
  · rw [hflag, parseOverrideWeights_all, ← parseOverrideWeightsLoop_none]
    cases parseOverrideWeightsLoop host.stof
        (host.varListComma (String.mk (host.PMAINSTACKOVERRIDES.data.drop 1).dropLast)) with
    | none => simp
    | some L' => simp

/-- C18, the code at the failing input: with the registered defaults (side `left`,
percentage 0.5, minimum 1, `main_weight_overrides` the empty string) the lookup of
a workspace that is not in the store builds no entry: `substr(1, ...)` on the empty
string throws.  The exception leaves `calculateWorkspace` and
`onWindowCreatedTiling` as well. -/
theorem default_overrides_throw :
    getOrthoWorkspaceData (exampleHost 1 "") 1 COrthoLayout.init = none ∧
    calculateWorkspace (exampleHost 1 "") exampleWorkspace COrthoLayout.init = none ∧
    onWindowCreatedTiling (exampleHost 1 "") (exampleWindow 7) COrthoLayout.init = none :=
  ⟨by rfl, by rfl, by rfl⟩

/-! ## The message adjustweight -/

theorem setNodeWeight_core (s : COrthoLayout) (r : SNodeLookupResult) (v : ℚ)
    (status : eOrthoStatus) (ws : WORKSPACEID) :
    coreStack (setNodeWeight s r v) status ws =
      if status = r.status ∧ ws = r.ws then
        (coreStack s status ws).set r.idx { r.nd.stripGeometry with weight := v }
      else coreStack s status ws := by
  unfold coreStack setNodeWeight
  rw [stackOf_setStackOf]
  split
  · next hc =>
    rw [hc.1, hc.2, List.map_set]
    rfl
  · rfl

/-- C19: for a tiled target window, `adjustweight <d>` with a number `d` adds its
value to the weight of the window's node and `adjustweight exact <d>` sets the
weight to it; every other slot of every stack keeps its node, and the node keeps
its window.  With a malformed number, or with a second token other than `exact`
in a three-token message, the engine state is returned as it was (no weight
changes, no recompute). -/
theorem adjust_weight (host : Host) (pWindow : CWindow) (s : COrthoLayout)
    (r : SNodeLookupResult) (hfind : getNodeFromWindow s pWindow.handle = some r)
    (cmd d : String) :
    (coreStack s r.status r.ws)[r.idx]? = some r.nd.stripGeometry ∧
    (∀ v, host.stof d = some v →
      (∀ status ws,
        coreStack (messageAdjustWeight host ⟨some pWindow⟩ [cmd, d] s) status ws =
          if status = r.status ∧ ws = r.ws then
            (coreStack s status ws).set r.idx
              { r.nd.stripGeometry with weight := r.nd.weight + v }
          else coreStack s status ws) ∧
      (∀ status ws,
        coreStack (messageAdjustWeight host ⟨some pWindow⟩ [cmd, "exact", d] s) status ws =
          if status = r.status ∧ ws = r.ws then
            (coreStack s status ws).set r.idx { r.nd.stripGeometry with weight := v }
          else coreStack s status ws)) ∧
    (host.stof d = none →
      messageAdjustWeight host ⟨some pWindow⟩ [cmd, d] s = s ∧
      messageAdjustWeight host ⟨some pWindow⟩ [cmd, "exact", d] s = s) ∧
    (∀ t, t ≠ "exact" → messageAdjustWeight host ⟨some pWindow⟩ [cmd, t, d] s = s) := by
  refine ⟨?_, ?_, ?_, ?_⟩
  · have := (lookup_slot hfind).1
    simp [coreStack, this]
  · intro v hv
    constructor
    · intro status ws
      have e : messageAdjustWeight host ⟨some pWindow⟩ [cmd, d] s =
          recalculateMonitorInTry host pWindow.monitorID
            (setNodeWeight s r (r.nd.weight + v)) := by
        simp [messageAdjustWeight, hfind, hv]
      rw [e, recalculateMonitorInTry_sameStacks host _ _ status ws, setNodeWeight_core]
    · intro status ws
      have e : messageAdjustWeight host ⟨some pWindow⟩ [cmd, "exact", d] s =
          recalculateMonitorInTry host pWindow.monitorID (setNodeWeight s r v) := by
        simp [messageAdjustWeight, hfind, hv]
      rw [e, recalculateMonitorInTry_sameStacks host _ _ status ws, setNodeWeight_core]
  · intro hv
    constructor
    · simp [messageAdjustWeight, hfind, hv]
    · simp [messageAdjustWeight, hfind, hv]
  · intro t ht
    simp [messageAdjustWeight, hfind, ht]

/-- Witness of C19: on main stack [7 (weight 1)] and secondary stack [8 (weight 1)]
the message `adjustweight 2` for window 7 gives weight 3 to its node and leaves
the node of 8 alone; `adjustweight exact 2` gives weight 2; `adjustweight x` and
`adjustweight set 2` change nothing. -/
theorem adjust_weight_witness :
    coreStack (messageAdjustWeight (exampleHost 1 "[]") ⟨some (exampleWindow 7)⟩
        ["adjustweight", "2"]
        (exampleLayout (exampleData eMainSide.MAIN_SIDE_LEFT false []) [(7, 1)] [(8, 1)]))
      eOrthoStatus.ORTHOSTATUS_MAIN 1 = [{ pWindow := 7, weight := 3 }] ∧
    coreStack (messageAdjustWeight (exampleHost 1 "[]") ⟨some (exampleWindow 7)⟩
        ["adjustweight", "2"]
        (exampleLayout (exampleData eMainSide.MAIN_SIDE_LEFT false []) [(7, 1)] [(8, 1)]))
      eOrthoStatus.ORTHOSTATUS_SECONDARY 1 = [{ pWindow := 8, weight := 1 }] ∧
    coreStack (messageAdjustWeight (exampleHost 1 "[]") ⟨some (exampleWindow 7)⟩
        ["adjustweight", "exact", "2"]
        (exampleLayout (exampleData eMainSide.MAIN_SIDE_LEFT false []) [(7, 1)] [(8, 1)]))
      eOrthoStatus.ORTHOSTATUS_MAIN 1 = [{ pWindow := 7, weight := 2 }] ∧
    messageAdjustWeight (exampleHost 1 "[]") ⟨some (exampleWindow 7)⟩ ["adjustweight", "x"]
        (exampleLayout (exampleData eMainSide.MAIN_SIDE_LEFT false []) [(7, 1)] [(8, 1)])
      = exampleLayout (exampleData eMainSide.MAIN_SIDE_LEFT false []) [(7, 1)] [(8, 1)] ∧
    messageAdjustWeight (exampleHost 1 "[]") ⟨some (exampleWindow 7)⟩
        ["adjustweight", "set", "2"]
        (exampleLayout (exampleData eMainSide.MAIN_SIDE_LEFT false []) [(7, 1)] [(8, 1)])
      = exampleLayout (exampleData eMainSide.MAIN_SIDE_LEFT false []) [(7, 1)] [(8, 1)] := by
  have hf : getNodeFromWindow
      (exampleLayout (exampleData eMainSide.MAIN_SIDE_LEFT false []) [(7, 1)] [(8, 1)])
      (exampleWindow 7).handle
      = some ⟨0, { pWindow := 7, weight := 1 }, 1, eOrthoStatus.ORTHOSTATUS_MAIN⟩ := by rfl
  obtain ⟨_, h2, _, h4⟩ := adjust_weight (exampleHost 1 "[]") (exampleWindow 7) _ _ hf
    "adjustweight" "2"
  obtain ⟨_, _, h3, _⟩ := adjust_weight (exampleHost 1 "[]") (exampleWindow 7) _ _ hf
    "adjustweight" "x"
  obtain ⟨ha, he⟩ := h2 2 (by rfl)
  refine ⟨?_, ?_, ?_, (h3 (by rfl)).1, h4 "set" (by decide)⟩
  · rw [ha]
    simp [coreStack, (stackOf_exampleLayout _ _ _).1, SOrthoNodeData.stripGeometry]
    norm_num
  · rw [ha]
    simp [coreStack, (stackOf_exampleLayout _ _ _).2, SOrthoNodeData.stripGeometry]
  · rw [he]
    simp [coreStack, (stackOf_exampleLayout _ _ _).1, SOrthoNodeData.stripGeometry]

/-! ## The message overridemainweights -/

theorem parseOverrideWeights_from_one (stof : String → Option ℚ) (cmd : String)
    (ts : List String) :
    parseOverrideWeights stof (cmd :: ts) 1 (cmd :: ts).length
      = parseOverrideWeightsLoop stof ts := by
  unfold parseOverrideWeights
  have h1 : toSizeT (toInt32 ((1 : Nat) : Int)) = 1 := toSizeT_toInt32 1 (by norm_num)
  rw [h1]
  simp

/-- The lookup reads the configuration store only. -/
theorem getOrthoWorkspaceData_main (host : Host) (ws : WORKSPACEID) (s : COrthoLayout)
    (m : UMap (List SOrthoNodeData)) :
    getOrthoWorkspaceData host ws { s with m_mainStackByWorkspace := m } =
      (getOrthoWorkspaceData host ws s).map
        (fun r => (r.1, { r.2 with m_mainStackByWorkspace := m })) := by
  unfold getOrthoWorkspaceData
  cases s.m_orthoWorkspaceDataByWorkspace.find ws with
  | some d => rfl
  | none =>
    simp only
    cases substr host.PMAINSTACKOVERRIDES 1
        ((host.PMAINSTACKOVERRIDES.length + 2 ^ 64 - 2) % 2 ^ 64) with
    | none => rfl
    | some inner => rfl

/-- C20: the message `overridemainweights t1 .. tn`.  The handler returns; if every
token parses, the workspace's entry afterwards is the entry the lookup gave with
overrides enabled and the override list replaced by the parsed values in order; if
a token fails to parse, the entry is the one the lookup gave.  In both cases every
node stays in its slot with its weight, and the state returned is the result of
the recompute of the window's monitor. -/
theorem override_main_weights (host : Host) (pWindow : CWindow) (cmd : String)
    (ts : List String) (s : COrthoLayout) (hcfg : host.PMAINSTACKOVERRIDES ≠ "") :
    ∃ data s1 s2 s', getOrthoWorkspaceData host pWindow.workspaceID s = some (data, s1) ∧
      messageOverrideMainWeights host ⟨some pWindow⟩ (cmd :: ts) s = some s' ∧
      SameStacks s s' ∧
      (∀ L, ts.map host.stof = L.map some →
        s'.m_orthoWorkspaceDataByWorkspace.find pWindow.workspaceID =
          some { data with overrideMainWeights := true, mainWeightOverrides := L }) ∧
      ((∃ t ∈ ts, host.stof t = none) →
        s'.m_orthoWorkspaceDataByWorkspace.find pWindow.workspaceID = some data) ∧
      SameStacks s s2 ∧ recalculateMonitor host pWindow.monitorID s2 = some s' := by
  obtain ⟨data, s1, hD, hm1, hs1⟩ := getOrthoWorkspaceData_some host pWindow.workspaceID s hcfg
  have hfind1 := getOrthoWorkspaceData_cached hD
  -- the state handed to the recompute
  let m0 := s.m_mainStackByWorkspace.set pWindow.workspaceID
    (s.m_mainStackByWorkspace.get pWindow.workspaceID)
  let s1' : COrthoLayout :=
    ⟨s1.m_orthoWorkspaceDataByWorkspace, m0, s1.m_secondaryStackByWorkspace⟩
  let s2 : COrthoLayout :=
    match parseOverrideWeightsLoop host.stof ts with
    | some overrides =>
      ⟨s1.m_orthoWorkspaceDataByWorkspace.set pWindow.workspaceID
          { data with overrideMainWeights := true, mainWeightOverrides := overrides },
        m0, s1.m_secondaryStackByWorkspace⟩
    | none => s1'
  have hmsg : messageOverrideMainWeights host ⟨some pWindow⟩ (cmd :: ts) s
      = recalculateMonitor host pWindow.monitorID s2 := by
    unfold messageOverrideMainWeights
    simp only [getOrthoWorkspaceData_main, hD, Option.map_some', parseOverrideWeights_from_one]
  have hs2 : SameStacks s s2 := by
    have hcore : ∀ t : COrthoLayout,
        t.m_mainStackByWorkspace = s1'.m_mainStackByWorkspace →
        t.m_secondaryStackByWorkspace = s1'.m_secondaryStackByWorkspace → SameStacks s t := by
      intro t e1 e2
      refine sameStacks_of_get ?_ ?_ <;> intro ws
      · rw [e1]
        simp [s1', m0, UMap.get_set_get]
      · rw [e2]
        simp [s1', hs1]
    show SameStacks s (match parseOverrideWeightsLoop host.stof ts with
      | some overrides => _
      | none => s1')
    cases parseOverrideWeightsLoop host.stof ts with
    | none => exact hcore _ rfl rfl
    | some L => exact hcore _ rfl rfl
  obtain ⟨s', hr, hf⟩ := recalculateMonitor_frame host pWindow.monitorID s2 hcfg
  have hk := recalculateMonitor_keeps hr
  refine ⟨data, s1, s2, s', hD, hmsg.trans hr, hs2.trans hf, ?_, ?_, hs2, hr⟩
  · intro L hL
    have hp := (parseOverrideWeightsLoop_some host.stof ts L).mpr hL
    apply hk
    show (match parseOverrideWeightsLoop host.stof ts with
      | some overrides => _
      | none => s1').m_orthoWorkspaceDataByWorkspace.find pWindow.workspaceID = _
    rw [hp]
    simp [UMap.find_set]
  · intro hfail
    have hp := (parseOverrideWeightsLoop_none host.stof ts).mpr hfail
    apply hk
    show (match parseOverrideWeightsLoop host.stof ts with
      | some overrides => _
      | none => s1').m_orthoWorkspaceDataByWorkspace.find pWindow.workspaceID = _
    rw [hp]
    exact hfind1


/-- Witness of C20 (Scenario E): `overridemainweights 2 1` on a workspace without
overrides stores the enabled list [2, 1] and keeps the three main nodes;
`overridemainweights 2 x` leaves the entry as it was. -/
theorem override_main_weights_witness :
    (∃ s', messageOverrideMainWeights (exampleHost 1 "[]") ⟨some (exampleWindow 7)⟩
        ["overridemainweights", "2", "1"]
        (exampleLayout (exampleData eMainSide.MAIN_SIDE_LEFT false []) [(7, 5), (8, 1), (9, 1)] [])
        = some s' ∧
      s'.m_orthoWorkspaceDataByWorkspace.find 1
        = some (exampleData eMainSide.MAIN_SIDE_LEFT true [2, 1]) ∧
      coreStack s' eOrthoStatus.ORTHOSTATUS_MAIN 1
        = [{ pWindow := 7, weight := 5 }, { pWindow := 8, weight := 1 },
            { pWindow := 9, weight := 1 }]) ∧
    (∃ s', messageOverrideMainWeights (exampleHost 1 "[]") ⟨some (exampleWindow 7)⟩
        ["overridemainweights", "2", "x"]
        (exampleLayout (exampleData eMainSide.MAIN_SIDE_LEFT false []) [(7, 5), (8, 1), (9, 1)] [])
        = some s' ∧
      s'.m_orthoWorkspaceDataByWorkspace.find 1
        = some (exampleData eMainSide.MAIN_SIDE_LEFT false [])) := by
  constructor
  · obtain ⟨data, s1, s2, s', hD, hm, hss, hok, _, _, _⟩ :=
      override_main_weights (exampleHost 1 "[]") (exampleWindow 7) "overridemainweights"
        ["2", "1"]
        (exampleLayout (exampleData eMainSide.MAIN_SIDE_LEFT false []) [(7, 5), (8, 1), (9, 1)] [])
        (by decide)
    have hdata : data = exampleData eMainSide.MAIN_SIDE_LEFT false [] := by
      have h0 : getOrthoWorkspaceData (exampleHost 1 "[]") (exampleWindow 7).workspaceID
          (exampleLayout (exampleData eMainSide.MAIN_SIDE_LEFT false [])
            [(7, 5), (8, 1), (9, 1)] [])
          = some (exampleData eMainSide.MAIN_SIDE_LEFT false [], _) := rfl
      rw [h0] at hD
      simp only [Option.some.injEq, Prod.mk.injEq] at hD
      exact hD.1.symm
    refine ⟨s', hm, ?_, ?_⟩
    · have := hok [2, 1] (by rfl)
      rw [hdata] at this
      exact this
    · rw [hss eOrthoStatus.ORTHOSTATUS_MAIN 1]
      simp [coreStack, (stackOf_exampleLayout _ _ _).1, SOrthoNodeData.stripGeometry]
  · obtain ⟨data, s1, s2, s', hD, hm, _, _, hfail, _, _⟩ :=
      override_main_weights (exampleHost 1 "[]") (exampleWindow 7) "overridemainweights"
        ["2", "x"]
        (exampleLayout (exampleData eMainSide.MAIN_SIDE_LEFT false []) [(7, 5), (8, 1), (9, 1)] [])
        (by decide)
    have hdata : data = exampleData eMainSide.MAIN_SIDE_LEFT false [] := by
      have h0 : getOrthoWorkspaceData (exampleHost 1 "[]") (exampleWindow 7).workspaceID
          (exampleLayout (exampleData eMainSide.MAIN_SIDE_LEFT false [])
            [(7, 5), (8, 1), (9, 1)] [])
          = some (exampleData eMainSide.MAIN_SIDE_LEFT false [], _) := rfl
      rw [h0] at hD
      simp only [Option.some.injEq, Prod.mk.injEq] at hD
      exact hD.1.symm
    refine ⟨s', hm, ?_⟩
    have := hfail ⟨"x", by simp, by rfl⟩
    rw [hdata] at this
    exact this

/-! ## Weights after adjustweight -/

theorem messageAdjustWeight_relative {host : Host} {pWindow : CWindow} {s : COrthoLayout}
    {r : SNodeLookupResult} (hfind : getNodeFromWindow s pWindow.handle = some r)
    (cmd d : String) {v : ℚ} (hv : host.stof d = some v) :
    messageAdjustWeight host ⟨some pWindow⟩ [cmd, d] s =
      recalculateMonitorInTry host pWindow.monitorID (setNodeWeight s r (r.nd.weight + v)) := by
  simp [messageAdjustWeight, hfind, hv]

theorem messageAdjustWeight_exact {host : Host} {pWindow : CWindow} {s : COrthoLayout}
    {r : SNodeLookupResult} (hfind : getNodeFromWindow s pWindow.handle = some r)
    (cmd d : String) {v : ℚ} (hv : host.stof d = some v) :
    messageAdjustWeight host ⟨some pWindow⟩ [cmd, "exact", d] s =
      recalculateMonitorInTry host pWindow.monitorID (setNodeWeight s r v) := by
  simp [messageAdjustWeight, hfind, hv]

theorem coreStack_init (status : eOrthoStatus) (ws : WORKSPACEID) :
    coreStack COrthoLayout.init status ws = [] := by
  cases status <;> rfl

theorem strip_strip (nd : SOrthoNodeData) : nd.stripGeometry.stripGeometry = nd.stripGeometry :=
  rfl

theorem mainTotalWeight_core (b : Bool) (O : List ℚ) (s : COrthoLayout) (status : eOrthoStatus)
    (ws : WORKSPACEID) :
    mainTotalWeight b O (stackOf s status ws) = mainTotalWeight b O (coreStack s status ws) := by
  apply mainTotalWeight_congr
  simp [coreStack, Function.comp_def, strip_strip]

/-- C21, the code at the failing input: after the first window 7 is created (weight
1), the message `adjustweight -1` leaves its node with weight 0 and
`adjustweight exact -1` with weight -1; with weight 0 the total weight that
`calculateWorkspace` divides by is 0. -/
theorem weight_not_positive :
    ∃ s1, onWindowCreatedTiling (exampleHostStof 1 "[]") (exampleWindow 7) COrthoLayout.init
        = some s1 ∧
      (coreStack (messageAdjustWeight (exampleHostStof 1 "[]") ⟨some (exampleWindow 7)⟩
          ["adjustweight", "-1"] s1) eOrthoStatus.ORTHOSTATUS_MAIN 1).map
        (fun nd => (nd.pWindow, nd.weight)) = [(7, 0)] ∧
      (coreStack (messageAdjustWeight (exampleHostStof 1 "[]") ⟨some (exampleWindow 7)⟩
          ["adjustweight", "exact", "-1"] s1) eOrthoStatus.ORTHOSTATUS_MAIN 1).map
        (fun nd => (nd.pWindow, nd.weight)) = [(7, -1)] ∧
      mainTotalWeight false []
        (stackOf (messageAdjustWeight (exampleHostStof 1 "[]") ⟨some (exampleWindow 7)⟩
          ["adjustweight", "-1"] s1) eOrthoStatus.ORTHOSTATUS_MAIN 1) = 0 := by
  obtain ⟨s1, hc⟩ : ∃ s1, onWindowCreatedTiling (exampleHostStof 1 "[]") (exampleWindow 7)
      COrthoLayout.init = some s1 := ⟨_, rfl⟩
  have hcore : ∀ status ws, coreStack s1 status ws =
      if status = eOrthoStatus.ORTHOSTATUS_MAIN ∧ ws = 1 then [{ pWindow := 7, weight := 1 }]
      else [] := by
    rcases create_core hc with h | ⟨_, target, h⟩
    · exact absurd h.1 (by decide)
    · have hlen : (coreStack s1 eOrthoStatus.ORTHOSTATUS_MAIN 1).length = 1 := by
        rw [coreStack_length]
        have := hc
        cases this
        decide
      intro status ws
      rw [h]
      cases target
      · rw [coreStack_init]
        rfl
      · exfalso
        rw [h] at hlen
        simp [coreStack_init] at hlen
  obtain ⟨r, hfind⟩ : ∃ r, getNodeFromWindow s1 (exampleWindow 7).handle = some r := by
    cases h : getNodeFromWindow s1 (exampleWindow 7).handle with
    | some r => exact ⟨r, rfl⟩
    | none =>
      exfalso
      have h1 := getNodeFromWindow_none s1 _ h eOrthoStatus.ORTHOSTATUS_MAIN 1
      apply h1
      have : wins s1 eOrthoStatus.ORTHOSTATUS_MAIN 1
          = (coreStack s1 eOrthoStatus.ORTHOSTATUS_MAIN 1).map (fun nd => nd.pWindow) := by
        simp [wins, coreStack, SOrthoNodeData.stripGeometry, Function.comp_def]
      rw [this, hcore]
      decide
  have hslot := (lookup_slot hfind).1
  have hrs : r.status = eOrthoStatus.ORTHOSTATUS_MAIN ∧ r.ws = 1 := by
    by_contra hne
    have := hcore r.status r.ws
    rw [if_neg hne] at this
    have hm := List.getElem?_mem hslot
    have hm' : r.nd.stripGeometry ∈ coreStack s1 r.status r.ws :=
      List.mem_map.mpr ⟨r.nd, hm, rfl⟩
    rw [this] at hm'
    cases hm'
  have hcs : (coreStack s1 r.status r.ws)[r.idx]? = some r.nd.stripGeometry := by
    simp [coreStack, hslot]
  rw [hrs.1, hrs.2, hcore, if_pos ⟨rfl, rfl⟩] at hcs
  have hidx : r.idx = 0 := by
    rcases Nat.eq_zero_or_pos r.idx with h0 | h0
    · exact h0
    · rw [List.getElem?_eq_none (by simpa using h0)] at hcs
      cases hcs
  rw [hidx] at hcs
  simp only [List.getElem?_cons_zero, Option.some.injEq] at hcs
  have hw : r.nd.weight = 1 := by
    have := congrArg (fun nd : SOrthoNodeData => nd.weight) hcs
    simpa [SOrthoNodeData.stripGeometry] using this.symm
  have hrel : ∀ status ws,
      coreStack (messageAdjustWeight (exampleHostStof 1 "[]") ⟨some (exampleWindow 7)⟩
        ["adjustweight", "-1"] s1) status ws
      = if status = r.status ∧ ws = r.ws then
          (coreStack s1 status ws).set r.idx
            { r.nd.stripGeometry with weight := r.nd.weight + (-1) }
        else coreStack s1 status ws := by
    intro status ws
    rw [messageAdjustWeight_relative hfind "adjustweight" "-1" (by rfl),
      recalculateMonitorInTry_sameStacks _ _ _ status ws, setNodeWeight_core]
  have hex : ∀ status ws,
      coreStack (messageAdjustWeight (exampleHostStof 1 "[]") ⟨some (exampleWindow 7)⟩
        ["adjustweight", "exact", "-1"] s1) status ws
      = if status = r.status ∧ ws = r.ws then
          (coreStack s1 status ws).set r.idx { r.nd.stripGeometry with weight := -1 }
        else coreStack s1 status ws := by
    intro status ws
    rw [messageAdjustWeight_exact hfind "adjustweight" "-1" (by rfl),
      recalculateMonitorInTry_sameStacks _ _ _ status ws, setNodeWeight_core]
  have h1 : coreStack (messageAdjustWeight (exampleHostStof 1 "[]") ⟨some (exampleWindow 7)⟩
        ["adjustweight", "-1"] s1) eOrthoStatus.ORTHOSTATUS_MAIN 1
      = [{ pWindow := 7, weight := 0 }] := by
    rw [hrel, hrs.1, hrs.2, if_pos ⟨rfl, rfl⟩, hcore, if_pos ⟨rfl, rfl⟩, hidx, ← hcs, hw]
    simp
  refine ⟨s1, hc, ?_, ?_, ?_⟩
  · rw [h1]
    rfl
  · rw [hex, hrs.1, hrs.2, if_pos ⟨rfl, rfl⟩, hcore, if_pos ⟨rfl, rfl⟩, hidx, ← hcs]
    simp
  · rw [mainTotalWeight_core, h1]
    simp [mainTotalWeight]

/-! ## The minimum in the promotion test -/

/-- C22, the code at the failing input: with `main_stack_min = 0` the placement
test of Create uses 1 (the first window goes to the main stack) and the stored
configuration holds 1, but the promotion test of Remove uses 0: removing the only
main window 7 while the secondary stack holds 8 promotes nothing and leaves the
main stack empty. -/
theorem remove_minimum_zero :
    (∃ s1, onWindowCreatedTiling (exampleHost 0 "[]") (exampleWindow 7) COrthoLayout.init
        = some s1 ∧
      wins s1 eOrthoStatus.ORTHOSTATUS_MAIN 1 = [7] ∧
      (s1.m_orthoWorkspaceDataByWorkspace.find 1).map (fun d => d.mainStackMin) = some 1) ∧
    ∃ s', onWindowRemovedTiling (exampleHost 0 "[]") (exampleWindow 7) (exampleState [7] [8])
        = some s' ∧
      wins s' eOrthoStatus.ORTHOSTATUS_MAIN 1 = [] ∧
      wins s' eOrthoStatus.ORTHOSTATUS_SECONDARY 1 = [8] := by
  refine ⟨⟨_, rfl, ?_, ?_⟩, _, rfl, ?_, ?_⟩
  · decide
  · decide
  · decide
  · decide

/-! ## Untiled windows -/

theorem getNodeFromWindow_eq_none {s : COrthoLayout} {w : PHLWINDOWREF}
    (h : ∀ status ws, ∀ nd ∈ stackOf s status ws, nd.pWindow ≠ w) :
    getNodeFromWindow s w = none := by
  cases hf : getNodeFromWindow s w with
  | none => rfl
  | some r =>
    exfalso
    obtain ⟨h1, h2⟩ := lookup_slot hf
    exact h r.status r.ws r.nd (List.getElem?_mem h1) h2

/-- C23: for a window that no node of any stack references, `onWindowRemovedTiling`,
`recalculateWindow` and an `adjustweight` message (whatever its arguments) return
the engine state as it is: every stack (membership, order, weights, rectangles)
and every configuration entry is unchanged. -/
theorem untiled_noop (host : Host) (pWindow : CWindow) (s : COrthoLayout)
    (h : ∀ status ws, ∀ nd ∈ stackOf s status ws, nd.pWindow ≠ pWindow.handle) :
    onWindowRemovedTiling host pWindow s = some s ∧
    recalculateWindow host pWindow s = some s ∧
    ∀ vars, messageAdjustWeight host ⟨some pWindow⟩ vars s = s := by
  have hf := getNodeFromWindow_eq_none h
  refine ⟨?_, ?_, ?_⟩
  · unfold onWindowRemovedTiling
    rw [hf]
  · unfold recalculateWindow
    rw [hf]
  · intro vars
    unfold messageAdjustWeight
    simp only [hf]

/-- Witness of C23: window 9 on main stack [7] and secondary stack [8]. -/
theorem untiled_noop_witness :
    onWindowRemovedTiling (exampleHost 1 "") (exampleWindow 9) (exampleState [7] [8])
      = some (exampleState [7] [8]) ∧
    recalculateWindow (exampleHost 1 "") (exampleWindow 9) (exampleState [7] [8])
      = some (exampleState [7] [8]) ∧
    messageAdjustWeight (exampleHost 1 "") ⟨some (exampleWindow 9)⟩ ["adjustweight", "2"]
      (exampleState [7] [8]) = exampleState [7] [8] := by
  obtain ⟨h1, h2, h3⟩ := untiled_noop (exampleHost 1 "") (exampleWindow 9) (exampleState [7] [8])
    (by
      intro status ws nd hnd
      have hw : nd.pWindow ∈ wins (exampleState [7] [8]) status ws :=
        List.mem_map.mpr ⟨nd, hnd, rfl⟩
      have hon : nd.pWindow ∈ winsOn (exampleState [7] [8]) ws := by
        unfold winsOn
        cases status
        · exact List.mem_append_left _ hw
        · exact List.mem_append_right _ hw
      rw [winsOn_exampleState] at hon
      split at hon
      · intro e
        rw [e] at hon
        revert hon
        decide
      · cases hon)
  exact ⟨h1, h2, h3 _⟩

/-! ## Fullscreen short-circuit -/

/-- C24: on a workspace with a fullscreen window (either mode) `calculateWorkspace`
returns as soon as the configuration lookup has returned, with the state the
lookup left: both stack stores, hence the membership, order, weight, position and
size of every node, are exactly as before the call. -/
theorem fullscreen_untouched (host : Host) (pWorkspace : CWorkspace) (s : COrthoLayout)
    (hfs : pWorkspace.m_hasFullscreenWindow = true) :
    (∀ data s1, getOrthoWorkspaceData host pWorkspace.m_id s = some (data, s1) →
      calculateWorkspace host pWorkspace s = some s1) ∧
    (∀ s', calculateWorkspace host pWorkspace s = some s' →
      s'.m_mainStackByWorkspace = s.m_mainStackByWorkspace ∧
      s'.m_secondaryStackByWorkspace = s.m_secondaryStackByWorkspace ∧
      ∀ status ws, stackOf s' status ws = stackOf s status ws) := by
  have h1 : ∀ data s1, getOrthoWorkspaceData host pWorkspace.m_id s = some (data, s1) →
      calculateWorkspace host pWorkspace s = some s1 := by
    intro data s1 hD
    rw [calculateWorkspace_form hD, if_pos hfs]
  refine ⟨h1, ?_⟩
  intro s' h
  cases hD : getOrthoWorkspaceData host pWorkspace.m_id s with
  | none =>
    unfold calculateWorkspace at h
    simp [hD] at h
  | some ds =>
    obtain ⟨data, s1⟩ := ds
    rw [h1 data s1 hD] at h
    simp only [Option.some.injEq] at h
    subst h
    obtain ⟨hm, hs⟩ := getOrthoWorkspaceData_stores hD
    refine ⟨hm, hs, ?_⟩
    intro status ws
    cases status
    · simp [stackOf, hm]
    · simp [stackOf, hs]

/-- Witness of C24: a maximized window on workspace 1; the nodes 7 and 8 keep the
rectangles they had. -/
theorem fullscreen_untouched_witness :
    calculateWorkspace (exampleHost 1 "[]")
        { exampleWorkspace with m_hasFullscreenWindow := true,
                                m_fullscreenMode := eFullscreenMode.FSMODE_MAXIMIZED }
        (exampleLayout (exampleData eMainSide.MAIN_SIDE_LEFT false []) [(7, 1)] [(8, 1)])
      = some (exampleLayout (exampleData eMainSide.MAIN_SIDE_LEFT false []) [(7, 1)] [(8, 1)]) :=
  (fullscreen_untouched (exampleHost 1 "[]")
    { exampleWorkspace with m_hasFullscreenWindow := true,
                            m_fullscreenMode := eFullscreenMode.FSMODE_MAXIMIZED }
    (exampleLayout (exampleData eMainSide.MAIN_SIDE_LEFT false []) [(7, 1)] [(8, 1)]) rfl).1
    _ _ rfl

/-! ## Frame of the geometry computation -/

theorem getOrthoWorkspaceData_store_other {host : Host} {ws : WORKSPACEID} {s s1 : COrthoLayout}
    {data : SOrthoWorkspaceData} (h : getOrthoWorkspaceData host ws s = some (data, s1))
    (ws' : WORKSPACEID) (hne : ws' ≠ ws) :
    s1.m_orthoWorkspaceDataByWorkspace.find ws' = s.m_orthoWorkspaceDataByWorkspace.find ws' := by
  unfold getOrthoWorkspaceData at h
  cases hf : s.m_orthoWorkspaceDataByWorkspace.find ws with
  | some d =>
    rw [hf] at h
    simp only [Option.some.injEq, Prod.mk.injEq] at h
    rw [← h.2]
  | none =>
    rw [hf] at h
    simp only at h
    split at h
    · simp at h
    · simp only [Option.some.injEq, Prod.mk.injEq] at h
      rw [← h.2]
      simp only [UMap.find_set, if_neg hne]

/-- C28: a returning `calculateWorkspace` keeps every node of every stack in its
slot with its window reference, weight and fullscreen flag (also with overrides
active); the stacks of every other workspace are unchanged altogether; every
cached configuration entry is unchanged, and no entry of another workspace
appears. -/
theorem geometry_frame (host : Host) (pWorkspace : CWorkspace) (s s' : COrthoLayout)
    (h : calculateWorkspace host pWorkspace s = some s') :
    (∀ status ws, coreStack s' status ws = coreStack s status ws) ∧
    (∀ status ws, (stackOf s' status ws).map (fun nd => (nd.pWindow, nd.weight))
      = (stackOf s status ws).map (fun nd => (nd.pWindow, nd.weight))) ∧
    (∀ status ws, ws ≠ pWorkspace.m_id → stackOf s' status ws = stackOf s status ws) ∧
    (∀ ws data, s.m_orthoWorkspaceDataByWorkspace.find ws = some data →
      s'.m_orthoWorkspaceDataByWorkspace.find ws = some data) ∧
    (∀ ws, ws ≠ pWorkspace.m_id →
      s'.m_orthoWorkspaceDataByWorkspace.find ws = s.m_orthoWorkspaceDataByWorkspace.find ws) := by
  have hss := calculateWorkspace_sameStacks h
  refine ⟨hss, ?_, ?_, calculateWorkspace_keeps h, ?_⟩
  · intro status ws
    have := congrArg (List.map (fun nd : SOrthoNodeData => (nd.pWindow, nd.weight))) (hss status ws)
    simpa [coreStack, SOrthoNodeData.stripGeometry, Function.comp_def] using this
  · intro status ws hne
    cases hD : getOrthoWorkspaceData host pWorkspace.m_id s with
    | none =>
      unfold calculateWorkspace at h
      simp [hD] at h
    | some ds =>
      obtain ⟨data, s1⟩ := ds
      obtain ⟨hm, hs⟩ := getOrthoWorkspaceData_stores hD
      rw [calculateWorkspace_form hD] at h
      simp only [Option.some.injEq] at h
      subst h
      split
      · cases status
        · simp [stackOf, hm]
        · simp [stackOf, hs]
      · cases status
        · simp [stackOf, UMap.get_set, hne, hm]
        · simp [stackOf, UMap.get_set, hne, hs]
  · intro ws hne
    cases hD : getOrthoWorkspaceData host pWorkspace.m_id s with
    | none =>
      unfold calculateWorkspace at h
      simp [hD] at h
    | some ds =>
      obtain ⟨data, s1⟩ := ds
      rw [calculateWorkspace_store hD h]
      exact getOrthoWorkspaceData_store_other hD ws hne

/-- Witness of C28: Scenario E with overrides [2, 1] active; the three main nodes
keep their windows and their stored weights 5, 1, 1. -/
theorem geometry_frame_witness :
    ∃ s', calculateWorkspace (exampleHost 1 "[]") (exampleWorkspaceOf 1000 800)
        (exampleLayout (exampleData eMainSide.MAIN_SIDE_LEFT true [2, 1])
          [(7, 5), (8, 1), (9, 1)] []) = some s' ∧
      (stackOf s' eOrthoStatus.ORTHOSTATUS_MAIN 1).map (fun nd => (nd.pWindow, nd.weight))
        = [(7, 5), (8, 1), (9, 1)] ∧
      s'.m_orthoWorkspaceDataByWorkspace.find 1
        = some (exampleData eMainSide.MAIN_SIDE_LEFT true [2, 1]) := by
  obtain ⟨s', hc⟩ := calculateWorkspace_isSome (exampleHost 1 "[]") (exampleWorkspaceOf 1000 800)
    (exampleLayout (exampleData eMainSide.MAIN_SIDE_LEFT true [2, 1])
      [(7, 5), (8, 1), (9, 1)] []) (by decide)
  obtain ⟨_, h2, _, h4, _⟩ := geometry_frame _ _ _ s' hc
  refine ⟨s', hc, ?_, h4 1 _ rfl⟩
  rw [h2, (stackOf_exampleLayout _ _ _).1]
  rfl

/-! ## Next-window candidate -/

theorem getNextWindowCandidate_tiled (focus : Option FocusedMonitor) (pWindow : CWindow)
    (s : COrthoLayout) (r : SNodeLookupResult)
    (hfind : getNodeFromWindow s pWindow.handle = some r) :
    (getNextWindowCandidate focus pWindow s).1 =
      match (stackOf s r.status r.ws)[r.idx + 1]? with
      | some nd => some nd.pWindow
      | none =>
        match stackOf s (otherStatus r.status) r.ws with
        | nd :: _ => some nd.pWindow
        | [] => (stackOf s r.status r.ws).head?.map (fun nd => nd.pWindow) := by
  have hslot := lookup_slot hfind
  have hfs := getNodeFromWindow_some s pWindow.handle r hfind
  rw [← hslot.2] at hfs
  unfold getNextWindowCandidate
  simp only [hfind]
  cases hst : r.status with
  | ORTHOSTATUS_MAIN =>
    rw [hst] at hfs
    simp only [stackOf, otherStatus, if_true] at hfs ⊢
    rw [hfs]
    simp only
    cases (s.m_mainStackByWorkspace.get r.ws)[r.idx + 1]? with
    | some c => rfl
    | none =>
      simp only
      cases s.m_secondaryStackByWorkspace.get r.ws with
      | nil => rfl
      | cons c rest => rfl
  | ORTHOSTATUS_SECONDARY =>
    rw [hst] at hfs
    have hne : ¬ (eOrthoStatus.ORTHOSTATUS_SECONDARY = eOrthoStatus.ORTHOSTATUS_MAIN) := by decide
    simp only [stackOf, otherStatus, if_neg hne] at hfs ⊢
    rw [hfs]
    simp only
    cases (s.m_secondaryStackByWorkspace.get r.ws)[r.idx + 1]? with
    | some c => rfl
    | none =>
      simp only
      cases s.m_mainStackByWorkspace.get r.ws with
      | nil => rfl
      | cons c rest => rfl


/-- C29: for a tiled window found at index i of stack S on workspace ws, with T the
other stack of ws, `getNextWindowCandidate` returns the window of S[i+1] if i is
not the last index of S, otherwise the window of T[0] if T is non-empty, otherwise
the window of S[0].  The result is the window of a node on ws, and on a workspace
with a single tiled window it is that window. -/
theorem next_candidate (focus : Option FocusedMonitor) (pWindow : CWindow) (s : COrthoLayout)
    (r : SNodeLookupResult) (hfind : getNodeFromWindow s pWindow.handle = some r) :
    (r.idx + 1 < (stackOf s r.status r.ws).length →
      (getNextWindowCandidate focus pWindow s).1 =
        ((stackOf s r.status r.ws)[r.idx + 1]?).map (fun nd => nd.pWindow)) ∧
    ((stackOf s r.status r.ws).length ≤ r.idx + 1 →
      stackOf s (otherStatus r.status) r.ws ≠ [] →
      (getNextWindowCandidate focus pWindow s).1 =
        (stackOf s (otherStatus r.status) r.ws).head?.map (fun nd => nd.pWindow)) ∧
    ((stackOf s r.status r.ws).length ≤ r.idx + 1 →
      stackOf s (otherStatus r.status) r.ws = [] →
      (getNextWindowCandidate focus pWindow s).1 =
        (stackOf s r.status r.ws).head?.map (fun nd => nd.pWindow)) ∧
    (∃ status nd, nd ∈ stackOf s status r.ws ∧
      (getNextWindowCandidate focus pWindow s).1 = some nd.pWindow) ∧
    ((stackOf s r.status r.ws).length = 1 → stackOf s (otherStatus r.status) r.ws = [] →
      (getNextWindowCandidate focus pWindow s).1 = some pWindow.handle) := by
  have hres := getNextWindowCandidate_tiled focus pWindow s r hfind
  obtain ⟨hslot, hpw⟩ := lookup_slot hfind
  have hidx : r.idx < (stackOf s r.status r.ws).length := by
    rcases Nat.lt_or_ge r.idx (stackOf s r.status r.ws).length with h | h
    · exact h
    · rw [List.getElem?_eq_none h] at hslot; cases hslot
  have c1 : r.idx + 1 < (stackOf s r.status r.ws).length →
      (getNextWindowCandidate focus pWindow s).1 =
        ((stackOf s r.status r.ws)[r.idx + 1]?).map (fun nd => nd.pWindow) := by
    intro h
    rw [hres, List.getElem?_eq_getElem h]
    rfl
  have c2 : (stackOf s r.status r.ws).length ≤ r.idx + 1 →
      stackOf s (otherStatus r.status) r.ws ≠ [] →
      (getNextWindowCandidate focus pWindow s).1 =
        (stackOf s (otherStatus r.status) r.ws).head?.map (fun nd => nd.pWindow) := by
    intro h hne
    rw [hres, List.getElem?_eq_none h]
    cases hT : stackOf s (otherStatus r.status) r.ws with
    | nil => exact absurd hT hne
    | cons c rest => rfl
  have c3 : (stackOf s r.status r.ws).length ≤ r.idx + 1 →
      stackOf s (otherStatus r.status) r.ws = [] →
      (getNextWindowCandidate focus pWindow s).1 =
        (stackOf s r.status r.ws).head?.map (fun nd => nd.pWindow) := by
    intro h hT
    rw [hres, List.getElem?_eq_none h, hT]
  refine ⟨c1, c2, c3, ?_, ?_⟩
  · rcases Nat.lt_or_ge (r.idx + 1) (stackOf s r.status r.ws).length with h | h
    · refine ⟨r.status, (stackOf s r.status r.ws)[r.idx + 1], List.getElem_mem _, ?_⟩
      rw [c1 h, List.getElem?_eq_getElem h]
      rfl
    · cases hT : stackOf s (otherStatus r.status) r.ws with
      | cons c rest =>
        refine ⟨otherStatus r.status, c, by rw [hT]; exact List.mem_cons_self _ _, ?_⟩
        rw [c2 h (by rw [hT]; simp), hT]
        rfl
      | nil =>
        cases hS : stackOf s r.status r.ws with
        | nil => rw [hS] at hidx; cases hidx
        | cons c rest =>
          refine ⟨r.status, c, by rw [hS]; exact List.mem_cons_self _ _, ?_⟩
          rw [c3 h hT, hS]
          rfl
  · intro h1 hT
    have h0 : r.idx = 0 := by omega
    rw [c3 (by omega) hT]
    rw [h0] at hslot
    cases hS : stackOf s r.status r.ws with
    | nil => rw [hS] at h1; cases h1
    | cons c rest =>
      rw [hS] at hslot
      simp only [List.getElem?_cons_zero, Option.some.injEq] at hslot
      rw [← hpw, ← hslot]
      rfl

/-- Witness of C29: main stack [7, 8], secondary stack [9]: after 7 comes 8, after 8
comes 9, after 9 comes 7. -/
theorem next_candidate_witness :
    (getNextWindowCandidate none (exampleWindow 7) (exampleState [7, 8] [9])).1 = some 8 ∧
    (getNextWindowCandidate none (exampleWindow 8) (exampleState [7, 8] [9])).1 = some 9 ∧
    (getNextWindowCandidate none (exampleWindow 9) (exampleState [7, 8] [9])).1 = some 7 := by
  have h7 := (next_candidate none (exampleWindow 7) (exampleState [7, 8] [9])
    ⟨0, { pWindow := 7 }, 1, eOrthoStatus.ORTHOSTATUS_MAIN⟩ rfl).1 (by decide)
  have h8 := (next_candidate none (exampleWindow 8) (exampleState [7, 8] [9])
    ⟨1, { pWindow := 8 }, 1, eOrthoStatus.ORTHOSTATUS_MAIN⟩ rfl).2.1 (by decide) (by decide)
  have h9 := (next_candidate none (exampleWindow 9) (exampleState [7, 8] [9])
    ⟨0, { pWindow := 9 }, 1, eOrthoStatus.ORTHOSTATUS_SECONDARY⟩ rfl).2.1 (by decide) (by decide)
  exact ⟨h7, h8, h9⟩

/-! ## Gaps applied to the window -/

theorem Vector2D.eq_of {a b : Vector2D} (hx : a.x = b.x) (hy : a.y = b.y) : a = b := by
  cases a; cases b
  simp only at hx hy
  rw [hx, hy]

/-- C25: for a live, valid and mapped window that is not fullscreen, with size
limits disabled, `applyNodeDataToWindow` stores the node rectangle in the window
and computes the box (before rounding) at node.position + (gL, gT) +
reserved.topLeft with size node.size - (gL + gR, gT + gB) - (reserved.topLeft +
reserved.bottomRight), where each of the four gaps is the outer gap if that edge
of the node rectangle sticks to the same edge of the monitor's usable area and
the inner gap otherwise. -/
theorem per_edge_gaps (env : ApplyEnv) (pNode : SOrthoNodeData) (ws : WORKSPACEID)
    (PMONITOR : MonitorGeometry) (PWINDOW : WindowView)
    (hmon : env.monitorOf ws = some PMONITOR) (hlock : env.lock pNode.pWindow = some PWINDOW)
    (hvalid : PWINDOW.validMapped = true) (hfs : PWINDOW.isFullscreen = false)
    (hclamp : env.PCLAMP_TILED = 0) :
    ∃ w, applyNodeDataToWindow env pNode ws = ApplyResult.applied w ∧
      w.m_position = pNode.position ∧ w.m_size = pNode.size ∧
      w.boxPos = pNode.position +
        ⟨edgeGap (env.STICKS pNode.position.x (PMONITOR.m_position.x + PMONITOR.m_reservedTopLeft.x))
            (PWINDOW.ruleGapsOut.getD env.PGAPSOUT).m_left
            (PWINDOW.ruleGapsIn.getD env.PGAPSIN).m_left,
          edgeGap (env.STICKS pNode.position.y (PMONITOR.m_position.y + PMONITOR.m_reservedTopLeft.y))
            (PWINDOW.ruleGapsOut.getD env.PGAPSOUT).m_top
            (PWINDOW.ruleGapsIn.getD env.PGAPSIN).m_top⟩ + PWINDOW.reservedTopLeft ∧
      w.boxSize = pNode.size -
        ⟨edgeGap (env.STICKS pNode.position.x (PMONITOR.m_position.x + PMONITOR.m_reservedTopLeft.x))
            (PWINDOW.ruleGapsOut.getD env.PGAPSOUT).m_left
            (PWINDOW.ruleGapsIn.getD env.PGAPSIN).m_left +
          edgeGap (env.STICKS (pNode.position.x + pNode.size.x)
              (PMONITOR.m_position.x + PMONITOR.m_size.x - PMONITOR.m_reservedBottomRight.x))
            (PWINDOW.ruleGapsOut.getD env.PGAPSOUT).m_right
            (PWINDOW.ruleGapsIn.getD env.PGAPSIN).m_right,
          edgeGap (env.STICKS pNode.position.y (PMONITOR.m_position.y + PMONITOR.m_reservedTopLeft.y))
            (PWINDOW.ruleGapsOut.getD env.PGAPSOUT).m_top
            (PWINDOW.ruleGapsIn.getD env.PGAPSIN).m_top +
          edgeGap (env.STICKS (pNode.position.y + pNode.size.y)
              (PMONITOR.m_position.y + PMONITOR.m_size.y - PMONITOR.m_reservedBottomRight.y))
            (PWINDOW.ruleGapsOut.getD env.PGAPSOUT).m_bottom
            (PWINDOW.ruleGapsIn.getD env.PGAPSIN).m_bottom⟩ -
        (PWINDOW.reservedTopLeft + PWINDOW.reservedBottomRight) ∧
      (w.m_realPosition, w.m_realSize) = env.round (w.boxPos, w.boxSize) := by
  unfold applyNodeDataToWindow
  simp only [hmon, hlock, hvalid, hfs, hclamp]
  refine ⟨_, rfl, rfl, rfl, ?_, ?_, ?_⟩
  · apply Vector2D.eq_of
    · cases PWINDOW.onSpecialWorkspace <;>
        simp [Vector2D.add_x, edgeGap]
    · cases PWINDOW.onSpecialWorkspace <;>
        simp [Vector2D.add_y, edgeGap]
  · apply Vector2D.eq_of
    · cases PWINDOW.onSpecialWorkspace <;>
        simp [Vector2D.add_x, Vector2D.sub_x, edgeGap] <;>
        split <;> split <;> ring
    · cases PWINDOW.onSpecialWorkspace <;>
        simp [Vector2D.add_y, Vector2D.sub_y, edgeGap] <;>
        split <;> split <;> ring
  · simp


/-- Witness of C25: on the 1920x1080 monitor with inner gaps 5 and outer gaps 20
the left half (0, 0, 960, 1080) gets the box (20, 20, 935, 1040): outer gaps on
the left, top and bottom edges, the inner gap on the right edge. -/
theorem per_edge_gaps_witness :
    ∃ w, applyNodeDataToWindow exampleApplyEnv
        { pWindow := 7, position := ⟨0, 0⟩, size := ⟨960, 1080⟩ } 1 = ApplyResult.applied w ∧
      (w.boxPos.x, w.boxPos.y, w.boxSize.x, w.boxSize.y) = (20, 20, 935, 1040) := by
  obtain ⟨w, h, _, _, hp, hs, _⟩ := per_edge_gaps exampleApplyEnv
    { pWindow := 7, position := ⟨0, 0⟩, size := ⟨960, 1080⟩ } 1
    ⟨⟨0, 0⟩, ⟨1920, 1080⟩, ⟨0, 0⟩, ⟨0, 0⟩⟩
    { isFullscreen := false, validMapped := true, onSpecialWorkspace := false,
      ruleGapsIn := none, ruleGapsOut := none,
      reservedTopLeft := ⟨0, 0⟩, reservedBottomRight := ⟨0, 0⟩ }
    rfl rfl rfl rfl rfl
  refine ⟨w, h, ?_⟩
  rw [hp, hs]
  simp [exampleApplyEnv, edgeGap, Vector2D.add_x, Vector2D.add_y, Vector2D.sub_x, Vector2D.sub_y]
  norm_num [abs_lt]

/-! ## Dead window references -/

/-- When the monitor is found and the node's window reference is dead, the null
handle is dereferenced (`PWINDOW->m_workspace`, line 408) before
`validMapped(PWINDOW)` is asked (line 425). -/
theorem applyNodeDataToWindow_dead (env : ApplyEnv) (pNode : SOrthoNodeData) (ws : WORKSPACEID)
    (PMONITOR : MonitorGeometry) (hmon : env.monitorOf ws = some PMONITOR)
    (hdead : env.lock pNode.pWindow = none) :
    applyNodeDataToWindow env pNode ws = ApplyResult.fault := by
  unfold applyNodeDataToWindow
  simp only [hmon, hdead]

/-- A live window that is not valid or not mapped gets no position or size. -/
theorem applyNodeDataToWindow_invalid (env : ApplyEnv) (pNode : SOrthoNodeData)
    (ws : WORKSPACEID) (PWINDOW : WindowView) (hlock : env.lock pNode.pWindow = some PWINDOW)
    (hinvalid : PWINDOW.validMapped = false) :
    applyNodeDataToWindow env pNode ws = ApplyResult.skipped := by
  unfold applyNodeDataToWindow
  cases env.monitorOf ws with
  | none => rfl
  | some PMONITOR =>
    simp only [hlock, hinvalid]
    split <;> rfl

/-- C26, the code at the failing input: the node of window 9, whose reference is
dead, on workspace 1 of the example compositor: the call faults instead of
returning. -/
theorem dead_reference_faults :
    exampleApplyEnv.lock 9 = none ∧
    applyNodeDataToWindow exampleApplyEnv
      { pWindow := 9, position := ⟨0, 0⟩, size := ⟨960, 1080⟩ } 1 = ApplyResult.fault :=
  ⟨rfl, applyNodeDataToWindow_dead exampleApplyEnv _ 1 ⟨⟨0, 0⟩, ⟨1920, 1080⟩, ⟨0, 0⟩, ⟨0, 0⟩⟩
    rfl rfl⟩

/-! ## Shape of the stacks in reachable states -/

/-- Where Create puts the new node, from a call that returned. -/
theorem create_core_target {host : Host} {pWindow : CWindow} {s s' : COrthoLayout}
    (h : onWindowCreatedTiling host pWindow s = some s')
    (hfl : pWindow.m_isFloating = false) :
    ∀ status ws, coreStack s' status ws =
      if status = (if getMainStackSize s pWindow.workspaceID
              < toInt32 (if host.PMAINSTACKMIN ≥ 1 then host.PMAINSTACKMIN else 1)
            then eOrthoStatus.ORTHOSTATUS_MAIN else eOrthoStatus.ORTHOSTATUS_SECONDARY)
          ∧ ws = pWindow.workspaceID
      then coreStack s status ws ++ [{ pWindow := pWindow.handle, weight := 1 }]
      else coreStack s status ws := by
  unfold onWindowCreatedTiling at h
  simp only [hfl, Bool.false_eq_true, if_false] at h
  cases h1 : getOrthoWorkspaceData host pWindow.workspaceID s with
  | none => simp [h1] at h
  | some ds =>
    obtain ⟨data, s1⟩ := ds
    obtain ⟨hm, hs⟩ := getOrthoWorkspaceData_stores h1
    simp only [h1] at h
    have hsize : getMainStackSize s1 pWindow.workspaceID
        = getMainStackSize s pWindow.workspaceID := by
      simp [getMainStackSize, hm]
    rw [hsize] at h
    have key : ∀ target : eOrthoStatus,
        recalculateMonitor host pWindow.monitorID
          (setStackOf s1 target pWindow.workspaceID
            (stackOf s1 target pWindow.workspaceID ++ [{ pWindow := pWindow.handle }])) = some s' →
        ∀ status ws, coreStack s' status ws =
          if status = target ∧ ws = pWindow.workspaceID
          then coreStack s status ws ++ [{ pWindow := pWindow.handle, weight := 1 }]
          else coreStack s status ws := by
      intro target hr status ws
      rw [recalculateMonitor_sameStacks hr status ws]
      unfold coreStack
      rw [stackOf_setStackOf]
      by_cases hc : status = target ∧ ws = pWindow.workspaceID
      · obtain ⟨hst, hws⟩ := hc
        subst hst; subst hws
        simp [stackOf_eq_of_stores hm hs, SOrthoNodeData.stripGeometry]
      · simp only [hc, if_false, stackOf_eq_of_stores hm hs]
    generalize toInt32 (if host.PMAINSTACKMIN ≥ 1 then host.PMAINSTACKMIN else 1) = mn at h ⊢
    by_cases hlt : getMainStackSize s pWindow.workspaceID < mn
    · rw [if_pos hlt] at h ⊢
      exact key _ h
    · rw [if_neg hlt] at h ⊢
      exact key _ h

/-- The stack lengths after a removal that returned, with unique references. -/
theorem remove_lengths {host : Host} {pWindow : CWindow} {s s' : COrthoLayout}
    (h : onWindowRemovedTiling host pWindow s = some s') (hu : WindowsUnique s) :
    s' = s ∨
    ∃ r : SNodeLookupResult,
      (∀ status ws, ws ≠ r.ws → coreStack s' status ws = coreStack s status ws) ∧
      ((r.status = eOrthoStatus.ORTHOSTATUS_SECONDARY ∧
          1 ≤ (stackOf s eOrthoStatus.ORTHOSTATUS_SECONDARY r.ws).length ∧
          (coreStack s' eOrthoStatus.ORTHOSTATUS_MAIN r.ws).length
            = (stackOf s eOrthoStatus.ORTHOSTATUS_MAIN r.ws).length ∧
          (coreStack s' eOrthoStatus.ORTHOSTATUS_SECONDARY r.ws).length
            = (stackOf s eOrthoStatus.ORTHOSTATUS_SECONDARY r.ws).length - 1) ∨
        (r.status = eOrthoStatus.ORTHOSTATUS_MAIN ∧
          1 ≤ (stackOf s eOrthoStatus.ORTHOSTATUS_MAIN r.ws).length ∧
          (((stackOf s eOrthoStatus.ORTHOSTATUS_MAIN r.ws).length - 1
                < toSizeT host.PMAINSTACKMIN ∧
              1 ≤ (stackOf s eOrthoStatus.ORTHOSTATUS_SECONDARY r.ws).length ∧
              (coreStack s' eOrthoStatus.ORTHOSTATUS_MAIN r.ws).length
                = (stackOf s eOrthoStatus.ORTHOSTATUS_MAIN r.ws).length ∧
              (coreStack s' eOrthoStatus.ORTHOSTATUS_SECONDARY r.ws).length
                = (stackOf s eOrthoStatus.ORTHOSTATUS_SECONDARY r.ws).length - 1) ∨
            (((stackOf s eOrthoStatus.ORTHOSTATUS_SECONDARY r.ws).length = 0 ∨
                ¬ (stackOf s eOrthoStatus.ORTHOSTATUS_MAIN r.ws).length - 1
                  < toSizeT host.PMAINSTACKMIN) ∧
              (coreStack s' eOrthoStatus.ORTHOSTATUS_MAIN r.ws).length
                = (stackOf s eOrthoStatus.ORTHOSTATUS_MAIN r.ws).length - 1 ∧
              (coreStack s' eOrthoStatus.ORTHOSTATUS_SECONDARY r.ws).length
                = (stackOf s eOrthoStatus.ORTHOSTATUS_SECONDARY r.ws).length)))) := by
  rcases remove_core_of_some h with ⟨_, he⟩ | ⟨r, hfind, hother, M1, S1, hM1, hS1, hM, hS⟩
  · exact Or.inl he
  · right
    refine ⟨r, hother, ?_⟩
    obtain ⟨_, hslot, herase⟩ := lookup_stack_split hfind hu
    have hidx : r.idx < (stackOf s r.status r.ws).length := by
      rcases Nat.lt_or_ge r.idx (stackOf s r.status r.ws).length with h | h
      · exact h
      · rw [List.getElem?_eq_none h] at hslot; cases hslot
    have hlen : (eraseNode (stackOf s r.status r.ws) r.nd).length
        = (stackOf s r.status r.ws).length - 1 := by
      rw [herase, List.length_eraseIdx, if_pos hidx]
    rw [hM, hS, List.length_map, List.length_map]
    cases hst : r.status with
    | ORTHOSTATUS_SECONDARY =>
      left
      rw [hst] at hlen hidx
      have hne : ¬ (eOrthoStatus.ORTHOSTATUS_SECONDARY = eOrthoStatus.ORTHOSTATUS_MAIN) := by
        decide
      rw [hst, if_neg hne] at hM1 hS1
      rw [promoteLast_secondary, hM1, hS1]
      exact ⟨rfl, by omega, rfl, hlen⟩
    | ORTHOSTATUS_MAIN =>
      right
      rw [hst] at hlen hidx
      rw [hst, if_pos rfl] at hM1 hS1
      refine ⟨rfl, by omega, ?_⟩
      obtain ⟨htot, hprom, hkeep⟩ := promoteLast_lengths host eOrthoStatus.ORTHOSTATUS_MAIN M1 S1
      have hM1len : M1.length = (stackOf s eOrthoStatus.ORTHOSTATUS_MAIN r.ws).length - 1 := by
        rw [hM1]; exact hlen
      have hS1len : S1.length = (stackOf s eOrthoStatus.ORTHOSTATUS_SECONDARY r.ws).length := by
        rw [hS1]
      by_cases hc : eOrthoStatus.ORTHOSTATUS_MAIN = eOrthoStatus.ORTHOSTATUS_MAIN ∧
          M1.length < toSizeT host.PMAINSTACKMIN ∧ S1 ≠ []
      · left
        have h1 := hprom hc
        have hS1pos : 1 ≤ S1.length := by
          rcases hS1' : S1 with _ | ⟨a, l⟩
          · exact absurd hS1' hc.2.2
          · simp
        refine ⟨by rw [← hM1len]; exact hc.2.1, by omega, by omega, by omega⟩
      · right
        have h1 := hkeep hc
        refine ⟨?_, by omega, by omega⟩
        by_cases hnil : S1 = []
        · left
          rw [← hS1len, hnil]
          rfl
        · right
          rw [← hM1len]
          exact fun hh => hc ⟨rfl, hh, hnil⟩



theorem lengthShape_of_lengths {m : Int} {s s' : COrthoLayout} (hp : LengthShape m s)
    (h : ∀ status ws, (stackOf s' status ws).length = (stackOf s status ws).length) :
    LengthShape m s' := by
  intro ws
  rw [h, h]
  exact hp ws

theorem stack_length_of_core {s s' : COrthoLayout} {status : eOrthoStatus} {ws : WORKSPACEID}
    (h : coreStack s' status ws = coreStack s status ws) :
    (stackOf s' status ws).length = (stackOf s status ws).length := by
  rw [← coreStack_length, h, coreStack_length]

theorem create_shape {m : Int} (hm1 : 1 ≤ m) (hm2 : m < 2 ^ 31) {host : Host}
    {pWindow : CWindow} {s s' : COrthoLayout} (hmin : host.PMAINSTACKMIN = m)
    (h : onWindowCreatedTiling host pWindow s = some s') (hp : LengthShape m s) :
    LengthShape m s' := by
  rcases create_core h with ⟨_, he⟩ | ⟨hfl, _⟩
  · rw [he]; exact hp
  · have hcore := create_core_target h hfl
    have hmn : toInt32 (if host.PMAINSTACKMIN ≥ 1 then host.PMAINSTACKMIN else 1) = m := by
      rw [hmin, if_pos hm1]
      exact toInt32_eq m hm1 hm2
    rw [hmn] at hcore
    have hlen : ∀ status ws, (stackOf s' status ws).length =
        if status = (if getMainStackSize s pWindow.workspaceID < m
              then eOrthoStatus.ORTHOSTATUS_MAIN else eOrthoStatus.ORTHOSTATUS_SECONDARY)
            ∧ ws = pWindow.workspaceID
        then (stackOf s status ws).length + 1 else (stackOf s status ws).length := by
      intro status ws
      rw [← coreStack_length, hcore]
      generalize (if getMainStackSize s pWindow.workspaceID < m
        then eOrthoStatus.ORTHOSTATUS_MAIN else eOrthoStatus.ORTHOSTATUS_SECONDARY) = tgt
      by_cases hc : status = tgt ∧ ws = pWindow.workspaceID
      · rw [if_pos hc, if_pos hc, List.length_append, coreStack_length]
        rfl
      · rw [if_neg hc, if_neg hc, coreStack_length]
    have hsz : getMainStackSize s pWindow.workspaceID
        = ((stackOf s eOrthoStatus.ORTHOSTATUS_MAIN pWindow.workspaceID).length : Int) := rfl
    intro ws
    obtain ⟨h1, h2⟩ := hp ws
    rw [hlen, hlen]
    by_cases hws : ws = pWindow.workspaceID
    · subst hws
      rw [hsz]
      by_cases hlt : ((stackOf s eOrthoStatus.ORTHOSTATUS_MAIN pWindow.workspaceID).length : Int)
          < m
      · have h2' := h2 hlt
        simp only [if_pos hlt, true_and, and_true, if_true, reduceCtorEq, if_false]
        constructor
        · push_cast; omega
        · intro _; exact h2'
      · simp only [if_neg hlt, true_and, and_true, if_true, reduceCtorEq, if_false]
        constructor
        · exact h1
        · intro hh; exact absurd hh hlt
    · simp only [hws, and_false, if_false]
      exact ⟨h1, h2⟩

theorem remove_shape {m : Int} (hm1 : 1 ≤ m) (hm2 : m < 2 ^ 31) {host : Host}
    {pWindow : CWindow} {s s' : COrthoLayout} (hmin : host.PMAINSTACKMIN = m)
    (h : onWindowRemovedTiling host pWindow s = some s') (hu : WindowsUnique s)
    (hp : LengthShape m s) : LengthShape m s' := by
  rcases remove_lengths h hu with he | ⟨r, hother, hcase⟩
  · rw [he]; exact hp
  · intro ws
    by_cases hws : ws = r.ws
    · subst hws
      obtain ⟨h1, h2⟩ := hp r.ws
      rw [← coreStack_length, ← coreStack_length]
      have hts : ∀ n : Nat, n < toSizeT host.PMAINSTACKMIN ↔ (n : Int) < m := by
        intro n
        rw [hmin]
        exact toSizeT_lt m n (by omega) (by omega)
      rcases hcase with ⟨_, hpos, hM, hS⟩ | ⟨_, hpos, ⟨hlt, hspos, hM, hS⟩ | ⟨hor, hM, hS⟩⟩
      · rw [hM, hS]
        refine ⟨h1, ?_⟩
        intro hh
        have := h2 hh
        omega
      · rw [hM, hS]
        refine ⟨h1, ?_⟩
        intro hh
        have := h2 hh
        omega
      · rw [hM, hS]
        constructor
        · omega
        · intro hh
          rcases hor with h0 | hnlt
          · exact h0
          · exfalso
            apply hnlt
            rw [hts]
            exact hh
    · rw [stack_length_of_core (hother _ ws hws), stack_length_of_core (hother _ ws hws)]
      exact hp ws

theorem switch_shape {m : Int} {host : Host} {pWindowA pWindowB : CWindow} {s s' : COrthoLayout}
    (h : switchWindows host pWindowA pWindowB s = some s') (hu : WindowsUnique s)
    (hp : LengthShape m s) : LengthShape m s' := by
  obtain ⟨σ, _, hw⟩ := switch_core h hu
  apply lengthShape_of_lengths hp
  intro status ws
  have := congrArg List.length (hw status ws)
  simpa [wins] using this

/-- C27: with a configured minimum m, 1 <= m, in every state reached from the empty
engine by Create (of windows not tiled yet), Remove and Swap, every workspace has
at most m main nodes, has secondary nodes only if it has m main nodes, and so has
no secondary node when its main stack is empty; window references are unique. -/
theorem reachable_shape (m : Int) (hm1 : 1 ≤ m) (hm2 : m < 2 ^ 31) (s : COrthoLayout)
    (h : ReachableWith m s) :
    (∀ ws, StackShape m s ws) ∧
    (∀ ws, getMainStackSize s ws = 0 → getSecondaryStackSize s ws = 0) ∧
    WindowsUnique s := by
  have key : WindowsUnique s ∧ LengthShape m s := by
    induction h with
    | init =>
      refine ⟨windowsUnique_init, ?_⟩
      intro ws
      have e1 : stackOf COrthoLayout.init eOrthoStatus.ORTHOSTATUS_MAIN ws = [] := rfl
      have e2 : stackOf COrthoLayout.init eOrthoStatus.ORTHOSTATUS_SECONDARY ws = [] := rfl
      rw [e1, e2]
      simp only [List.length_nil, Nat.cast_zero, implies_true, and_true]
      omega
    | create _ hmin hnone hc ih =>
      exact ⟨(create_unique hc (not_mem_winsOn (getNodeFromWindow_none _ _ hnone)) ih.1).1,
        create_shape hm1 hm2 hmin hc ih.2⟩
    | remove _ hmin hr ih =>
      exact ⟨(remove_unique hr ih.1).1, remove_shape hm1 hm2 hmin hr ih.1 ih.2⟩
    | switch _ _ hs ih =>
      exact ⟨windowsUnique_of_wins_map (switch_core hs ih.1) ih.1, switch_shape hs ih.1 ih.2⟩
  obtain ⟨hu, hp⟩ := key
  have hshape : ∀ ws, StackShape m s ws := by
    intro ws
    obtain ⟨h1, h2⟩ := hp ws
    refine ⟨h1, ?_⟩
    intro hh
    have := h2 hh
    show ((stackOf s eOrthoStatus.ORTHOSTATUS_SECONDARY ws).length : Int) = 0
    rw [this]
    rfl
  refine ⟨hshape, ?_, hu⟩
  intro ws h0
  apply (hshape ws).2
  rw [h0]
  omega


/-- Witness of C27: minimum 1, windows 7 and 8 created: one main node, one
secondary node. -/
theorem reachable_shape_witness :
    ∃ s1 s2,
      onWindowCreatedTiling (exampleHost 1 "[]") (exampleWindow 7) COrthoLayout.init = some s1 ∧
      onWindowCreatedTiling (exampleHost 1 "[]") (exampleWindow 8) s1 = some s2 ∧
      getMainStackSize s2 1 = 1 ∧ getSecondaryStackSize s2 1 = 1 ∧ StackShape 1 s2 1 := by
  have r1 := @ReachableWith.create 1 (exampleHost 1 "[]") (exampleWindow 7) COrthoLayout.init _
    ReachableWith.init rfl (by decide) rfl
  have r2 := @ReachableWith.create 1 (exampleHost 1 "[]") (exampleWindow 8) _ _ r1 rfl
    (by decide) rfl
  exact ⟨_, _, rfl, rfl, by decide, by decide,
    (reachable_shape 1 (by norm_num) (by norm_num) _ r2).1 1⟩

/-! ## Size prediction -/

/-- C30, the code at the failing input: minimum 2, split 0.5, a 1920x1080 monitor
without reserved area, main stack [7 (weight 1)], secondary stack empty,
no override.  The prediction is 480x1080, while Create followed by the recompute
gives the new window 8 the node size 960x1080: with an empty secondary stack the
layout splits the full width, the prediction only the main-side percentage of
it. -/
theorem predicted_size_differs :
    (predictSizeForNewWindowTiled (exampleHost 2 "[]") (some ⟨⟨1920, 1080⟩, some 1⟩)
        (exampleLayout (exampleData eMainSide.MAIN_SIDE_LEFT false []) [(7, 1)] [])).map
      (fun r => (r.1.x, r.1.y)) = some (480, 1080) ∧
    ∃ s', onWindowCreatedTiling (exampleHost 2 "[]") (exampleWindow 8)
        (exampleLayout (exampleData eMainSide.MAIN_SIDE_LEFT false []) [(7, 1)] []) = some s' ∧
      (stackOf s' eOrthoStatus.ORTHOSTATUS_MAIN 1).map
          (fun nd => (nd.pWindow, nd.size.x, nd.size.y))
        = [(7, 960, 1080), (8, 960, 1080)] ∧
      stackOf s' eOrthoStatus.ORTHOSTATUS_SECONDARY 1 = [] := by
  constructor
  · have h2 : toSizeT (toInt32 (if (exampleHost 2 "[]").PMAINSTACKMIN ≥ 1
        then (exampleHost 2 "[]").PMAINSTACKMIN else 1)) = 2 := by decide
    unfold predictSizeForNewWindowTiled
    simp only [h2]
    simp [exampleLayout, exampleData, UMap.get, UMap.find, UMap.findEntries]
    norm_num
  · have hcreate : onWindowCreatedTiling (exampleHost 2 "[]") (exampleWindow 8)
        (exampleLayout (exampleData eMainSide.MAIN_SIDE_LEFT false []) [(7, 1)] [])
        = calculateWorkspace (exampleHost 2 "[]") exampleWorkspace
            (exampleLayout (exampleData eMainSide.MAIN_SIDE_LEFT false [])
              [(7, 1), (8, 1)] []) := by
      rfl
    have hmain : stackOf (exampleLayout (exampleData eMainSide.MAIN_SIDE_LEFT false [])
        [(7, 1), (8, 1)] []) eOrthoStatus.ORTHOSTATUS_MAIN exampleWorkspace.m_id ≠ [] := by
      simp [exampleWorkspace, (stackOf_exampleLayout _ _ _).1]
    obtain ⟨s', hc, hM, hS⟩ := @calculateWorkspace_stacks (exampleHost 2 "[]") exampleWorkspace
      (exampleLayout (exampleData eMainSide.MAIN_SIDE_LEFT false []) [(7, 1), (8, 1)] [])
      _ _ rfl rfl hmain
    refine ⟨s', hcreate.trans hc, ?_, ?_⟩
    · have hM' : stackOf s' eOrthoStatus.ORTHOSTATUS_MAIN 1 = _ := hM
      rw [hM']
      simp [exampleWorkspace, (stackOf_exampleLayout _ _ _).1, (stackOf_exampleLayout _ _ _).2,
        splitWidth, usableSize, usablePos, Vector2D.sub_x, Vector2D.sub_y, Vector2D.add_x,
        Vector2D.add_y, mainStackLoop_cons, mainStackLoop, loopWeights, mainTotalWeight,
        exampleData]
      norm_num
    · have hS' : stackOf s' eOrthoStatus.ORTHOSTATUS_SECONDARY 1 = _ := hS
      rw [hS']
      simp [exampleWorkspace, (stackOf_exampleLayout _ _ _).2, secondaryStackLoop]

end OrthoLayout
